import Mathlib

/-!
# vksample: swapchain lifecycle and per-frame synchronisation

A shallow embedding of `VulkanTutorial/main.cpp` (class `HelloTriangleApplication`).

The member functions that drive the frame loop are embedded as state-passing
functions over a `World` (the application members plus the handle allocator of
the platform) that also return the list of platform calls they issued.  What
the platform answers to each call is an input of the embedding (`FrameEnv`,
`RecreateEnv`), so every statement below quantifies over all behaviours of the
GPU driver and of the window system.

The functions that choose among what the platform reports (queue families,
surface formats, present modes, extents, image counts, physical devices, memory
types) are embedded as pure functions of the reported values.
-/

namespace VkSample

/-! ## Platform constants and plain data -/

/-- Values of the C enum `VkResult`. -/
abbrev VkResult := Int

def VK_SUCCESS : VkResult := 0
def VK_NOT_READY : VkResult := 1
def VK_TIMEOUT : VkResult := 2
def VK_ERROR_DEVICE_LOST : VkResult := -4
def VK_ERROR_SURFACE_LOST_KHR : VkResult := -1000000000
def VK_SUBOPTIMAL_KHR : VkResult := 1000001003
def VK_ERROR_OUT_OF_DATE_KHR : VkResult := -1000001004

/-- The source constant `const int MAX_FRAMES_IN_FLIGHT = 2;`. -/
def MAX_FRAMES_IN_FLIGHT : Nat := 2

/-- Number of values of a `uint32_t`. -/
def UINT32_SIZE : Nat := 4294967296

/-- The value `std::numeric_limits<uint32_t>::max()`. -/
def UINT32_MAX : Nat := 4294967295

def VK_PIPELINE_STAGE_COLOR_ATTACHMENT_OUTPUT_BIT : Nat := 1024
def VK_FORMAT_B8G8R8A8_SRGB : Nat := 50
def VK_COLOR_SPACE_SRGB_NONLINEAR_KHR : Nat := 0
def VK_PRESENT_MODE_MAILBOX_KHR : Nat := 1
def VK_PRESENT_MODE_FIFO_KHR : Nat := 2
def VK_QUEUE_GRAPHICS_BIT : Nat := 1
def VK_QUEUE_TRANSFER_BIT : Nat := 4
def VK_SHARING_MODE_EXCLUSIVE : Nat := 0
def VK_SHARING_MODE_CONCURRENT : Nat := 1

/-- Number of entries of `g_vertices`. -/
def g_vertices_size : Nat := 3

/-- Object handles; `VK_NULL_HANDLE` is `0`. -/
abbrev Handle := Nat

def VK_NULL_HANDLE : Handle := 0

structure VkExtent2D where
  width : Nat
  height : Nat
deriving DecidableEq, Repr

structure VkSurfaceFormatKHR where
  format : Nat
  colorSpace : Nat
deriving DecidableEq, Repr

structure VkSurfaceCapabilitiesKHR where
  minImageCount : Nat
  maxImageCount : Nat
  currentExtent : VkExtent2D
  minImageExtent : VkExtent2D
  maxImageExtent : VkExtent2D
  currentTransform : Nat
deriving DecidableEq, Repr

structure SwapchainSupportDetails where
  capabilities : VkSurfaceCapabilitiesKHR
  formats : List VkSurfaceFormatKHR
  present_modes : List Nat
deriving DecidableEq, Repr

structure SwapchainParams where
  surface_format : VkSurfaceFormatKHR
  present_mode : Nat
  extent : VkExtent2D
deriving DecidableEq, Repr

structure QueueFamilyIndices where
  graphics_family : Option Nat
  present_family : Option Nat
  transfer_family : Option Nat
deriving DecidableEq, Repr

/-- One entry of the queue-family enumeration of a physical device, together
with what `vkGetPhysicalDeviceSurfaceSupportKHR` answers for it. -/
structure QueueFamily where
  queueFlags : Nat
  present_support : Bool
deriving DecidableEq, Repr

/-! ## The platform calls that are logged

Calls that create, destroy or use GPU objects, synchronise with the GPU, or
talk to the window system.  Read-only queries of the physical device and of the
surface (`vkGetPhysicalDevice*`, `vkGetSwapchainImagesKHR`) are not logged. -/

inductive Call where
  | glfwPollEvents
  | glfwWaitEvents
  | glfwGetFramebufferSize (width height : Int)
  | vkDeviceWaitIdle
  | vkWaitForFences (fence : Handle)
  | vkResetFences (fence : Handle)
  | vkAcquireNextImageKHR (swapchain semaphore : Handle)
  | vkResetCommandBuffer (command_buffer : Handle)
  | vkBeginCommandBuffer (command_buffer : Handle)
  | vkCmdBeginRenderPass (command_buffer render_pass framebuffer : Handle) (extent : VkExtent2D)
  | vkCmdBindPipeline (command_buffer pipeline : Handle)
  | vkCmdBindVertexBuffers (command_buffer buffer : Handle)
  | vkCmdSetViewport (command_buffer : Handle) (extent : VkExtent2D)
  | vkCmdSetScissor (command_buffer : Handle) (extent : VkExtent2D)
  | vkCmdDraw (command_buffer : Handle) (vertex_count instance_count : Nat)
  | vkCmdEndRenderPass (command_buffer : Handle)
  | vkEndCommandBuffer (command_buffer : Handle)
  | vkQueueSubmit (queue : Handle) (wait_semaphores : List Handle) (wait_stages : List Nat)
      (command_buffers : List Handle) (signal_semaphores : List Handle) (fence : Handle)
  | vkQueuePresentKHR (queue : Handle) (wait_semaphores : List Handle)
      (swapchains : List Handle) (image_indices : List Nat)
  | vkDestroyFramebuffer (h : Handle)
  | vkDestroyImageView (h : Handle)
  | vkDestroySwapchainKHR (h : Handle)
  | vkDestroyRenderPass (h : Handle)
  | vkDestroyPipeline (h : Handle)
  | vkDestroyPipelineLayout (h : Handle)
  | vkDestroySemaphore (h : Handle)
  | vkDestroyFence (h : Handle)
  | vkCreateSwapchainKHR (image_count : Nat) (surface_format : VkSurfaceFormatKHR)
      (extent : VkExtent2D) (sharing_mode family_index_count : Nat)
      (family_indices : List Nat) (present_mode : Nat)
  | vkCreateImageView (image : Handle) (format : Nat)
  | vkCreateRenderPass (format : Nat)
  | vkCreatePipelineLayout
  | vkCreateGraphicsPipelines (layout render_pass : Handle)
  | vkCreateFramebuffer (render_pass view : Handle) (extent : VkExtent2D)
  | vkCreateSemaphore
  | vkCreateFence (signaled : Bool)
  | vkAllocateCommandBuffers (count : Nat)
  /-- Entry of `recreateSwapchain`: a marker of the log, not a platform call. -/
  | recreateSwapchain
deriving DecidableEq, Repr

/-- What a logged call does. -/
inductive CallKind where
  | window
  | idle
  | fenceWait
  | fenceReset
  | acquire
  | commandReset
  | record
  | submit
  | present
  | destroy
  | create
  | marker
deriving DecidableEq, Repr

def Call.kind : Call → CallKind
  | .glfwPollEvents => .window
  | .glfwWaitEvents => .window
  | .glfwGetFramebufferSize _ _ => .window
  | .vkDeviceWaitIdle => .idle
  | .vkWaitForFences _ => .fenceWait
  | .vkResetFences _ => .fenceReset
  | .vkAcquireNextImageKHR _ _ => .acquire
  | .vkResetCommandBuffer _ => .commandReset
  | .vkBeginCommandBuffer _ => .record
  | .vkCmdBeginRenderPass _ _ _ _ => .record
  | .vkCmdBindPipeline _ _ => .record
  | .vkCmdBindVertexBuffers _ _ => .record
  | .vkCmdSetViewport _ _ => .record
  | .vkCmdSetScissor _ _ => .record
  | .vkCmdDraw _ _ _ => .record
  | .vkCmdEndRenderPass _ => .record
  | .vkEndCommandBuffer _ => .record
  | .vkQueueSubmit _ _ _ _ _ _ => .submit
  | .vkQueuePresentKHR _ _ _ _ => .present
  | .vkDestroyFramebuffer _ => .destroy
  | .vkDestroyImageView _ => .destroy
  | .vkDestroySwapchainKHR _ => .destroy
  | .vkDestroyRenderPass _ => .destroy
  | .vkDestroyPipeline _ => .destroy
  | .vkDestroyPipelineLayout _ => .destroy
  | .vkDestroySemaphore _ => .destroy
  | .vkDestroyFence _ => .destroy
  | .vkCreateSwapchainKHR _ _ _ _ _ _ _ => .create
  | .vkCreateImageView _ _ => .create
  | .vkCreateRenderPass _ => .create
  | .vkCreatePipelineLayout => .create
  | .vkCreateGraphicsPipelines _ _ => .create
  | .vkCreateFramebuffer _ _ _ => .create
  | .vkCreateSemaphore => .create
  | .vkCreateFence _ => .create
  | .vkAllocateCommandBuffers _ => .create
  | .recreateSwapchain => .marker

/-- The command buffer that a call resets or records into, if it does. -/
def Call.rewrites : Call → Option Handle
  | .vkResetCommandBuffer b => some b
  | .vkBeginCommandBuffer b => some b
  | .vkCmdBeginRenderPass b _ _ _ => some b
  | .vkCmdBindPipeline b _ => some b
  | .vkCmdBindVertexBuffers b _ => some b
  | .vkCmdSetViewport b _ => some b
  | .vkCmdSetScissor b _ => some b
  | .vkCmdDraw b _ _ => some b
  | .vkCmdEndRenderPass b => some b
  | .vkEndCommandBuffer b => some b
  | _ => none

/-- Calls that only a recreation makes: waiting for the window and the device,
destroying and creating objects. -/
def Call.isRecreation (c : Call) : Bool :=
  match c.kind with
  | .window => true
  | .idle => true
  | .destroy => true
  | .create => true
  | _ => false

/-! ## Application state -/

/-- The members of `HelloTriangleApplication` that the frame loop reads or
writes. -/
structure App where
  m_graphics_queue : Handle
  m_present_queue : Handle
  m_swapchain : Handle
  m_swapchain_images : List Handle
  m_swapchain_views : List Handle
  m_swapchain_framebuffers : List Handle
  m_swapchain_params : SwapchainParams
  m_swapchain_support_details : SwapchainSupportDetails
  m_pipeline_layout : Handle
  m_render_pass : Handle
  m_graphics_pipeline : Handle
  m_command_buffers : List Handle
  m_image_available : List Handle
  m_render_finished : List Handle
  m_in_flight_frame : List Handle
  m_current_frame : Nat
  m_framebuffer_resized : Bool
  m_vertex_buffer : Handle
deriving DecidableEq, Repr

/-- The application together with the platform's handle allocator: `next` is
the last handle given out, and every handle given out later is larger. -/
structure World where
  app : App
  next : Nat
deriving DecidableEq, Repr

/-- How a call of a member function ends. -/
inductive Outcome (α : Type) where
  /-- The function returned. -/
  | returned (a : α)
  /-- A `std::runtime_error` with this text was thrown. -/
  | raised (what : String)
  /-- The function is still waiting in a loop (the model's fuel ran out). -/
  | blocked
deriving DecidableEq, Repr

/-- Result of running a member function: how it ended, the state it left and
the platform calls it issued, in order. -/
structure Step (α : Type) where
  outcome : Outcome α
  world : World
  calls : List Call
deriving DecidableEq, Repr

/-- A member function: from a state to a `Step`. -/
def M (α : Type) : Type := World → Step α

namespace M

def ret {α : Type} (a : α) : M α := fun w => ⟨.returned a, w, []⟩

/-- Sequencing: an exception or a block of the first part ends the whole. -/
def andThen {α β : Type} (m : M α) (f : α → M β) : M β := fun w =>
  match m w with
  | ⟨.returned a, w1, cs⟩ => let r := f a w1; ⟨r.outcome, r.world, cs ++ r.calls⟩
  | ⟨.raised e, w1, cs⟩ => ⟨.raised e, w1, cs⟩
  | ⟨.blocked, w1, cs⟩ => ⟨.blocked, w1, cs⟩

end M

instance : Monad M where
  pure := M.ret
  bind := M.andThen

/-- Issue a platform call. -/
def emit (c : Call) : M Unit := fun w => ⟨.returned (), w, [c]⟩

/-- The statement `throw std::runtime_error(what)`. -/
def raise {α : Type} (what : String) : M α := fun w => ⟨.raised what, w, []⟩

/-- Waiting with no fuel left. -/
def block {α : Type} : M α := fun w => ⟨.blocked, w, []⟩

def getApp : M App := fun w => ⟨.returned w.app, w, []⟩

def modifyApp (f : App → App) : M Unit := fun w => ⟨.returned (), { w with app := f w.app }, []⟩

/-- A create call of the platform: its result code is what the platform answers
at the present state of its allocator, and the handle is fresh (never
`VK_NULL_HANDLE`); the caller uses the handle only when the code is success. -/
def create (c : Call) (result : Nat → VkResult) : M (VkResult × Handle) := fun w =>
  ⟨.returned (result w.next, w.next + 1), { w with next := w.next + 1 }, [c]⟩

/-- Reading `v[i]` of a `std::vector` of handles.  A read past the end (undefined
in C++) yields the null handle. -/
def at_ (v : List Handle) (i : Nat) : Handle := v.getD i VK_NULL_HANDLE

/-- The call `v.resize(n)` on a vector of handles. -/
def resize (v : List Handle) (n : Nat) : List Handle :=
  v.take n ++ List.replicate (n - v.length) VK_NULL_HANDLE

/-- A `for` loop over the elements of a sequence. -/
def forEach {α : Type} (f : α → M Unit) : List α → M Unit
  | [] => pure ()
  | x :: rest => do
    f x
    forEach f rest

/-! ## What the platform answers -/

/-- The answers of the platform during one call of `recreateSwapchain`. -/
structure RecreateEnv where
  /-- The size reported by the `n`-th call of `glfwGetFramebufferSize`. -/
  sizes : Nat → Int × Int
  /-- Whether `framebuffer_resize_callback` runs during the `glfwWaitEvents`
  that follows the `n`-th size observation. -/
  wait_resized : Nat → Bool
  /-- The answer of `querySwapChainSupport`. -/
  support : SwapchainSupportDetails
  /-- The queue families of the physical device, in enumeration order. -/
  queue_families : List QueueFamily
  /-- The result code of a create call made when the allocator is at `n`. -/
  create_result : Nat → VkResult
  /-- The results of the two `vkGetSwapchainImagesKHR` calls. -/
  get_images_result1 : VkResult
  get_images_result2 : VkResult
  /-- The number of images of a new swapchain. -/
  image_count : Nat
  /-- The order in which the C++ library iterates a `std::unordered_set<uint32_t>`:
  from the elements of the set, the sequence that an iteration yields.  The
  language leaves this order unspecified; it yields every element once. -/
  iteration_order : List Nat → List Nat

/-- The answers of the platform during one iteration of the main loop. -/
structure FrameEnv where
  /-- Whether `framebuffer_resize_callback` runs during `glfwPollEvents`. -/
  poll_resized : Bool
  acquire_result : VkResult
  image_index : Nat
  begin_result : VkResult
  end_result : VkResult
  submit_result : VkResult
  present_result : VkResult
  recreate : RecreateEnv

/-! ## Swapchain builder -/

def QueueFamilyIndices.isComplete (q : QueueFamilyIndices) : Bool :=
  q.graphics_family.isSome && q.present_family.isSome && q.transfer_family.isSome

/-- Insertion into a `std::unordered_set<uint32_t>`, kept as a list without
repetition.  The list stands for the set: the order of its entries is not the
order of an iteration. -/
def setInsert (s : List Nat) (x : Nat) : List Nat := if x ∈ s then s else s ++ [x]

def QueueFamilyIndices.getFamilies (q : QueueFamilyIndices) : List Nat :=
  let s0 : List Nat := []
  let s1 := match q.graphics_family with
    | some g => setInsert s0 g
    | none => s0
  let s2 := match q.present_family with
    | some p => setInsert s1 p
    | none => s1
  match q.transfer_family with
  | some t => setInsert s2 t
  | none => s2

/-- The vector built from the set: its elements in the order in which the
library iterates the set (`iteration_order`). -/
def QueueFamilyIndices.getIndices (q : QueueFamilyIndices)
    (iteration_order : List Nat → List Nat) : List Nat :=
  iteration_order q.getFamilies

/-- The range-for loop of `findQueueFamilies`, entered with counter `i`. -/
def findQueueFamiliesLoop (indices : QueueFamilyIndices) (i : Nat) :
    List QueueFamily → QueueFamilyIndices
  | [] => indices
  | queue_family :: rest =>
    let indices1 := if queue_family.queueFlags &&& VK_QUEUE_GRAPHICS_BIT ≠ 0
      then { indices with graphics_family := some i } else indices
    let indices2 := if queue_family.queueFlags &&& VK_QUEUE_TRANSFER_BIT ≠ 0
      then { indices1 with transfer_family := some i } else indices1
    let indices3 := if queue_family.present_support
      then { indices2 with present_family := some i } else indices2
    if indices3.isComplete then indices3 else findQueueFamiliesLoop indices3 (i + 1) rest

def findQueueFamilies (queue_families : List QueueFamily) : QueueFamilyIndices :=
  findQueueFamiliesLoop ⟨none, none, none⟩ 0 queue_families

def chooseSwapPresentMode : List Nat → Nat
  | [] => VK_PRESENT_MODE_FIFO_KHR
  | available_present_mode :: rest =>
    if available_present_mode = VK_PRESENT_MODE_MAILBOX_KHR then available_present_mode
    else chooseSwapPresentMode rest

/-- The loop of `chooseSwapSurfaceFormat`: the first preferred entry, if any. -/
def findPreferredFormat : List VkSurfaceFormatKHR → Option VkSurfaceFormatKHR
  | [] => none
  | available_format :: rest =>
    if available_format.format = VK_FORMAT_B8G8R8A8_SRGB
        ∧ available_format.colorSpace = VK_COLOR_SPACE_SRGB_NONLINEAR_KHR
    then some available_format
    else findPreferredFormat rest

/-- The fallback `available_formats[0]` on an empty vector (undefined in C++)
yields the zero format. -/
def chooseSwapSurfaceFormat (available_formats : List VkSurfaceFormatKHR) : VkSurfaceFormatKHR :=
  match findPreferredFormat available_formats with
  | some available_format => available_format
  | none => available_formats.headD ⟨0, 0⟩

/-- The conversion `static_cast<uint32_t>` of an `int`. -/
def to_uint32 (x : Int) : Nat := (x % 4294967296).toNat

/-- The function `std::clamp(v, lo, hi)`. -/
def clamp (v lo hi : Nat) : Nat := if v < lo then lo else if hi < v then hi else v

/-- The function `chooseSwapExtent`; `size` is what `glfwGetFramebufferSize`
reports if it is asked. -/
def chooseSwapExtent (capabilities : VkSurfaceCapabilitiesKHR) (size : Int × Int) : VkExtent2D :=
  if capabilities.currentExtent.width ≠ UINT32_MAX then capabilities.currentExtent
  else
    { width := clamp (to_uint32 size.1) capabilities.minImageExtent.width
        capabilities.maxImageExtent.width
      height := clamp (to_uint32 size.2) capabilities.minImageExtent.height
        capabilities.maxImageExtent.height }

/-- The function `chooseSwapExtent` with the platform call it makes. -/
def chooseSwapExtentM (capabilities : VkSurfaceCapabilitiesKHR) (size : Int × Int) :
    M VkExtent2D := do
  if capabilities.currentExtent.width ≠ UINT32_MAX then
    pure (chooseSwapExtent capabilities size)
  else do
    emit (.glfwGetFramebufferSize size.1 size.2)
    pure (chooseSwapExtent capabilities size)

/-- The value of `image_count` in `createSwapchain(physical_device, ...)`. -/
def imageCount (capabilities : VkSurfaceCapabilitiesKHR) : Nat :=
  let image_count := (capabilities.minImageCount + 1) % UINT32_SIZE
  if capabilities.maxImageCount > 0 ∧ image_count > capabilities.maxImageCount
  then capabilities.maxImageCount else image_count

/-- The `vkCreateSwapchainKHR` call that `createSwapchain(physical_device, ...)`
issues: the fields of `swapchain_create_info` that vary. -/
def swapchainCreateInfo (a : App) (queue_families : List QueueFamily)
    (iteration_order : List Nat → List Nat) : Call :=
  let queue_family_indices := findQueueFamilies queue_families
  let family_indices := queue_family_indices.getIndices iteration_order
  if queue_family_indices.graphics_family ≠ queue_family_indices.present_family then
    .vkCreateSwapchainKHR (imageCount a.m_swapchain_support_details.capabilities)
      a.m_swapchain_params.surface_format a.m_swapchain_params.extent
      VK_SHARING_MODE_CONCURRENT 2 family_indices a.m_swapchain_params.present_mode
  else
    .vkCreateSwapchainKHR (imageCount a.m_swapchain_support_details.capabilities)
      a.m_swapchain_params.surface_format a.m_swapchain_params.extent
      VK_SHARING_MODE_EXCLUSIVE 0 [] a.m_swapchain_params.present_mode

/-- The overload `createSwapchain(physical_device, logical_device, swapchain_params)`. -/
def createSwapchainWithParams (env : RecreateEnv) : M Handle := do
  let a ← getApp
  let (result, swap_chain) ←
    create (swapchainCreateInfo a env.queue_families env.iteration_order) env.create_result
  if result ≠ VK_SUCCESS then raise "failed to create swap chain!"
  else pure swap_chain

/-- The images of a new swapchain: `count` fresh handles. -/
def swapchainImages (count : Nat) : M (List Handle) := fun w =>
  ⟨.returned (List.range' (w.next + 1) count), { w with next := w.next + count }, []⟩

def getSwapchainImages (env : RecreateEnv) : M (List Handle) := do
  if env.get_images_result1 ≠ VK_SUCCESS then raise "failed to get swapchain images!"
  else do
    let swapchain_images ← swapchainImages env.image_count
    if env.get_images_result2 ≠ VK_SUCCESS then raise "failed to get swapchain images!"
    else pure swapchain_images

def getImageViews (env : RecreateEnv) (surface_format : VkSurfaceFormatKHR) :
    List Handle → M (List Handle)
  | [] => pure []
  | image :: rest => do
    let (result, view) ← create (.vkCreateImageView image surface_format.format) env.create_result
    if result ≠ VK_SUCCESS then raise "failed to create swapchain image views!"
    else do
      let image_views ← getImageViews env surface_format rest
      pure (view :: image_views)

/-- The member function `createSwapchain()`; `n` is the number of size
observations made so far in this recreation. -/
def createSwapchain (env : RecreateEnv) (n : Nat) : M Unit := do
  modifyApp (fun a => { a with m_swapchain_support_details := env.support })
  modifyApp (fun a => { a with m_swapchain_params := { a.m_swapchain_params with
    surface_format := chooseSwapSurfaceFormat a.m_swapchain_support_details.formats } })
  modifyApp (fun a => { a with m_swapchain_params := { a.m_swapchain_params with
    present_mode := chooseSwapPresentMode a.m_swapchain_support_details.present_modes } })
  let a ← getApp
  let extent ← chooseSwapExtentM a.m_swapchain_support_details.capabilities (env.sizes n)
  modifyApp (fun a => { a with m_swapchain_params := { a.m_swapchain_params with extent := extent } })
  let swap_chain ← createSwapchainWithParams env
  modifyApp (fun a => { a with m_swapchain := swap_chain })
  let swapchain_images ← getSwapchainImages env
  modifyApp (fun a => { a with m_swapchain_images := swapchain_images })
  let a ← getApp
  let image_views ← getImageViews env a.m_swapchain_params.surface_format a.m_swapchain_images
  modifyApp (fun a => { a with m_swapchain_views := image_views })

/-! ## Render pass, pipeline, framebuffers, synchronisation objects -/

/-- The member function `createRenderPass()`. -/
def createRenderPass (env : RecreateEnv) : M Unit := do
  let a ← getApp
  let (result, render_pass) ←
    create (.vkCreateRenderPass a.m_swapchain_params.surface_format.format) env.create_result
  if result ≠ VK_SUCCESS then raise "failed to create render pass!"
  else modifyApp (fun a => { a with m_render_pass := render_pass })

def createPipeline (env : RecreateEnv) (render_pass : Handle) : M Unit := do
  let (result, pipeline_layout) ← create .vkCreatePipelineLayout env.create_result
  if result ≠ VK_SUCCESS then raise "failed to create pipeline layout!"
  else do
    modifyApp (fun a => { a with m_pipeline_layout := pipeline_layout })
    let (result, graphics_pipeline) ←
      create (.vkCreateGraphicsPipelines pipeline_layout render_pass) env.create_result
    if result ≠ VK_SUCCESS then raise "failed to create graphics pipeline!"
    else modifyApp (fun a => { a with m_graphics_pipeline := graphics_pipeline })

def createFramebuffers (env : RecreateEnv) (extent : VkExtent2D) (render_pass : Handle) :
    List Handle → M (List Handle)
  | [] => pure []
  | view :: rest => do
    let (result, framebuffer) ←
      create (.vkCreateFramebuffer render_pass view extent) env.create_result
    if result ≠ VK_SUCCESS then raise "failed to create framebuffer!"
    else do
      let result_framebuffers ← createFramebuffers env extent render_pass rest
      pure (framebuffer :: result_framebuffers)

/-- Body of the loop of `createSyncObjects` for slot `i`. -/
def createSyncObjectsAt (env : RecreateEnv) (i : Nat) : M Unit := do
  let (result, semaphore) ← create .vkCreateSemaphore env.create_result
  if result ≠ VK_SUCCESS then raise "failed to create semaphore!"
  else do
    modifyApp (fun a => { a with m_image_available := a.m_image_available.set i semaphore })
    let (result, semaphore) ← create .vkCreateSemaphore env.create_result
    if result ≠ VK_SUCCESS then raise "failed to create semaphore!"
    else do
      modifyApp (fun a => { a with m_render_finished := a.m_render_finished.set i semaphore })
      let (result, fence) ← create (.vkCreateFence true) env.create_result
      if result ≠ VK_SUCCESS then raise "failed to create fence!"
      else modifyApp (fun a => { a with m_in_flight_frame := a.m_in_flight_frame.set i fence })

def createSyncObjects (env : RecreateEnv) : M Unit := do
  modifyApp (fun a => { a with m_image_available := resize a.m_image_available MAX_FRAMES_IN_FLIGHT })
  modifyApp (fun a => { a with m_render_finished := resize a.m_render_finished MAX_FRAMES_IN_FLIGHT })
  modifyApp (fun a => { a with m_in_flight_frame := resize a.m_in_flight_frame MAX_FRAMES_IN_FLIGHT })
  forEach (createSyncObjectsAt env) (List.range MAX_FRAMES_IN_FLIGHT)

/-! ## Swapchain recreation -/

def cleanupSwapchain : M Unit := do
  let a ← getApp
  let sz := a.m_swapchain_framebuffers.length
  forEach (fun i => emit (.vkDestroyFramebuffer (at_ a.m_swapchain_framebuffers i))) (List.range sz)
  forEach (fun i => emit (.vkDestroyImageView (at_ a.m_swapchain_views i))) (List.range sz)
  emit (.vkDestroySwapchainKHR a.m_swapchain)

/-- The function `framebuffer_resize_callback`. -/
def framebuffer_resize_callback : M Unit :=
  modifyApp (fun a => { a with m_framebuffer_resized := true })

/-- The loop `while (width == 0 || height == 0)` of `recreateSwapchain`, entered
with the last observed `size` after `n` observations; it returns the number of
observations made when it ends. -/
def waitWhileMinimized (env : RecreateEnv) : Nat → Nat → Int × Int → M Nat
  | 0, n, size => if size.1 = 0 ∨ size.2 = 0 then block else pure n
  | fuel + 1, n, size =>
    if size.1 = 0 ∨ size.2 = 0 then do
      emit (.glfwGetFramebufferSize (env.sizes n).1 (env.sizes n).2)
      emit .glfwWaitEvents
      (if env.wait_resized n then framebuffer_resize_callback else pure ())
      waitWhileMinimized env fuel (n + 1) (env.sizes n)
    else pure n

/-- Body of the loop of `recreateSwapchain` that destroys the objects of slot `i`. -/
def destroySyncObjectsAt (i : Nat) : M Unit := do
  let a ← getApp
  emit (.vkDestroySemaphore (at_ a.m_image_available i))
  emit (.vkDestroySemaphore (at_ a.m_render_finished i))
  emit (.vkDestroyFence (at_ a.m_in_flight_frame i))

/-- The statements of `recreateSwapchain`. -/
def recreateSwapchainBody (fuel : Nat) (env : RecreateEnv) : M Unit := do
  emit (.glfwGetFramebufferSize (env.sizes 0).1 (env.sizes 0).2)
  let n ← waitWhileMinimized env fuel 1 (env.sizes 0)
  emit .vkDeviceWaitIdle
  cleanupSwapchain
  let a ← getApp
  emit (.vkDestroyRenderPass a.m_render_pass)
  emit (.vkDestroyPipeline a.m_graphics_pipeline)
  emit (.vkDestroyPipelineLayout a.m_pipeline_layout)
  forEach destroySyncObjectsAt (List.range MAX_FRAMES_IN_FLIGHT)
  createSwapchain env n
  let a ← getApp
  let image_views ← getImageViews env a.m_swapchain_params.surface_format a.m_swapchain_images
  modifyApp (fun a => { a with m_swapchain_views := image_views })
  createRenderPass env
  let a ← getApp
  createPipeline env a.m_render_pass
  let a ← getApp
  let _ ← createFramebuffers env a.m_swapchain_params.extent a.m_render_pass a.m_swapchain_views
  createSyncObjects env

/-- The member function `recreateSwapchain`: its entry is marked in the log. -/
def recreateSwapchain (fuel : Nat) (env : RecreateEnv) : M Unit := do
  emit .recreateSwapchain
  recreateSwapchainBody fuel env

/-! ## The frame -/

def recordCommandBuffer (env : FrameEnv) (command_buffer : Handle) (image_index : Nat) :
    M Unit := do
  emit (.vkBeginCommandBuffer command_buffer)
  if env.begin_result ≠ VK_SUCCESS then raise "failed to begin recording commandbuffer!"
  else do
    let a ← getApp
    emit (.vkCmdBeginRenderPass command_buffer a.m_render_pass
      (at_ a.m_swapchain_framebuffers image_index) a.m_swapchain_params.extent)
    emit (.vkCmdBindPipeline command_buffer a.m_graphics_pipeline)
    emit (.vkCmdBindVertexBuffers command_buffer a.m_vertex_buffer)
    emit (.vkCmdSetViewport command_buffer a.m_swapchain_params.extent)
    emit (.vkCmdSetScissor command_buffer a.m_swapchain_params.extent)
    emit (.vkCmdDraw command_buffer g_vertices_size 1)
    emit (.vkCmdEndRenderPass command_buffer)
    emit (.vkEndCommandBuffer command_buffer)
    if env.end_result ≠ VK_SUCCESS then raise "failed to record command buffer!"
    else pure ()

def drawFrame (fuel : Nat) (env : FrameEnv) : M Unit := do
  let a ← getApp
  emit (.vkWaitForFences (at_ a.m_in_flight_frame a.m_current_frame))
  let image_index := env.image_index
  emit (.vkAcquireNextImageKHR a.m_swapchain (at_ a.m_image_available a.m_current_frame))
  let result := env.acquire_result
  if result = VK_ERROR_OUT_OF_DATE_KHR then
    recreateSwapchain fuel env.recreate
  else if result ≠ VK_SUCCESS ∧ result ≠ VK_SUBOPTIMAL_KHR then
    raise "failed to acquire swap chain image!"
  else do
    emit (.vkResetFences (at_ a.m_in_flight_frame a.m_current_frame))
    emit (.vkResetCommandBuffer (at_ a.m_command_buffers a.m_current_frame))
    recordCommandBuffer env (at_ a.m_command_buffers a.m_current_frame) image_index
    let render_end_semaphores := [at_ a.m_render_finished a.m_current_frame]
    let wait_semaphores := [at_ a.m_image_available a.m_current_frame]
    let wait_stages := [VK_PIPELINE_STAGE_COLOR_ATTACHMENT_OUTPUT_BIT]
    emit (.vkQueueSubmit a.m_graphics_queue wait_semaphores wait_stages
      [at_ a.m_command_buffers a.m_current_frame] render_end_semaphores
      (at_ a.m_in_flight_frame a.m_current_frame))
    let result := env.submit_result
    if result ≠ VK_SUCCESS then raise "failed to submit draw command buffer!"
    else do
      emit (.vkQueuePresentKHR a.m_present_queue render_end_semaphores [a.m_swapchain] [image_index])
      let result := env.present_result
      let a ← getApp
      if result = VK_ERROR_OUT_OF_DATE_KHR ∨ result = VK_SUBOPTIMAL_KHR
          ∨ a.m_framebuffer_resized = true then
        modifyApp (fun a => { a with m_framebuffer_resized := false })
      else if result ≠ VK_SUCCESS then
        raise "failed to present swap chain image!"
      else
        pure ()
      modifyApp (fun a => { a with
        m_current_frame := ((a.m_current_frame + 1) % UINT32_SIZE) % MAX_FRAMES_IN_FLIGHT })

/-! ## The main loop -/

/-- The call `glfwPollEvents()` of the main loop, during which the window
system may run the resize callback. -/
def pollEvents (env : FrameEnv) : M Unit := do
  emit .glfwPollEvents
  if env.poll_resized then framebuffer_resize_callback else pure ()

/-- The `while` loop of `mainLoop`: one pass per element of `envs`, after which
the window is closed. -/
def mainLoopPasses (fuel : Nat) : List FrameEnv → M Unit
  | [] => pure ()
  | env :: rest => do
    pollEvents env
    drawFrame fuel env
    mainLoopPasses fuel rest

def mainLoop (fuel : Nat) (envs : List FrameEnv) : M Unit := do
  mainLoopPasses fuel envs
  emit .vkDeviceWaitIdle

/-- One pass of the loop of `mainLoop`. -/
def mainLoopPass (fuel : Nat) (env : FrameEnv) : M Unit := do
  pollEvents env
  drawFrame fuel env

/-- The passes of the main loop that take place: for each, the state in which
it starts and the calls it issues.  A pass that throws or blocks is the last. -/
def passes (fuel : Nat) : List FrameEnv → World → List (World × List Call)
  | [], _ => []
  | env :: rest, w =>
    (w, (mainLoopPass fuel env w).calls) ::
      (match (mainLoopPass fuel env w).outcome with
        | .returned _ => passes fuel rest (mainLoopPass fuel env w).world
        | _ => [])

/-! ## Queue families by role -/

/-- The test `queue_family.queueFlags & VK_QUEUE_GRAPHICS_BIT` of `findQueueFamilies`. -/
def QueueFamily.graphics (q : QueueFamily) : Bool :=
  decide (q.queueFlags &&& VK_QUEUE_GRAPHICS_BIT ≠ 0)

/-- The test `queue_family.queueFlags & VK_QUEUE_TRANSFER_BIT` of `findQueueFamilies`. -/
def QueueFamily.transfer (q : QueueFamily) : Bool :=
  decide (q.queueFlags &&& VK_QUEUE_TRANSFER_BIT ≠ 0)

/-- One pass of the loop of `findQueueFamilies` before its completeness test:
the indices after family number `i` has been looked at. -/
def visitFamily (indices : QueueFamilyIndices) (i : Nat) (queue_family : QueueFamily) :
    QueueFamilyIndices :=
  let indices1 := if queue_family.queueFlags &&& VK_QUEUE_GRAPHICS_BIT ≠ 0
    then { indices with graphics_family := some i } else indices
  let indices2 := if queue_family.queueFlags &&& VK_QUEUE_TRANSFER_BIT ≠ 0
    then { indices1 with transfer_family := some i } else indices1
  if queue_family.present_support
    then { indices2 with present_family := some i } else indices2

/-- The indices after all families of a list have been looked at, the first of
them being family number `i`. -/
def visitFamilies (indices : QueueFamilyIndices) (i : Nat) :
    List QueueFamily → QueueFamilyIndices
  | [] => indices
  | queue_family :: rest => visitFamilies (visitFamily indices i queue_family) (i + 1) rest

/-- The number of the last family of a list that passes a test, the first
family having number `i`; `current` when none passes. -/
def lastFamily (test : QueueFamily → Bool) (current : Option Nat) (i : Nat) :
    List QueueFamily → Option Nat
  | [] => current
  | queue_family :: rest =>
    lastFamily test (if test queue_family then some i else current) (i + 1) rest

/-- Whether family number `j` of the enumeration passes a test. -/
def familyPasses (test : QueueFamily → Bool) (queue_families : List QueueFamily) (j : Nat) :
    Bool :=
  match queue_families[j]? with
  | some queue_family => test queue_family
  | none => false

/-- Whether each of the three roles has a family among the first `m` of the
enumeration. -/
def rolesCovered (queue_families : List QueueFamily) (m : Nat) : Bool :=
  (queue_families.take m).any QueueFamily.graphics
    && (queue_families.take m).any QueueFamily.present_support
    && (queue_families.take m).any QueueFamily.transfer

/-! ## Device selection -/

def VK_PHYSICAL_DEVICE_TYPE_INTEGRATED_GPU : Nat := 1
def VK_PHYSICAL_DEVICE_TYPE_DISCRETE_GPU : Nat := 2

/-- The source constant `DEVICE_EXTENSIONS`. -/
def DEVICE_EXTENSIONS : List String := ["VK_KHR_swapchain"]

/-- What the platform reports about one physical device and about the surface
on that device. -/
structure PhysicalDevice where
  handle : Handle
  deviceType : Nat
  maxImageDimension2D : Nat
  geometryShader : Bool
  /-- The value of `(int)std::log2(max_memory)` for the heaps of the device. -/
  memory_log2 : Int
  queue_families : List QueueFamily
  /-- The results of the two `vkEnumerateDeviceExtensionProperties` calls. -/
  extensions_result1 : VkResult
  extensions_result2 : VkResult
  /-- The names of the extensions of the device. -/
  extensions : List String
  formats : List VkSurfaceFormatKHR
  present_modes : List Nat
deriving DecidableEq, Repr

/-- A value of type `int` after an arithmetic step: the 32-bit two's complement
value. -/
def to_int32 (x : Int) : Int := (x + 2147483648) % 4294967296 - 2147483648

def getRequiredDeviceExtensions : List String :=
  DEVICE_EXTENSIONS ++ ["VK_KHR_portability_subset"]

/-- The function `checkNamesSupported`: `std::all_of` over the required names. -/
def checkNamesSupported (available_ext : List String) (req_layer_names : List String) : Bool :=
  req_layer_names.all (fun req_name => decide (req_name ∈ available_ext))

/-- The function `getDeviceExtensionSupported`; the set is kept as the list of
names. -/
def getDeviceExtensionSupported (device : PhysicalDevice) : Outcome (List String) :=
  if device.extensions_result1 ≠ VK_SUCCESS then .raised "failed to read instance properties!"
  else if device.extensions_result2 ≠ VK_SUCCESS then
    .raised "failed to read instance properties!"
  else .returned device.extensions

/-- The function `querySwapChainSupport`: formats and present modes. -/
def querySwapChainSupport (device : PhysicalDevice) :
    List VkSurfaceFormatKHR × List Nat :=
  (device.formats, device.present_modes)

def isDeviceSuitable (device : PhysicalDevice) : Outcome Bool :=
  let queue_family_indices := findQueueFamilies device.queue_families
  let req_ext := getRequiredDeviceExtensions
  match getDeviceExtensionSupported device with
  | .returned extension_supported =>
    let all_queue_families_supported := queue_family_indices.isComplete
    let all_device_ext_supported := checkNamesSupported extension_supported req_ext
    let swap_chain_adequate :=
      if all_device_ext_supported then
        let swap_chain_details := querySwapChainSupport device
        !swap_chain_details.1.isEmpty && !swap_chain_details.2.isEmpty
      else false
    .returned (all_queue_families_supported || all_device_ext_supported || swap_chain_adequate)
  | .raised what => .raised what
  | .blocked => .blocked

/-- The function `rateDeviceSuitability`.  The sum with the unsigned
`maxImageDimension2D` is taken in `uint32_t` and stored back into the `int`. -/
def rateDeviceSuitability (device : PhysicalDevice) : Outcome Int :=
  let score0 : Int := 0
  let score1 := if device.deviceType = VK_PHYSICAL_DEVICE_TYPE_DISCRETE_GPU
    then to_int32 (score0 + 1000) else score0
  let score2 := to_int32 ((score1 + (device.maxImageDimension2D : Int)) % 4294967296)
  let score3 := to_int32 (score2 + device.memory_log2)
  let score4 := if !device.geometryShader then to_int32 (score3 + 1000) else score3
  match isDeviceSuitable device with
  | .returned suitable => if suitable then .returned 0 else .returned score4
  | .raised what => .raised what
  | .blocked => .blocked

/-- The call `candidates.insert(entry)` on a `std::multimap<int, VkPhysicalDevice>`,
kept as the list of its entries in iteration order: an entry goes after the
entries whose key is not greater. -/
def multimapInsert (candidates : List (Int × PhysicalDevice)) (entry : Int × PhysicalDevice) :
    List (Int × PhysicalDevice) :=
  match candidates with
  | [] => [entry]
  | c :: rest =>
    if entry.1 < c.1 then entry :: c :: rest else c :: multimapInsert rest entry

/-- The loop of `pickPhysicalDevice` that rates the devices. -/
def rateDevices (candidates : List (Int × PhysicalDevice)) :
    List PhysicalDevice → Outcome (List (Int × PhysicalDevice))
  | [] => .returned candidates
  | device :: rest =>
    match rateDeviceSuitability device with
    | .returned score => rateDevices (multimapInsert candidates (score, device)) rest
    | .raised what => .raised what
    | .blocked => .blocked

/-- The function `getPhysicalDevices`; `devices` is what the instance
enumerates. -/
def getPhysicalDevices (enumerate_result1 enumerate_result2 : VkResult)
    (devices : List PhysicalDevice) : Outcome (List PhysicalDevice) :=
  if enumerate_result1 ≠ VK_SUCCESS then .raised "failed to enumerate devices!"
  else if devices.length = 0 then .raised "failed to find GPUs with Vulkan support!"
  else if enumerate_result2 ≠ VK_SUCCESS then .raised "failed to enumerate devices!"
  else .returned devices

/-- The function `pickPhysicalDevice`: the entry at `candidates.rbegin()`. -/
def pickPhysicalDevice (enumerate_result1 enumerate_result2 : VkResult)
    (enumerated : List PhysicalDevice) : Outcome PhysicalDevice :=
  match getPhysicalDevices enumerate_result1 enumerate_result2 enumerated with
  | .returned devices =>
    match rateDevices [] devices with
    | .returned candidates =>
      match candidates.getLast? with
      | some entry =>
        match getDeviceExtensionSupported entry.2 with
        | .returned _ => .returned entry.2
        | .raised what => .raised what
        | .blocked => .blocked
      | none => .raised "failed to find a suitable GPU!"
    | .raised what => .raised what
    | .blocked => .blocked
  | .raised what => .raised what
  | .blocked => .blocked

/-! ## Memory types -/

/-- The members of `VkPhysicalDeviceMemoryProperties` that `findMemoryType`
reads: the property flags of the memory types. -/
structure VkPhysicalDeviceMemoryProperties where
  memoryTypeCount : Nat
  memoryTypes : List Nat
deriving DecidableEq, Repr

/-- The loop of `findMemoryType` from index `i` with `remaining` indices to go.
The mask `1 << i` is taken in 32 bits. -/
def findMemoryTypeLoop (mem_prop : VkPhysicalDeviceMemoryProperties)
    (type_filter properties : Nat) (i : Nat) : Nat → Outcome Nat
  | 0 => .raised "failed to find suitable memory type!"
  | remaining + 1 =>
    let is_type_suit : Bool := decide (type_filter &&& ((1 <<< i) % UINT32_SIZE) ≠ 0)
    let is_type_adequate : Bool := decide (mem_prop.memoryTypes.getD i 0 &&& properties ≠ 0)
    if is_type_suit && is_type_adequate then .returned i
    else findMemoryTypeLoop mem_prop type_filter properties (i + 1) remaining

def findMemoryType (mem_prop : VkPhysicalDeviceMemoryProperties)
    (type_filter properties : Nat) : Outcome Nat :=
  findMemoryTypeLoop mem_prop type_filter properties 0 mem_prop.memoryTypeCount

/-! ## Initialisation and the steps that follow it -/

/-- The answers of the platform during `initVulkan`. -/
structure InitEnv where
  /-- The queues that `vkGetDeviceQueue` returns. -/
  graphics_queue : Handle
  present_queue : Handle
  /-- The buffer that `createBuffer` returns. -/
  vertex_buffer : Handle
  /-- The result code of `vkAllocateCommandBuffers`. -/
  allocate_result : VkResult
  /-- The answers to the calls that build the swapchain and what depends on it. -/
  build : RecreateEnv

/-- The members of a `HelloTriangleApplication` before `initVulkan`: the values
of their initialisers, empty vectors and null handles. -/
def constructedApp : App :=
  { m_graphics_queue := VK_NULL_HANDLE
    m_present_queue := VK_NULL_HANDLE
    m_swapchain := VK_NULL_HANDLE
    m_swapchain_images := []
    m_swapchain_views := []
    m_swapchain_framebuffers := []
    m_swapchain_params := ⟨⟨0, 0⟩, 0, ⟨0, 0⟩⟩
    m_swapchain_support_details := ⟨⟨0, 0, ⟨0, 0⟩, ⟨0, 0⟩, ⟨0, 0⟩, 0⟩, [], []⟩
    m_pipeline_layout := VK_NULL_HANDLE
    m_render_pass := VK_NULL_HANDLE
    m_graphics_pipeline := VK_NULL_HANDLE
    m_command_buffers := []
    m_image_available := []
    m_render_finished := []
    m_in_flight_frame := []
    m_current_frame := 0
    m_framebuffer_resized := false
    m_vertex_buffer := VK_NULL_HANDLE }

/-- The member function `createCommandBuffers`: the platform writes
`m_command_buffers.size()` fresh handles into the vector. -/
def createCommandBuffers (env : InitEnv) : M Unit := do
  modifyApp (fun a => { a with m_command_buffers := resize a.m_command_buffers MAX_FRAMES_IN_FLIGHT })
  let a ← getApp
  emit (.vkAllocateCommandBuffers a.m_command_buffers.length)
  if env.allocate_result ≠ VK_SUCCESS then raise "failed to allocate command buffers!"
  else do
    let command_buffers ← swapchainImages a.m_command_buffers.length
    modifyApp (fun a => { a with m_command_buffers := command_buffers })

/-- The member function `initVulkan`, as far as it writes the members of `App`.
Its statements that create the instance, the surface, the device, the shader
modules, the command pools and the vertex buffer are left out; the three
handles they store are taken from `env`. -/
def initVulkan (env : InitEnv) : M Unit := do
  modifyApp (fun a => { a with m_graphics_queue := env.graphics_queue })
  modifyApp (fun a => { a with m_present_queue := env.present_queue })
  createSwapchain env.build 0
  createRenderPass env.build
  let a ← getApp
  createPipeline env.build a.m_render_pass
  let a ← getApp
  let framebuffers ←
    createFramebuffers env.build a.m_swapchain_params.extent a.m_render_pass a.m_swapchain_views
  modifyApp (fun a => { a with m_swapchain_framebuffers := framebuffers })
  modifyApp (fun a => { a with m_vertex_buffer := env.vertex_buffer })
  createCommandBuffers env
  createSyncObjects env.build

/-- A step of the application after `initVulkan`: an iteration of `drawFrame`
or a call of `recreateSwapchain`, with the answers of the platform. -/
inductive LoopStep where
  | draw (fuel : Nat) (env : FrameEnv)
  | recreate (fuel : Nat) (env : RecreateEnv)

def LoopStep.run : LoopStep → M Unit
  | .draw fuel env => drawFrame fuel env
  | .recreate fuel env => recreateSwapchain fuel env

/-- The state after a sequence of steps, however each of them ends. -/
def runSteps : List LoopStep → World → World
  | [], w => w
  | step :: rest, w => runSteps rest (step.run w).world

/-- The slot index is in range and each per-slot vector has one entry per slot. -/
def SlotsInBounds (a : App) : Prop :=
  a.m_current_frame < MAX_FRAMES_IN_FLIGHT
    ∧ a.m_command_buffers.length = MAX_FRAMES_IN_FLIGHT
    ∧ a.m_image_available.length = MAX_FRAMES_IN_FLIGHT
    ∧ a.m_render_finished.length = MAX_FRAMES_IN_FLIGHT
    ∧ a.m_in_flight_frame.length = MAX_FRAMES_IN_FLIGHT

instance (a : App) : Decidable (SlotsInBounds a) := by
  unfold SlotsInBounds
  infer_instance

/-! ## Fences along a trace -/

/-- The members that the rebuild of a recreation never writes. -/
def loopMembers (a : App) :
    Handle × Handle × List Handle × List Handle × Nat × Bool × Handle :=
  (a.m_graphics_queue, a.m_present_queue, a.m_swapchain_framebuffers, a.m_command_buffers,
    a.m_current_frame, a.m_framebuffer_resized, a.m_vertex_buffer)

/-- The change of state that the statements of a rebuild can make: handles are
only given out, the loop members stay, and a per-slot vector of
synchronisation objects keeps its length or gets one entry per slot. -/
def Rebuilt (w w1 : World) : Prop :=
  w.next ≤ w1.next
    ∧ loopMembers w1.app = loopMembers w.app
    ∧ (w1.app.m_image_available.length = w.app.m_image_available.length
        ∨ w1.app.m_image_available.length = MAX_FRAMES_IN_FLIGHT)
    ∧ (w1.app.m_render_finished.length = w.app.m_render_finished.length
        ∨ w1.app.m_render_finished.length = MAX_FRAMES_IN_FLIGHT)
    ∧ (w1.app.m_in_flight_frame.length = w.app.m_in_flight_frame.length
        ∨ w1.app.m_in_flight_frame.length = MAX_FRAMES_IN_FLIGHT)

/-- Every run of `m` changes the state as a rebuild can. -/
def Rebuilds {α : Type} (m : M α) : Prop :=
  ∀ w : World, Rebuilt w (m w).world

/-- When `m` is run from a state that satisfies `P` and returns, the state it
leaves satisfies `Q`. -/
def Triple {α : Type} (P : World → Prop) (m : M α) (Q : World → Prop) : Prop :=
  ∀ w : World, P w → ∀ a : α, (m w).outcome = .returned a → Q (m w).world

/-- A state as `initVulkan` leaves it: three swapchain images, two frame slots. -/
def sampleApp : App :=
  { m_graphics_queue := 1
    m_present_queue := 2
    m_swapchain := 3
    m_swapchain_images := [4, 5, 6]
    m_swapchain_views := [7, 8, 9]
    m_swapchain_framebuffers := [10, 11, 12]
    m_swapchain_params := ⟨⟨50, 0⟩, 2, ⟨800, 600⟩⟩
    m_swapchain_support_details := ⟨⟨2, 8, ⟨800, 600⟩, ⟨1, 1⟩, ⟨4096, 4096⟩, 1⟩, [⟨50, 0⟩], [2]⟩
    m_pipeline_layout := 13
    m_render_pass := 14
    m_graphics_pipeline := 15
    m_command_buffers := [16, 17]
    m_image_available := [18, 19]
    m_render_finished := [20, 21]
    m_in_flight_frame := [22, 23]
    m_current_frame := 0
    m_framebuffer_resized := false
    m_vertex_buffer := 24 }

def sampleWorld : World := ⟨sampleApp, 24⟩

/-- A platform on which every call of a recreation succeeds at once. -/
def calmRecreate : RecreateEnv :=
  { sizes := fun _ => (800, 600)
    wait_resized := fun _ => false
    support := ⟨⟨2, 8, ⟨800, 600⟩, ⟨1, 1⟩, ⟨4096, 4096⟩, 1⟩, [⟨50, 0⟩], [2]⟩
    queue_families := [⟨7, true⟩]
    create_result := fun _ => VK_SUCCESS
    get_images_result1 := VK_SUCCESS
    get_images_result2 := VK_SUCCESS
    image_count := 3
    iteration_order := List.reverse }

/-- An iteration in which every call succeeds and image 1 is acquired. -/
def calmFrame : FrameEnv :=
  { poll_resized := false
    acquire_result := VK_SUCCESS
    image_index := 1
    begin_result := VK_SUCCESS
    end_result := VK_SUCCESS
    submit_result := VK_SUCCESS
    present_result := VK_SUCCESS
    recreate := calmRecreate }

/-- An iteration whose acquire reports the swapchain out of date. -/
def staleFrame : FrameEnv := { calmFrame with acquire_result := VK_ERROR_OUT_OF_DATE_KHR }

/-- An iteration whose acquire reports a suboptimal swapchain. -/
def suboptimalAcquireFrame : FrameEnv := { calmFrame with acquire_result := VK_SUBOPTIMAL_KHR }

/-- An iteration whose present reports a suboptimal swapchain. -/
def suboptimalPresentFrame : FrameEnv := { calmFrame with present_result := VK_SUBOPTIMAL_KHR }

/-- An iteration whose present reports the loss of the device. -/
def lostPresentFrame : FrameEnv := { calmFrame with present_result := VK_ERROR_DEVICE_LOST }

/-- An iteration whose acquire reports the loss of the device. -/
def lostAcquireFrame : FrameEnv := { calmFrame with acquire_result := VK_ERROR_DEVICE_LOST }

/-- The sample state after the resize callback has run. -/
def resizedWorld : World := { sampleWorld with app := { sampleApp with m_framebuffer_resized := true } }

/-- The second of two frames from the sample state: the state in which it
starts (slot 1) and the calls of the pass. -/
def secondPass : World × List Call :=
  (⟨{ sampleApp with m_current_frame := 1 }, 24⟩,
    (mainLoopPass 0 calmFrame ⟨{ sampleApp with m_current_frame := 1 }, 24⟩).calls)

/-- Capabilities with the undefined current extent, minimum extent (1, 1) and
maximum extent (4096, 4096). -/
def undefinedExtentCapabilities : VkSurfaceCapabilitiesKHR :=
  ⟨2, 8, ⟨UINT32_MAX, UINT32_MAX⟩, ⟨1, 1⟩, ⟨4096, 4096⟩, 1⟩

/-- Capabilities whose minimum image count is the largest `uint32_t` and whose
maximum image count is 0 (no upper limit). -/
def largestCountCapabilities : VkSurfaceCapabilitiesKHR :=
  ⟨4294967295, 0, ⟨800, 600⟩, ⟨1, 1⟩, ⟨4096, 4096⟩, 1⟩

/-- Capabilities that allow exactly two images. -/
def twoImageCapabilities : VkSurfaceCapabilitiesKHR :=
  ⟨2, 2, ⟨800, 600⟩, ⟨1, 1⟩, ⟨4096, 4096⟩, 1⟩

/-- Capabilities whose minimum and maximum image count are both the largest
`uint32_t`. -/
def largestRangeCapabilities : VkSurfaceCapabilitiesKHR :=
  ⟨4294967295, 4294967295, ⟨800, 600⟩, ⟨1, 1⟩, ⟨4096, 4096⟩, 1⟩

/-- An iteration whose queue submission reports the loss of the device. -/
def lostSubmitFrame : FrameEnv := { calmFrame with submit_result := VK_ERROR_DEVICE_LOST }

/-- A platform whose window is minimized for the first two size observations:
the sizes reported are (0, 0), (0, 0) and then (800, 600). -/
def minimizedRecreate : RecreateEnv :=
  { calmRecreate with sizes := fun n => if n < 2 then (0, 0) else (800, 600) }

/-- A platform whose surface reports the undefined current extent, with a
window of 800 by 600. -/
def undefinedExtentRecreate : RecreateEnv :=
  { calmRecreate with support := ⟨undefinedExtentCapabilities, [⟨50, 0⟩], [2]⟩ }

/-- Three queue families, one per role: graphics only, transfer only, and a
compute family that can present. -/
def distinctFamilies : List QueueFamily := [⟨1, false⟩, ⟨4, false⟩, ⟨2, true⟩]

/-- Three queue families of which the first two support graphics: graphics
only, graphics with transfer, and a compute family that can present. -/
def twoGraphicsFamilies : List QueueFamily := [⟨1, false⟩, ⟨5, false⟩, ⟨2, true⟩]

def VK_MEMORY_PROPERTY_HOST_VISIBLE_BIT : Nat := 2
def VK_MEMORY_PROPERTY_HOST_COHERENT_BIT : Nat := 4

/-- A discrete GPU with one queue family for all three roles, the swapchain
extension and the portability subset, a format and a present mode. -/
def suitableDevice : PhysicalDevice :=
  { handle := 1
    deviceType := VK_PHYSICAL_DEVICE_TYPE_DISCRETE_GPU
    maxImageDimension2D := 16384
    geometryShader := true
    memory_log2 := 33
    queue_families := [⟨7, true⟩]
    extensions_result1 := VK_SUCCESS
    extensions_result2 := VK_SUCCESS
    extensions := ["VK_KHR_swapchain", "VK_KHR_portability_subset"]
    formats := [⟨50, 0⟩]
    present_modes := [2] }

/-- An integrated GPU with a compute-only queue family that cannot present and
without the swapchain extension. -/
def unsuitableDevice : PhysicalDevice :=
  { handle := 2
    deviceType := VK_PHYSICAL_DEVICE_TYPE_INTEGRATED_GPU
    maxImageDimension2D := 4096
    geometryShader := true
    memory_log2 := 30
    queue_families := [⟨2, false⟩]
    extensions_result1 := VK_SUCCESS
    extensions_result2 := VK_SUCCESS
    extensions := []
    formats := []
    present_modes := [] }

/-- A device without complete queue families that has both required
extensions but no surface format and no present mode. -/
def extensionsOnlyDevice : PhysicalDevice :=
  { unsuitableDevice with
    handle := 3
    extensions := ["VK_KHR_portability_subset", "VK_KHR_swapchain"] }

/-- A memory-type table with three types: device local; host visible and host
cached; host visible and host coherent. -/
def cachedFirstMemory : VkPhysicalDeviceMemoryProperties := ⟨3, [1, 10, 6]⟩

/-- A platform on which every call of `initVulkan` succeeds. -/
def calmInit : InitEnv :=
  { graphics_queue := 1
    present_queue := 2
    vertex_buffer := 3
    allocate_result := VK_SUCCESS
    build := calmRecreate }

/-- A platform whose window is minimized at the first size observation and
restored, with a call of the resize callback, during the first wait for
events. -/
def restoredRecreate : RecreateEnv :=
  { calmRecreate with
    sizes := fun n => if n < 1 then (0, 0) else (800, 600)
    wait_resized := fun n => decide (n = 1) }

/-- An iteration whose acquire reports the swapchain out of date while the
window is minimized, and is restored during the wait. -/
def restoredFrame : FrameEnv :=
  { calmFrame with acquire_result := VK_ERROR_OUT_OF_DATE_KHR, recreate := restoredRecreate }

/-- A platform on which every call of a recreation succeeds and the new
swapchain has four images. -/
def fourImageRecreate : RecreateEnv := { calmRecreate with image_count := 4 }

/-! ## The calls of a drawing iteration, by stage -/

/-- The fence wait and the acquire at the top of `drawFrame`. -/
def acquireCalls (a : App) : List Call :=
  [ .vkWaitForFences (at_ a.m_in_flight_frame a.m_current_frame),
    .vkAcquireNextImageKHR a.m_swapchain (at_ a.m_image_available a.m_current_frame) ]

/-- The fence reset, the command buffer reset and the start of the recording. -/
def beginCalls (a : App) : List Call :=
  [ .vkResetFences (at_ a.m_in_flight_frame a.m_current_frame),
    .vkResetCommandBuffer (at_ a.m_command_buffers a.m_current_frame),
    .vkBeginCommandBuffer (at_ a.m_command_buffers a.m_current_frame) ]

/-- The commands recorded after a successful `vkBeginCommandBuffer`. -/
def recordCalls (a : App) (image_index : Nat) : List Call :=
  [ .vkCmdBeginRenderPass (at_ a.m_command_buffers a.m_current_frame) a.m_render_pass
      (at_ a.m_swapchain_framebuffers image_index) a.m_swapchain_params.extent,
    .vkCmdBindPipeline (at_ a.m_command_buffers a.m_current_frame) a.m_graphics_pipeline,
    .vkCmdBindVertexBuffers (at_ a.m_command_buffers a.m_current_frame) a.m_vertex_buffer,
    .vkCmdSetViewport (at_ a.m_command_buffers a.m_current_frame) a.m_swapchain_params.extent,
    .vkCmdSetScissor (at_ a.m_command_buffers a.m_current_frame) a.m_swapchain_params.extent,
    .vkCmdDraw (at_ a.m_command_buffers a.m_current_frame) g_vertices_size 1,
    .vkCmdEndRenderPass (at_ a.m_command_buffers a.m_current_frame),
    .vkEndCommandBuffer (at_ a.m_command_buffers a.m_current_frame) ]

/-- The submission of `drawFrame`. -/
def submitCall (a : App) : Call :=
  .vkQueueSubmit a.m_graphics_queue [at_ a.m_image_available a.m_current_frame]
    [VK_PIPELINE_STAGE_COLOR_ATTACHMENT_OUTPUT_BIT] [at_ a.m_command_buffers a.m_current_frame]
    [at_ a.m_render_finished a.m_current_frame] (at_ a.m_in_flight_frame a.m_current_frame)

/-- The present of `drawFrame`. -/
def presentCall (a : App) (image_index : Nat) : Call :=
  .vkQueuePresentKHR a.m_present_queue [at_ a.m_render_finished a.m_current_frame]
    [a.m_swapchain] [image_index]

/-- The calls of an iteration that gets as far as the present. -/
def frameCalls (a : App) (image_index : Nat) : List Call :=
  acquireCalls a ++ beginCalls a ++ recordCalls a image_index
    ++ [submitCall a, presentCall a image_index]

/-- The state after a drawing iteration that returns. -/
def advanced (w : World) : World :=
  { w with app := { w.app with
      m_framebuffer_resized := false
      m_current_frame := ((w.app.m_current_frame + 1) % UINT32_SIZE) % MAX_FRAMES_IN_FLIGHT } }

/-- The state after `glfwPollEvents`. -/
def afterPoll (env : FrameEnv) (w : World) : World :=
  { w with app := { w.app with
      m_framebuffer_resized := env.poll_resized || w.app.m_framebuffer_resized } }

/-- The submissions that the CPU has not yet observed complete, as pairs of a
submitted command buffer and the fence that its submission armed, after one
more call: a submission adds its pairs, a wait on a fence observes the
submissions that armed it, and a device-idle wait observes them all. -/
def unobserved (pending : List (Handle × Handle)) : Call → List (Handle × Handle)
  | .vkQueueSubmit _ _ _ command_buffers _ fence =>
    pending ++ command_buffers.map (fun b => (b, fence))
  | .vkWaitForFences fence => pending.filter (fun p => p.2 ≠ fence)
  | .vkDeviceWaitIdle => []
  | _ => pending

/-- No call of the trace resets or records into a command buffer that has a
submission not yet observed complete; `pending` are the unobserved submissions
before the trace. -/
def rewritesOnlyObserved : List (Handle × Handle) → List Call → Bool
  | _, [] => true
  | pending, c :: rest =>
    (match c.rewrites with
      | some b => pending.all (fun p => p.1 ≠ b)
      | none => true)
    && rewritesOnlyObserved (unobserved pending c) rest

/-- The slot index is in range, the two slots have different command buffers,
and every unobserved submission is the submission of a slot: its command
buffer and its fence are those of one and the same slot. -/
def SlotsCoherent (w : World) (pending : List (Handle × Handle)) : Prop :=
  w.app.m_current_frame < MAX_FRAMES_IN_FLIGHT
    ∧ at_ w.app.m_command_buffers 0 ≠ at_ w.app.m_command_buffers 1
    ∧ ∀ p ∈ pending, ∃ t, t < MAX_FRAMES_IN_FLIGHT
        ∧ p.1 = at_ w.app.m_command_buffers t ∧ p.2 = at_ w.app.m_in_flight_frame t

/-- Every run of `m` leaves the value of `g` on the application as it was. -/
def Keeps {α β : Type} (g : App → β) (m : M α) : Prop :=
  ∀ w : World, g (m w).world.app = g w.app

/-- The members that tie a slot to its command buffer. -/
def slotBuffers (a : App) : List Handle × Nat := (a.m_command_buffers, a.m_current_frame)

/-! ## The three stages of a recreation -/

/-- The first statements of `recreateSwapchain`: observe the framebuffer size
until it is nonzero.  The value is the number of observations made. -/
def recreateStall (fuel : Nat) (env : RecreateEnv) : M Nat := do
  emit (.glfwGetFramebufferSize (env.sizes 0).1 (env.sizes 0).2)
  waitWhileMinimized env fuel 1 (env.sizes 0)

/-- The next statements of `recreateSwapchain`: wait for the device and destroy
the objects that depend on the swapchain. -/
def recreateTeardown : M Unit := do
  emit .vkDeviceWaitIdle
  cleanupSwapchain
  let a ← getApp
  emit (.vkDestroyRenderPass a.m_render_pass)
  emit (.vkDestroyPipeline a.m_graphics_pipeline)
  emit (.vkDestroyPipelineLayout a.m_pipeline_layout)
  forEach destroySyncObjectsAt (List.range MAX_FRAMES_IN_FLIGHT)

/-- The last statements of `recreateSwapchain`: build the objects again, after
`n` size observations. -/
def recreateRebuild (env : RecreateEnv) (n : Nat) : M Unit := do
  createSwapchain env n
  let a ← getApp
  let image_views ← getImageViews env a.m_swapchain_params.surface_format a.m_swapchain_images
  modifyApp (fun a => { a with m_swapchain_views := image_views })
  createRenderPass env
  let a ← getApp
  createPipeline env a.m_render_pass
  let a ← getApp
  let _ ← createFramebuffers env a.m_swapchain_params.extent a.m_render_pass a.m_swapchain_views
  createSyncObjects env

/-- The destroy calls of a recreation from an application state, in order. -/
def teardownCalls (a : App) : List Call :=
  a.m_swapchain_framebuffers.map .vkDestroyFramebuffer
    ++ (List.range a.m_swapchain_framebuffers.length).map
        (fun i => .vkDestroyImageView (at_ a.m_swapchain_views i))
    ++ [.vkDestroySwapchainKHR a.m_swapchain, .vkDestroyRenderPass a.m_render_pass,
        .vkDestroyPipeline a.m_graphics_pipeline, .vkDestroyPipelineLayout a.m_pipeline_layout]
    ++ [.vkDestroySemaphore (at_ a.m_image_available 0),
        .vkDestroySemaphore (at_ a.m_render_finished 0),
        .vkDestroyFence (at_ a.m_in_flight_frame 0),
        .vkDestroySemaphore (at_ a.m_image_available 1),
        .vkDestroySemaphore (at_ a.m_render_finished 1),
        .vkDestroyFence (at_ a.m_in_flight_frame 1)]

/-- The calls of `j` passes of the loop of `recreateSwapchain`, the first of
which makes observation number `n`: an observation of the size and a wait for
events, `j` times. -/
def observeAndWait (env : RecreateEnv) : Nat → Nat → List Call
  | _, 0 => []
  | n, j + 1 =>
    .glfwGetFramebufferSize (env.sizes n).1 (env.sizes n).2 :: .glfwWaitEvents
      :: observeAndWait env (n + 1) j

/-- Whether a call is an observation of the framebuffer size. -/
def Call.isSizeObservation : Call → Bool
  | .glfwGetFramebufferSize _ _ => true
  | _ => false

/-- The members that hold the objects that a recreation destroys. -/
def swapchainObjects (a : App) :
    List Handle × List Handle × Handle × Handle × Handle × Handle
      × List Handle × List Handle × List Handle :=
  (a.m_swapchain_framebuffers, a.m_swapchain_views, a.m_swapchain, a.m_render_pass,
    a.m_graphics_pipeline, a.m_pipeline_layout, a.m_image_available, a.m_render_finished,
    a.m_in_flight_frame)

/-- No run of `m` is left waiting in a loop. -/
def NeverBlocks {α : Type} (m : M α) : Prop :=
  ∀ w : World, (m w).outcome ≠ .blocked

/-- The image count and the surface format that a call requests for a new
swapchain, if the call creates a swapchain. -/
def Call.swapchainRequest : Call → Option (Nat × VkSurfaceFormatKHR)
  | .vkCreateSwapchainKHR image_count surface_format _ _ _ _ _ =>
    some (image_count, surface_format)
  | _ => none

/-- Whether a call creates an image view. -/
def Call.isImageViewCreation : Call → Bool
  | .vkCreateImageView _ _ => true
  | _ => false

/-- Whether a call destroys an image view. -/
def Call.isImageViewDestruction : Call → Bool
  | .vkDestroyImageView _ => true
  | _ => false

/-- The calls of a rebuild that come after the creation of the swapchain: the
creation of an image view, a render pass, a pipeline layout, a pipeline, a
framebuffer, a semaphore or a signaled fence. -/
def Call.isDependentCreation : Call → Bool
  | .vkCreateImageView _ _ => true
  | .vkCreateRenderPass _ => true
  | .vkCreatePipelineLayout => true
  | .vkCreateGraphicsPipelines _ _ => true
  | .vkCreateFramebuffer _ _ _ => true
  | .vkCreateSemaphore => true
  | .vkCreateFence signaled => signaled
  | _ => false

/-- Every call that `m` issues, from any state, satisfies `P`. -/
def Emits {α : Type} (P : Call → Bool) (m : M α) : Prop :=
  ∀ w : World, ∀ c ∈ (m w).calls, P c = true

/-! ## Reasoning about member functions -/

@[simp] theorem bind_eq_andThen {α β : Type} (m : M α) (f : α → M β) :
    (m >>= f) = m.andThen f := rfl

@[simp] theorem pure_eq_ret {α : Type} (a : α) : (pure a : M α) = M.ret a := rfl

@[simp] theorem emit_andThen {β : Type} (c : Call) (f : Unit → M β) (w : World) :
    (emit c).andThen f w = ⟨(f () w).outcome, (f () w).world, c :: (f () w).calls⟩ := rfl

@[simp] theorem getApp_andThen {β : Type} (f : App → M β) (w : World) :
    getApp.andThen f w = f w.app w := by
  simp [getApp, M.andThen]

@[simp] theorem modifyApp_andThen {β : Type} (g : App → App) (f : Unit → M β) (w : World) :
    (modifyApp g).andThen f w = f () { w with app := g w.app } := by
  simp [modifyApp, M.andThen]

@[simp] theorem raise_andThen {α β : Type} (e : String) (f : α → M β) (w : World) :
    (raise e : M α).andThen f w = ⟨.raised e, w, []⟩ := rfl

@[simp] theorem block_andThen {α β : Type} (f : α → M β) (w : World) :
    (block : M α).andThen f w = ⟨.blocked, w, []⟩ := rfl

@[simp] theorem ret_andThen {α β : Type} (a : α) (f : α → M β) (w : World) :
    (M.ret a).andThen f w = f a w := by
  simp [M.ret, M.andThen]

@[simp] theorem andThen_assoc {α β γ : Type} (m : M α) (f : α → M β) (g : β → M γ) :
    (m.andThen f).andThen g = m.andThen (fun a => (f a).andThen g) := by
  funext w
  simp only [M.andThen]
  rcases h : m w with ⟨o, w1, cs⟩
  cases o with
  | returned a =>
    simp only
    rcases h2 : f a w1 with ⟨o2, w2, cs2⟩
    cases o2 <;> simp
  | raised e => simp
  | blocked => simp

@[simp] theorem ite_andThen {α β : Type} (c : Prop) [Decidable c] (m1 m2 : M α) (f : α → M β) :
    (if c then m1 else m2).andThen f = if c then m1.andThen f else m2.andThen f := by
  split <;> rfl

theorem ite_run {α : Type} (c : Prop) [Decidable c] (m1 m2 : M α) (w : World) :
    (if c then m1 else m2) w = if c then m1 w else m2 w := by
  split <;> rfl

@[simp] theorem emit_run (c : Call) (w : World) : emit c w = ⟨.returned (), w, [c]⟩ := rfl

@[simp] theorem raise_run {α : Type} (e : String) (w : World) :
    (raise e : M α) w = ⟨.raised e, w, []⟩ := rfl

@[simp] theorem ret_run {α : Type} (a : α) (w : World) : M.ret a w = ⟨.returned a, w, []⟩ := rfl

@[simp] theorem modifyApp_run (g : App → App) (w : World) :
    modifyApp g w = ⟨.returned (), { w with app := g w.app }, []⟩ := rfl

/-- What a sequence does when its first part returns. -/
theorem andThen_of_returned {α β : Type} (m : M α) (f : α → M β) (w : World) (a : α)
    (h : (m w).outcome = .returned a) :
    m.andThen f w = ⟨(f a (m w).world).outcome, (f a (m w).world).world,
      (m w).calls ++ (f a (m w).world).calls⟩ := by
  simp only [M.andThen]
  rcases hm : m w with ⟨o, w1, cs⟩
  rw [hm] at h
  simp only at h
  subst h
  rfl

/-- What a sequence does when its first part does not return. -/
theorem andThen_of_not_returned {α β : Type} (m : M α) (f : α → M β) (w : World)
    (h : ∀ a, (m w).outcome ≠ .returned a) :
    (m.andThen f w).calls = (m w).calls ∧ (m.andThen f w).world = (m w).world ∧
      ∀ b, (m.andThen f w).outcome ≠ .returned b := by
  simp only [M.andThen]
  rcases hm : m w with ⟨o, w1, cs⟩
  rw [hm] at h
  cases o with
  | returned a => exact absurd rfl (h a)
  | raised e => simp
  | blocked => simp

/-! ## The cases of `drawFrame` -/

theorem drawFrame_out_of_date (fuel : Nat) (env : FrameEnv) (w : World)
    (h : env.acquire_result = VK_ERROR_OUT_OF_DATE_KHR) :
    drawFrame fuel env w = ⟨(recreateSwapchain fuel env.recreate w).outcome,
      (recreateSwapchain fuel env.recreate w).world,
      acquireCalls w.app ++ (recreateSwapchain fuel env.recreate w).calls⟩ := by
  simp [drawFrame, h, acquireCalls]

theorem drawFrame_acquire_error (fuel : Nat) (env : FrameEnv) (w : World)
    (h1 : env.acquire_result ≠ VK_ERROR_OUT_OF_DATE_KHR)
    (h2 : env.acquire_result ≠ VK_SUCCESS) (h3 : env.acquire_result ≠ VK_SUBOPTIMAL_KHR) :
    drawFrame fuel env w =
      ⟨.raised "failed to acquire swap chain image!", w, acquireCalls w.app⟩ := by
  simp [drawFrame, h1, h2, h3, acquireCalls]

theorem acquired_not_out_of_date {r : VkResult} (h : r = VK_SUCCESS ∨ r = VK_SUBOPTIMAL_KHR) :
    r ≠ VK_ERROR_OUT_OF_DATE_KHR := by
  rcases h with h | h <;> rw [h] <;> decide

theorem drawFrame_begin_error (fuel : Nat) (env : FrameEnv) (w : World)
    (hacq : env.acquire_result = VK_SUCCESS ∨ env.acquire_result = VK_SUBOPTIMAL_KHR)
    (hb : env.begin_result ≠ VK_SUCCESS) :
    drawFrame fuel env w = ⟨.raised "failed to begin recording commandbuffer!", w,
      acquireCalls w.app ++ beginCalls w.app⟩ := by
  have h1 := acquired_not_out_of_date hacq
  have h2 : ¬ (env.acquire_result ≠ VK_SUCCESS ∧ env.acquire_result ≠ VK_SUBOPTIMAL_KHR) := by
    rcases hacq with h | h <;> simp [h]
  simp only [ne_eq] at h2
  simp [drawFrame, recordCommandBuffer, h1, h2, hb, acquireCalls, beginCalls]

theorem drawFrame_end_error (fuel : Nat) (env : FrameEnv) (w : World)
    (hacq : env.acquire_result = VK_SUCCESS ∨ env.acquire_result = VK_SUBOPTIMAL_KHR)
    (hb : env.begin_result = VK_SUCCESS) (he : env.end_result ≠ VK_SUCCESS) :
    drawFrame fuel env w = ⟨.raised "failed to record command buffer!", w,
      acquireCalls w.app ++ beginCalls w.app ++ recordCalls w.app env.image_index⟩ := by
  have h1 := acquired_not_out_of_date hacq
  have h2 : ¬ (env.acquire_result ≠ VK_SUCCESS ∧ env.acquire_result ≠ VK_SUBOPTIMAL_KHR) := by
    rcases hacq with h | h <;> simp [h]
  simp only [ne_eq] at h2
  simp [drawFrame, recordCommandBuffer, h1, h2, hb, he, acquireCalls, beginCalls, recordCalls]

theorem drawFrame_submit_error (fuel : Nat) (env : FrameEnv) (w : World)
    (hacq : env.acquire_result = VK_SUCCESS ∨ env.acquire_result = VK_SUBOPTIMAL_KHR)
    (hb : env.begin_result = VK_SUCCESS) (he : env.end_result = VK_SUCCESS)
    (hs : env.submit_result ≠ VK_SUCCESS) :
    drawFrame fuel env w = ⟨.raised "failed to submit draw command buffer!", w,
      acquireCalls w.app ++ beginCalls w.app ++ recordCalls w.app env.image_index
        ++ [submitCall w.app]⟩ := by
  have h1 := acquired_not_out_of_date hacq
  have h2 : ¬ (env.acquire_result ≠ VK_SUCCESS ∧ env.acquire_result ≠ VK_SUBOPTIMAL_KHR) := by
    rcases hacq with h | h <;> simp [h]
  simp only [ne_eq] at h2
  simp [drawFrame, recordCommandBuffer, h1, h2, hb, he, hs, acquireCalls, beginCalls, recordCalls,
    submitCall]

theorem drawFrame_present_deferred (fuel : Nat) (env : FrameEnv) (w : World)
    (hacq : env.acquire_result = VK_SUCCESS ∨ env.acquire_result = VK_SUBOPTIMAL_KHR)
    (hb : env.begin_result = VK_SUCCESS) (he : env.end_result = VK_SUCCESS)
    (hs : env.submit_result = VK_SUCCESS)
    (hp : env.present_result = VK_ERROR_OUT_OF_DATE_KHR ∨ env.present_result = VK_SUBOPTIMAL_KHR
      ∨ w.app.m_framebuffer_resized = true) :
    drawFrame fuel env w = ⟨.returned (),
      { w with app := { w.app with
          m_framebuffer_resized := false
          m_current_frame := ((w.app.m_current_frame + 1) % UINT32_SIZE) % MAX_FRAMES_IN_FLIGHT } },
      frameCalls w.app env.image_index⟩ := by
  have h1 := acquired_not_out_of_date hacq
  have h2 : ¬ (env.acquire_result ≠ VK_SUCCESS ∧ env.acquire_result ≠ VK_SUBOPTIMAL_KHR) := by
    rcases hacq with h | h <;> simp [h]
  simp only [ne_eq] at h2
  simp [drawFrame, recordCommandBuffer, h1, h2, hb, he, hs, hp, acquireCalls, beginCalls,
    recordCalls, submitCall, presentCall, frameCalls]

theorem drawFrame_present_error (fuel : Nat) (env : FrameEnv) (w : World)
    (hacq : env.acquire_result = VK_SUCCESS ∨ env.acquire_result = VK_SUBOPTIMAL_KHR)
    (hb : env.begin_result = VK_SUCCESS) (he : env.end_result = VK_SUCCESS)
    (hs : env.submit_result = VK_SUCCESS)
    (hp1 : env.present_result ≠ VK_ERROR_OUT_OF_DATE_KHR)
    (hp2 : env.present_result ≠ VK_SUBOPTIMAL_KHR)
    (hp3 : w.app.m_framebuffer_resized = false)
    (hp4 : env.present_result ≠ VK_SUCCESS) :
    drawFrame fuel env w = ⟨.raised "failed to present swap chain image!", w,
      frameCalls w.app env.image_index⟩ := by
  have h1 := acquired_not_out_of_date hacq
  have h2 : ¬ (env.acquire_result ≠ VK_SUCCESS ∧ env.acquire_result ≠ VK_SUBOPTIMAL_KHR) := by
    rcases hacq with h | h <;> simp [h]
  simp only [ne_eq] at h2
  simp [drawFrame, recordCommandBuffer, h1, h2, hb, he, hs, hp1, hp2, hp3, hp4, acquireCalls,
    beginCalls, recordCalls, submitCall, presentCall, frameCalls]

theorem drawFrame_present_success (fuel : Nat) (env : FrameEnv) (w : World)
    (hacq : env.acquire_result = VK_SUCCESS ∨ env.acquire_result = VK_SUBOPTIMAL_KHR)
    (hb : env.begin_result = VK_SUCCESS) (he : env.end_result = VK_SUCCESS)
    (hs : env.submit_result = VK_SUCCESS)
    (hp3 : w.app.m_framebuffer_resized = false)
    (hp4 : env.present_result = VK_SUCCESS) :
    drawFrame fuel env w = ⟨.returned (),
      { w with app := { w.app with
          m_current_frame := ((w.app.m_current_frame + 1) % UINT32_SIZE) % MAX_FRAMES_IN_FLIGHT } },
      frameCalls w.app env.image_index⟩ := by
  have h1 := acquired_not_out_of_date hacq
  have h2 : ¬ (env.acquire_result ≠ VK_SUCCESS ∧ env.acquire_result ≠ VK_SUBOPTIMAL_KHR) := by
    rcases hacq with h | h <;> simp [h]
  simp only [ne_eq] at h2
  have hp1 : VK_SUCCESS ≠ VK_ERROR_OUT_OF_DATE_KHR := by decide
  have hp2 : VK_SUCCESS ≠ VK_SUBOPTIMAL_KHR := by decide
  simp [drawFrame, recordCommandBuffer, h1, h2, hb, he, hs, hp1, hp2, hp3, hp4, acquireCalls,
    beginCalls, recordCalls, submitCall, presentCall, frameCalls]

/-! ## What a recreation issues -/

theorem emits_emit {P : Call → Bool} {c : Call} (h : P c = true) : Emits P (emit c) := by
  intro w x hx
  simp only [emit_run, List.mem_singleton] at hx
  rw [hx]; exact h

theorem emits_andThen {α β : Type} {P : Call → Bool} {m : M α} {f : α → M β}
    (hm : Emits P m) (hf : ∀ a, Emits P (f a)) : Emits P (m.andThen f) := by
  intro w x hx
  simp only [M.andThen] at hx
  have hmw := hm w
  rcases h : m w with ⟨o, w1, cs⟩
  rw [h] at hx hmw
  cases o with
  | returned a =>
    simp only [List.mem_append] at hx
    rcases hx with hx | hx
    · exact hmw x hx
    · exact hf a w1 x hx
  | raised e => exact hmw x hx
  | blocked => exact hmw x hx

theorem emits_bind {α β : Type} {P : Call → Bool} {m : M α} {f : α → M β}
    (hm : Emits P m) (hf : ∀ a, Emits P (f a)) : Emits P (m >>= f) :=
  emits_andThen hm hf

theorem emits_silent {α : Type} {P : Call → Bool} {m : M α} (h : ∀ w, (m w).calls = []) :
    Emits P m := by
  intro w x hx
  rw [h w] at hx
  exact absurd hx (List.not_mem_nil x)

theorem emits_pure {α : Type} {P : Call → Bool} (a : α) : Emits P (pure a : M α) :=
  emits_silent (fun _ => rfl)

theorem emits_raise {α : Type} {P : Call → Bool} (e : String) : Emits P (raise e : M α) :=
  emits_silent (fun _ => rfl)

theorem emits_block {α : Type} {P : Call → Bool} : Emits P (block : M α) :=
  emits_silent (fun _ => rfl)

theorem emits_getApp {P : Call → Bool} : Emits P getApp :=
  emits_silent (fun _ => rfl)

theorem emits_modifyApp {P : Call → Bool} (g : App → App) : Emits P (modifyApp g) :=
  emits_silent (fun _ => rfl)

theorem emits_swapchainImages {P : Call → Bool} (n : Nat) : Emits P (swapchainImages n) :=
  emits_silent (fun _ => rfl)

theorem emits_create {P : Call → Bool} {c : Call} (r : Nat → VkResult) (h : P c = true) :
    Emits P (create c r) := by
  intro w x hx
  simp only [create, List.mem_singleton] at hx
  rw [hx]; exact h

theorem emits_ite {α : Type} {P : Call → Bool} (c : Prop) [Decidable c] {m1 m2 : M α}
    (h1 : Emits P m1) (h2 : Emits P m2) : Emits P (if c then m1 else m2) := by
  split
  · exact h1
  · exact h2

theorem emits_forEach {α : Type} {P : Call → Bool} {f : α → M Unit} (h : ∀ x, Emits P (f x))
    (xs : List α) : Emits P (forEach f xs) := by
  induction xs with
  | nil => exact emits_pure ()
  | cons x rest ih => exact emits_bind (h x) (fun _ => ih)

theorem emits_getImageViews {P : Call → Bool} (env : RecreateEnv) (fmt : VkSurfaceFormatKHR)
    (h : ∀ c, c.kind = .create → P c = true) (images : List Handle) :
    Emits P (getImageViews env fmt images) := by
  induction images with
  | nil => exact emits_pure []
  | cons image rest ih =>
    refine emits_bind (emits_create _ (h _ rfl)) (fun r => ?_)
    exact emits_ite _ (emits_raise _) (emits_bind ih (fun _ => emits_pure _))

theorem emits_createFramebuffers {P : Call → Bool} (env : RecreateEnv) (extent : VkExtent2D)
    (render_pass : Handle) (h : ∀ c, c.kind = .create → P c = true) (views : List Handle) :
    Emits P (createFramebuffers env extent render_pass views) := by
  induction views with
  | nil => exact emits_pure []
  | cons view rest ih =>
    refine emits_bind (emits_create _ (h _ rfl)) (fun r => ?_)
    exact emits_ite _ (emits_raise _) (emits_bind ih (fun _ => emits_pure _))

theorem emits_waitWhileMinimized {P : Call → Bool} (env : RecreateEnv)
    (h : ∀ c, c.kind = .window → P c = true) (fuel : Nat) :
    ∀ (n : Nat) (size : Int × Int), Emits P (waitWhileMinimized env fuel n size) := by
  induction fuel with
  | zero =>
    intro n size
    exact emits_ite _ emits_block (emits_pure _)
  | succ fuel ih =>
    intro n size
    refine emits_ite _ ?_ (emits_pure _)
    refine emits_bind (emits_emit (h _ rfl)) (fun _ => ?_)
    refine emits_bind (emits_emit (h _ rfl)) (fun _ => ?_)
    refine emits_bind ?_ (fun _ => ih _ _)
    exact emits_ite _ (emits_modifyApp _) (emits_pure _)

theorem swapchainCreateInfo_kind (a : App) (q : List QueueFamily)
    (iteration_order : List Nat → List Nat) :
    (swapchainCreateInfo a q iteration_order).kind = .create := by
  unfold swapchainCreateInfo
  simp only
  split <;> rfl

theorem emits_createSwapchain {P : Call → Bool} (env : RecreateEnv) (n : Nat)
    (hw : ∀ c, c.kind = .window → P c = true) (hc : ∀ c, c.kind = .create → P c = true) :
    Emits P (createSwapchain env n) := by
  unfold createSwapchain
  refine emits_bind (emits_modifyApp _) (fun _ => ?_)
  refine emits_bind (emits_modifyApp _) (fun _ => ?_)
  refine emits_bind (emits_modifyApp _) (fun _ => ?_)
  refine emits_bind emits_getApp (fun a => ?_)
  refine emits_bind ?_ (fun _ => ?_)
  · unfold chooseSwapExtentM
    exact emits_ite _ (emits_pure _) (emits_bind (emits_emit (hw _ rfl)) (fun _ => emits_pure _))
  refine emits_bind (emits_modifyApp _) (fun _ => ?_)
  refine emits_bind ?_ (fun _ => ?_)
  · unfold createSwapchainWithParams
    refine emits_bind emits_getApp (fun a => ?_)
    refine emits_bind (emits_create _ (hc _ (swapchainCreateInfo_kind _ _ _))) (fun r => ?_)
    exact emits_ite _ (emits_raise _) (emits_pure _)
  refine emits_bind (emits_modifyApp _) (fun _ => ?_)
  refine emits_bind ?_ (fun _ => ?_)
  · unfold getSwapchainImages
    refine emits_ite _ (emits_raise _) ?_
    refine emits_bind (emits_swapchainImages _) (fun _ => ?_)
    exact emits_ite _ (emits_raise _) (emits_pure _)
  refine emits_bind (emits_modifyApp _) (fun _ => ?_)
  refine emits_bind emits_getApp (fun a => ?_)
  refine emits_bind (emits_getImageViews _ _ hc _) (fun _ => ?_)
  exact emits_modifyApp _

theorem emits_createSyncObjects {P : Call → Bool} (env : RecreateEnv)
    (hc : ∀ c, c.kind = .create → P c = true) : Emits P (createSyncObjects env) := by
  unfold createSyncObjects
  refine emits_bind (emits_modifyApp _) (fun _ => ?_)
  refine emits_bind (emits_modifyApp _) (fun _ => ?_)
  refine emits_bind (emits_modifyApp _) (fun _ => ?_)
  refine emits_forEach (fun i => ?_) _
  unfold createSyncObjectsAt
  refine emits_bind (emits_create _ (hc _ rfl)) (fun r => ?_)
  refine emits_ite _ (emits_raise _) ?_
  refine emits_bind (emits_modifyApp _) (fun _ => ?_)
  refine emits_bind (emits_create _ (hc _ rfl)) (fun r => ?_)
  refine emits_ite _ (emits_raise _) ?_
  refine emits_bind (emits_modifyApp _) (fun _ => ?_)
  refine emits_bind (emits_create _ (hc _ rfl)) (fun r => ?_)
  exact emits_ite _ (emits_raise _) (emits_modifyApp _)

/-- The statements of a recreation issue recreation calls only. -/
theorem emits_recreateSwapchainBody (fuel : Nat) (env : RecreateEnv) :
    Emits Call.isRecreation (recreateSwapchainBody fuel env) := by
  have hw : ∀ c : Call, c.kind = .window → c.isRecreation = true := by
    intro c h; simp [Call.isRecreation, h]
  have hc : ∀ c : Call, c.kind = .create → c.isRecreation = true := by
    intro c h; simp [Call.isRecreation, h]
  unfold recreateSwapchainBody
  refine emits_bind (emits_emit rfl) (fun _ => ?_)
  refine emits_bind (emits_waitWhileMinimized env hw fuel _ _) (fun n => ?_)
  refine emits_bind (emits_emit rfl) (fun _ => ?_)
  refine emits_bind ?_ (fun _ => ?_)
  · unfold cleanupSwapchain
    refine emits_bind emits_getApp (fun a => ?_)
    refine emits_bind (emits_forEach (fun i => emits_emit rfl) _) (fun _ => ?_)
    refine emits_bind (emits_forEach (fun i => emits_emit rfl) _) (fun _ => ?_)
    exact emits_emit rfl
  refine emits_bind emits_getApp (fun a => ?_)
  refine emits_bind (emits_emit rfl) (fun _ => ?_)
  refine emits_bind (emits_emit rfl) (fun _ => ?_)
  refine emits_bind (emits_emit rfl) (fun _ => ?_)
  refine emits_bind ?_ (fun _ => ?_)
  · refine emits_forEach (fun i => ?_) _
    unfold destroySyncObjectsAt
    refine emits_bind emits_getApp (fun a => ?_)
    refine emits_bind (emits_emit rfl) (fun _ => ?_)
    refine emits_bind (emits_emit rfl) (fun _ => ?_)
    exact emits_emit rfl
  refine emits_bind (emits_createSwapchain env _ hw hc) (fun _ => ?_)
  refine emits_bind emits_getApp (fun a => ?_)
  refine emits_bind (emits_getImageViews _ _ hc _) (fun _ => ?_)
  refine emits_bind (emits_modifyApp _) (fun _ => ?_)
  refine emits_bind ?_ (fun _ => ?_)
  · unfold createRenderPass
    refine emits_bind emits_getApp (fun a => ?_)
    refine emits_bind (emits_create _ rfl) (fun r => ?_)
    exact emits_ite _ (emits_raise _) (emits_modifyApp _)
  refine emits_bind emits_getApp (fun a => ?_)
  refine emits_bind ?_ (fun _ => ?_)
  · unfold createPipeline
    refine emits_bind (emits_create _ rfl) (fun r => ?_)
    refine emits_ite _ (emits_raise _) ?_
    refine emits_bind (emits_modifyApp _) (fun _ => ?_)
    refine emits_bind (emits_create _ rfl) (fun r => ?_)
    exact emits_ite _ (emits_raise _) (emits_modifyApp _)
  refine emits_bind emits_getApp (fun a => ?_)
  refine emits_bind (emits_createFramebuffers _ _ _ hc _) (fun _ => ?_)
  exact emits_createSyncObjects env hc

/-- A recreation logs its entry once and then issues recreation calls only. -/
theorem recreateSwapchain_calls (fuel : Nat) (env : RecreateEnv) (w : World) :
    (recreateSwapchain fuel env w).calls
      = .recreateSwapchain :: (recreateSwapchainBody fuel env w).calls := by
  simp [recreateSwapchain]

theorem pollEvents_run (env : FrameEnv) (w : World) :
    pollEvents env w = ⟨.returned (), afterPoll env w, [.glfwPollEvents]⟩ := by
  cases h : env.poll_resized <;>
    simp [pollEvents, framebuffer_resize_callback, afterPoll, h]

theorem mainLoopPass_run (fuel : Nat) (env : FrameEnv) (w : World) :
    mainLoopPass fuel env w = ⟨(drawFrame fuel env (afterPoll env w)).outcome,
      (drawFrame fuel env (afterPoll env w)).world,
      .glfwPollEvents :: (drawFrame fuel env (afterPoll env w)).calls⟩ := by
  simp only [mainLoopPass, bind_eq_andThen]
  rw [andThen_of_returned _ _ _ () (by rw [pollEvents_run])]
  simp [pollEvents_run]

theorem mainLoopPasses_cons (fuel : Nat) (env : FrameEnv) (rest : List FrameEnv) :
    mainLoopPasses fuel (env :: rest)
      = (mainLoopPass fuel env).andThen (fun _ => mainLoopPasses fuel rest) := by
  simp [mainLoopPasses, mainLoopPass]

/-- The five ways in which a drawing iteration ends. -/
theorem drawFrame_drawing (fuel : Nat) (env : FrameEnv) (w : World)
    (hacq : env.acquire_result = VK_SUCCESS ∨ env.acquire_result = VK_SUBOPTIMAL_KHR) :
    (env.begin_result ≠ VK_SUCCESS ∧
      drawFrame fuel env w = ⟨.raised "failed to begin recording commandbuffer!", w,
        acquireCalls w.app ++ beginCalls w.app⟩)
    ∨ (env.begin_result = VK_SUCCESS ∧ env.end_result ≠ VK_SUCCESS ∧
      drawFrame fuel env w = ⟨.raised "failed to record command buffer!", w,
        acquireCalls w.app ++ beginCalls w.app ++ recordCalls w.app env.image_index⟩)
    ∨ (env.begin_result = VK_SUCCESS ∧ env.end_result = VK_SUCCESS ∧
      env.submit_result ≠ VK_SUCCESS ∧
      drawFrame fuel env w = ⟨.raised "failed to submit draw command buffer!", w,
        acquireCalls w.app ++ beginCalls w.app ++ recordCalls w.app env.image_index
          ++ [submitCall w.app]⟩)
    ∨ (env.begin_result = VK_SUCCESS ∧ env.end_result = VK_SUCCESS ∧
      env.submit_result = VK_SUCCESS ∧
      (env.present_result ≠ VK_ERROR_OUT_OF_DATE_KHR ∧ env.present_result ≠ VK_SUBOPTIMAL_KHR ∧
        w.app.m_framebuffer_resized = false ∧ env.present_result ≠ VK_SUCCESS) ∧
      drawFrame fuel env w = ⟨.raised "failed to present swap chain image!", w,
        frameCalls w.app env.image_index⟩)
    ∨ (env.begin_result = VK_SUCCESS ∧ env.end_result = VK_SUCCESS ∧
      env.submit_result = VK_SUCCESS ∧
      (env.present_result = VK_ERROR_OUT_OF_DATE_KHR ∨ env.present_result = VK_SUBOPTIMAL_KHR ∨
        w.app.m_framebuffer_resized = true ∨ env.present_result = VK_SUCCESS) ∧
      drawFrame fuel env w = ⟨.returned (), advanced w, frameCalls w.app env.image_index⟩) := by
  by_cases hb : env.begin_result = VK_SUCCESS
  swap
  · exact Or.inl ⟨hb, drawFrame_begin_error fuel env w hacq hb⟩
  by_cases he : env.end_result = VK_SUCCESS
  swap
  · exact Or.inr (Or.inl ⟨hb, he, drawFrame_end_error fuel env w hacq hb he⟩)
  by_cases hs : env.submit_result = VK_SUCCESS
  swap
  · exact Or.inr (Or.inr (Or.inl ⟨hb, he, hs, drawFrame_submit_error fuel env w hacq hb he hs⟩))
  by_cases hp : env.present_result = VK_ERROR_OUT_OF_DATE_KHR
      ∨ env.present_result = VK_SUBOPTIMAL_KHR ∨ w.app.m_framebuffer_resized = true
  · refine Or.inr (Or.inr (Or.inr (Or.inr ⟨hb, he, hs, ?_, ?_⟩)))
    · rcases hp with h | h | h
      · exact Or.inl h
      · exact Or.inr (Or.inl h)
      · exact Or.inr (Or.inr (Or.inl h))
    · exact drawFrame_present_deferred fuel env w hacq hb he hs hp
  · simp only [not_or] at hp
    obtain ⟨hp1, hp2, hp3⟩ := hp
    have hp3 : w.app.m_framebuffer_resized = false := by simpa using hp3
    by_cases hp4 : env.present_result = VK_SUCCESS
    · refine Or.inr (Or.inr (Or.inr (Or.inr ⟨hb, he, hs, Or.inr (Or.inr (Or.inr hp4)), ?_⟩)))
      rw [drawFrame_present_success fuel env w hacq hb he hs hp3 hp4]
      simp only [advanced, Step.mk.injEq, true_and, and_true]
      rcases w with ⟨a, n⟩
      simp only at hp3
      simp [← hp3]
    · exact Or.inr (Or.inr (Or.inr (Or.inl
        ⟨hb, he, hs, ⟨hp1, hp2, hp3, hp4⟩,
          drawFrame_present_error fuel env w hacq hb he hs hp1 hp2 hp3 hp4⟩)))

/-- A drawing iteration that returns leaves the advanced state. -/
theorem drawFrame_returned (fuel : Nat) (env : FrameEnv) (w : World)
    (hacq : env.acquire_result = VK_SUCCESS ∨ env.acquire_result = VK_SUBOPTIMAL_KHR)
    (h : (drawFrame fuel env w).outcome = .returned ()) :
    drawFrame fuel env w = ⟨.returned (), advanced w, frameCalls w.app env.image_index⟩ := by
  rcases drawFrame_drawing fuel env w hacq with
    ⟨_, e⟩ | ⟨_, _, e⟩ | ⟨_, _, _, e⟩ | ⟨_, _, _, _, e⟩ | ⟨_, _, _, _, e⟩
  all_goals first | exact e | (rw [e] at h; simp at h)

theorem next_slot (c : Nat) :
    ((c + 1) % UINT32_SIZE) % MAX_FRAMES_IN_FLIGHT = (c + 1) % 2 := by
  simp only [UINT32_SIZE, MAX_FRAMES_IN_FLIGHT]
  omega

/-- Slot index after a run of drawing passes that all return. -/
theorem mainLoopPasses_slot (fuel : Nat) (envs : List FrameEnv) :
    ∀ w : World,
      (∀ env ∈ envs, env.acquire_result = VK_SUCCESS ∨ env.acquire_result = VK_SUBOPTIMAL_KHR) →
      (mainLoopPasses fuel envs w).outcome = .returned () →
      (mainLoopPasses fuel envs w).world.app.m_current_frame % 2
          = (w.app.m_current_frame + envs.length) % 2
        ∧ (envs ≠ [] → (mainLoopPasses fuel envs w).world.app.m_current_frame < 2) := by
  induction envs with
  | nil =>
    intro w _ _
    simp [mainLoopPasses]
  | cons env rest ih =>
    intro w hacq hdone
    have hacq1 := hacq env (List.mem_cons_self _ _)
    have hrest : ∀ e ∈ rest, e.acquire_result = VK_SUCCESS ∨ e.acquire_result = VK_SUBOPTIMAL_KHR :=
      fun e he => hacq e (List.mem_cons_of_mem _ he)
    rw [mainLoopPasses_cons] at hdone ⊢
    by_cases hd : (drawFrame fuel env (afterPoll env w)).outcome = .returned ()
    · have hp : (mainLoopPass fuel env w).outcome = .returned () := by
        rw [mainLoopPass_run]; exact hd
      rw [andThen_of_returned _ _ _ () hp] at hdone ⊢
      simp only at hdone ⊢
      have hw : (mainLoopPass fuel env w).world = advanced (afterPoll env w) := by
        rw [mainLoopPass_run, drawFrame_returned fuel env _ hacq1 hd]
      rw [hw] at hdone ⊢
      obtain ⟨h1, h2⟩ := ih _ hrest hdone
      have hs : (advanced (afterPoll env w)).app.m_current_frame
          = (w.app.m_current_frame + 1) % 2 := by
        simp [advanced, afterPoll, next_slot]
      rw [hs] at h1
      refine ⟨?_, fun _ => ?_⟩
      · rw [h1, List.length_cons]; omega
      · by_cases hr : rest = []
        · subst hr
          simp only [mainLoopPasses, pure_eq_ret, ret_run, hs]
          omega
        · exact h2 hr
    · exfalso
      have hn : ∀ a, (mainLoopPass fuel env w).outcome ≠ .returned a := by
        intro a h
        rw [mainLoopPass_run] at h
        exact hd h
      exact (andThen_of_not_returned _ (fun _ => mainLoopPasses fuel rest) w hn).2.2 () hdone

/-- C1 (round-robin).  Starting with `m_current_frame = 0`, after `K` passes of
the main loop that each draw a frame (the acquire reports success or suboptimal)
and return, `m_current_frame` is `K mod MAX_FRAMES_IN_FLIGHT`, for every `K`. -/
theorem round_robin (fuel : Nat) (envs : List FrameEnv) (w : World)
    (h0 : w.app.m_current_frame = 0)
    (hacq : ∀ env ∈ envs,
      env.acquire_result = VK_SUCCESS ∨ env.acquire_result = VK_SUBOPTIMAL_KHR)
    (hdone : (mainLoopPasses fuel envs w).outcome = .returned ()) :
    (mainLoopPasses fuel envs w).world.app.m_current_frame
      = envs.length % MAX_FRAMES_IN_FLIGHT := by
  obtain ⟨h1, h2⟩ := mainLoopPasses_slot fuel envs w hacq hdone
  rw [h0] at h1
  simp only [MAX_FRAMES_IN_FLIGHT]
  by_cases he : envs = []
  · subst he
    simp [mainLoopPasses, h0]
  · have := h2 he
    omega

/-- Three frames in a row from the sample state end in slot `3 mod 2`. -/
theorem round_robin_witness :
    sampleWorld.app.m_current_frame = 0
      ∧ (mainLoopPasses 0 [calmFrame, calmFrame, calmFrame] sampleWorld).outcome = .returned ()
      ∧ (mainLoopPasses 0 [calmFrame, calmFrame, calmFrame] sampleWorld).world.app.m_current_frame
          = 3 % MAX_FRAMES_IN_FLIGHT :=
  ⟨rfl, by decide,
    round_robin 0 [calmFrame, calmFrame, calmFrame] sampleWorld rfl (by decide) (by decide)⟩

/-- The calls of a drawing iteration: the acquire stage, the start of the
recording, and then as much of the rest as is reached. -/
theorem drawFrame_drawing_calls (fuel : Nat) (env : FrameEnv) (w : World)
    (hacq : env.acquire_result = VK_SUCCESS ∨ env.acquire_result = VK_SUBOPTIMAL_KHR) :
    ∃ tail, (drawFrame fuel env w).calls = acquireCalls w.app ++ beginCalls w.app ++ tail
      ∧ (tail = [] ∨ tail = recordCalls w.app env.image_index
        ∨ tail = recordCalls w.app env.image_index ++ [submitCall w.app]
        ∨ tail = recordCalls w.app env.image_index
            ++ [submitCall w.app, presentCall w.app env.image_index]) := by
  rcases drawFrame_drawing fuel env w hacq with
    ⟨_, e⟩ | ⟨_, _, e⟩ | ⟨_, _, _, e⟩ | ⟨_, _, _, _, e⟩ | ⟨_, _, _, _, e⟩
  · exact ⟨[], by rw [e]; simp, Or.inl rfl⟩
  · exact ⟨_, by rw [e], Or.inr (Or.inl rfl)⟩
  · exact ⟨_, by rw [e]; simp, Or.inr (Or.inr (Or.inl rfl))⟩
  · exact ⟨_, by rw [e]; simp [frameCalls], Or.inr (Or.inr (Or.inr rfl))⟩
  · exact ⟨_, by rw [e]; simp [frameCalls], Or.inr (Or.inr (Or.inr rfl))⟩

/-- The calls of an iteration whose acquire reports out-of-date. -/
theorem drawFrame_out_of_date_calls (fuel : Nat) (env : FrameEnv) (w : World)
    (h : env.acquire_result = VK_ERROR_OUT_OF_DATE_KHR) :
    (drawFrame fuel env w).calls
      = .vkWaitForFences (at_ w.app.m_in_flight_frame w.app.m_current_frame)
        :: .vkAcquireNextImageKHR w.app.m_swapchain
            (at_ w.app.m_image_available w.app.m_current_frame)
        :: .recreateSwapchain :: (recreateSwapchainBody fuel env.recreate w).calls := by
  rw [drawFrame_out_of_date fuel env w h]
  simp [acquireCalls, recreateSwapchain_calls]

/-- C2 (out-of-date handling).  From every state, an iteration of `drawFrame`
whose acquire reports out-of-date resets no command buffer, records nothing,
submits nothing and presents nothing; it enters `recreateSwapchain` exactly
once, right after the acquire, issues only calls of that recreation from then
on, and ends as that one recreation ends. -/
theorem out_of_date_handling (fuel : Nat) (env : FrameEnv) (w : World)
    (h : env.acquire_result = VK_ERROR_OUT_OF_DATE_KHR) :
    (∀ c ∈ (drawFrame fuel env w).calls,
        c.kind ≠ .commandReset ∧ c.kind ≠ .record ∧ c.kind ≠ .submit ∧ c.kind ≠ .present)
    ∧ (drawFrame fuel env w).calls.count .recreateSwapchain = 1
    ∧ (∃ rest, (drawFrame fuel env w).calls
          = .vkWaitForFences (at_ w.app.m_in_flight_frame w.app.m_current_frame)
            :: .vkAcquireNextImageKHR w.app.m_swapchain
                (at_ w.app.m_image_available w.app.m_current_frame)
            :: .recreateSwapchain :: rest
        ∧ ∀ c ∈ rest, c.isRecreation = true)
    ∧ (drawFrame fuel env w).outcome = (recreateSwapchain fuel env.recreate w).outcome
    ∧ (drawFrame fuel env w).world = (recreateSwapchain fuel env.recreate w).world := by
  have hbody := emits_recreateSwapchainBody fuel env.recreate w
  have hcalls := drawFrame_out_of_date_calls fuel env w h
  refine ⟨?_, ?_, ⟨_, hcalls, hbody⟩, ?_, ?_⟩
  · intro c hc
    rw [hcalls] at hc
    simp only [List.mem_cons] at hc
    rcases hc with rfl | rfl | rfl | hc
    · simp [Call.kind]
    · simp [Call.kind]
    · simp [Call.kind]
    · have hr := hbody c hc
      simp only [Call.isRecreation] at hr
      refine ⟨?_, ?_, ?_, ?_⟩ <;> intro hk <;> rw [hk] at hr <;> simp at hr
  · rw [hcalls]
    have hnot : Call.recreateSwapchain ∉ (recreateSwapchainBody fuel env.recreate w).calls := by
      intro hm
      have hr := hbody _ hm
      simp [Call.isRecreation, Call.kind] at hr
    simp [List.count_cons, List.count_eq_zero.mpr hnot]
  · rw [drawFrame_out_of_date fuel env w h]
  · rw [drawFrame_out_of_date fuel env w h]

/-- On the sample state, with a platform on which the recreation succeeds, the
abandoned iteration returns after one recreation. -/
theorem out_of_date_handling_witness :
    staleFrame.acquire_result = VK_ERROR_OUT_OF_DATE_KHR
      ∧ (drawFrame 0 staleFrame sampleWorld).outcome = .returned ()
      ∧ (drawFrame 0 staleFrame sampleWorld).calls.count .recreateSwapchain = 1 :=
  ⟨rfl, by decide!, (out_of_date_handling 0 staleFrame sampleWorld rfl).2.1⟩

theorem kind_of_drawing_tail (a : App) (i : Nat) (tail : List Call)
    (ht : tail = [] ∨ tail = recordCalls a i ∨ tail = recordCalls a i ++ [submitCall a]
        ∨ tail = recordCalls a i ++ [submitCall a, presentCall a i]) :
    ∀ c ∈ tail, c.kind = .record ∨ c = submitCall a ∨ c = presentCall a i := by
  intro c hc
  have hrec : ∀ x ∈ recordCalls a i, x.kind = .record := by
    intro x hx
    simp only [recordCalls, List.mem_cons, List.mem_singleton, List.not_mem_nil, or_false] at hx
    rcases hx with rfl | rfl | rfl | rfl | rfl | rfl | rfl | rfl <;> rfl
  rcases ht with rfl | rfl | rfl | rfl
  · simp at hc
  · exact Or.inl (hrec c hc)
  · simp only [List.mem_append, List.mem_singleton] at hc
    rcases hc with hc | hc
    · exact Or.inl (hrec c hc)
    · exact Or.inr (Or.inl hc)
  · simp only [List.mem_append, List.mem_cons, List.mem_singleton, List.not_mem_nil,
      or_false] at hc
    rcases hc with hc | hc | hc
    · exact Or.inl (hrec c hc)
    · exact Or.inr (Or.inl hc)
    · exact Or.inr (Or.inr hc)

/-- C4 (fence reset placement).  An iteration of `drawFrame` whose acquire
reports anything but success or suboptimal resets no fence.  In a drawing
iteration the calls are the fence wait, the acquire, the reset of the slot's
fence, and after these only command buffer resets, recording, submission and
present: the single fence reset comes after the acquire and before them. -/
theorem fence_reset_placement (fuel : Nat) (env : FrameEnv) (w : World) :
    (¬ (env.acquire_result = VK_SUCCESS ∨ env.acquire_result = VK_SUBOPTIMAL_KHR) →
      ∀ c ∈ (drawFrame fuel env w).calls, c.kind ≠ .fenceReset)
    ∧ ((env.acquire_result = VK_SUCCESS ∨ env.acquire_result = VK_SUBOPTIMAL_KHR) →
      ∃ rest, (drawFrame fuel env w).calls
          = .vkWaitForFences (at_ w.app.m_in_flight_frame w.app.m_current_frame)
            :: .vkAcquireNextImageKHR w.app.m_swapchain
                (at_ w.app.m_image_available w.app.m_current_frame)
            :: .vkResetFences (at_ w.app.m_in_flight_frame w.app.m_current_frame)
            :: rest
        ∧ ∀ c ∈ rest, c.kind = .commandReset ∨ c.kind = .record ∨ c.kind = .submit
            ∨ c.kind = .present) := by
  constructor
  · intro hacq
    simp only [not_or] at hacq
    by_cases hood : env.acquire_result = VK_ERROR_OUT_OF_DATE_KHR
    · intro c hc
      rw [drawFrame_out_of_date_calls fuel env w hood] at hc
      simp only [List.mem_cons] at hc
      rcases hc with rfl | rfl | rfl | hc
      · simp [Call.kind]
      · simp [Call.kind]
      · simp [Call.kind]
      · have hr := emits_recreateSwapchainBody fuel env.recreate w c hc
        intro hk
        simp [Call.isRecreation, hk] at hr
    · intro c hc
      rw [drawFrame_acquire_error fuel env w hood hacq.1 hacq.2] at hc
      simp only [acquireCalls, List.mem_cons, List.mem_singleton, List.not_mem_nil,
        or_false] at hc
      rcases hc with rfl | rfl <;> simp [Call.kind]
  · intro hacq
    obtain ⟨tail, hcalls, ht⟩ := drawFrame_drawing_calls fuel env w hacq
    refine ⟨.vkResetCommandBuffer (at_ w.app.m_command_buffers w.app.m_current_frame)
      :: .vkBeginCommandBuffer (at_ w.app.m_command_buffers w.app.m_current_frame) :: tail,
      ?_, ?_⟩
    · rw [hcalls]; simp [acquireCalls, beginCalls]
    · intro c hc
      simp only [List.mem_cons] at hc
      rcases hc with rfl | rfl | hc
      · exact Or.inl rfl
      · exact Or.inr (Or.inl rfl)
      · rcases kind_of_drawing_tail w.app env.image_index tail ht c hc with hk | rfl | rfl
        · exact Or.inr (Or.inl hk)
        · exact Or.inr (Or.inr (Or.inl rfl))
        · exact Or.inr (Or.inr (Or.inr rfl))

/-- On the sample state a frame resets fence 22 right after the acquire. -/
theorem fence_reset_placement_witness :
    (calmFrame.acquire_result = VK_SUCCESS ∨ calmFrame.acquire_result = VK_SUBOPTIMAL_KHR)
      ∧ ∃ rest, (drawFrame 0 calmFrame sampleWorld).calls
          = .vkWaitForFences 22 :: .vkAcquireNextImageKHR 3 18 :: .vkResetFences 22 :: rest
        ∧ ∀ c ∈ rest, c.kind = .commandReset ∨ c.kind = .record ∨ c.kind = .submit
            ∨ c.kind = .present :=
  ⟨Or.inl rfl, (fence_reset_placement 0 calmFrame sampleWorld).2 (Or.inl rfl)⟩

/-- C5 (protocol order).  In an iteration of `drawFrame` whose acquire reports
success or suboptimal (both are handled alike), whose recording calls succeed
and whose submit succeeds, the calls issued are, in this order and each once:
the wait on the slot's fence, the acquire, the fence reset, the command buffer
reset, the recording, the submit on the graphics queue and the present on the
present queue. -/
theorem protocol_order (fuel : Nat) (env : FrameEnv) (w : World)
    (hacq : env.acquire_result = VK_SUCCESS ∨ env.acquire_result = VK_SUBOPTIMAL_KHR)
    (hbegin : env.begin_result = VK_SUCCESS) (hend : env.end_result = VK_SUCCESS)
    (hsubmit : env.submit_result = VK_SUCCESS) :
    (drawFrame fuel env w).calls =
      [ .vkWaitForFences (at_ w.app.m_in_flight_frame w.app.m_current_frame),
        .vkAcquireNextImageKHR w.app.m_swapchain
          (at_ w.app.m_image_available w.app.m_current_frame),
        .vkResetFences (at_ w.app.m_in_flight_frame w.app.m_current_frame),
        .vkResetCommandBuffer (at_ w.app.m_command_buffers w.app.m_current_frame),
        .vkBeginCommandBuffer (at_ w.app.m_command_buffers w.app.m_current_frame),
        .vkCmdBeginRenderPass (at_ w.app.m_command_buffers w.app.m_current_frame)
          w.app.m_render_pass (at_ w.app.m_swapchain_framebuffers env.image_index)
          w.app.m_swapchain_params.extent,
        .vkCmdBindPipeline (at_ w.app.m_command_buffers w.app.m_current_frame)
          w.app.m_graphics_pipeline,
        .vkCmdBindVertexBuffers (at_ w.app.m_command_buffers w.app.m_current_frame)
          w.app.m_vertex_buffer,
        .vkCmdSetViewport (at_ w.app.m_command_buffers w.app.m_current_frame)
          w.app.m_swapchain_params.extent,
        .vkCmdSetScissor (at_ w.app.m_command_buffers w.app.m_current_frame)
          w.app.m_swapchain_params.extent,
        .vkCmdDraw (at_ w.app.m_command_buffers w.app.m_current_frame) g_vertices_size 1,
        .vkCmdEndRenderPass (at_ w.app.m_command_buffers w.app.m_current_frame),
        .vkEndCommandBuffer (at_ w.app.m_command_buffers w.app.m_current_frame),
        .vkQueueSubmit w.app.m_graphics_queue
          [at_ w.app.m_image_available w.app.m_current_frame]
          [VK_PIPELINE_STAGE_COLOR_ATTACHMENT_OUTPUT_BIT]
          [at_ w.app.m_command_buffers w.app.m_current_frame]
          [at_ w.app.m_render_finished w.app.m_current_frame]
          (at_ w.app.m_in_flight_frame w.app.m_current_frame),
        .vkQueuePresentKHR w.app.m_present_queue
          [at_ w.app.m_render_finished w.app.m_current_frame] [w.app.m_swapchain]
          [env.image_index] ] := by
  rcases drawFrame_drawing fuel env w hacq with
    ⟨hb, _⟩ | ⟨_, he, _⟩ | ⟨_, _, hs, _⟩ | ⟨_, _, _, _, e⟩ | ⟨_, _, _, _, e⟩
  · exact absurd hbegin hb
  · exact absurd hend he
  · exact absurd hsubmit hs
  · rw [e]; rfl
  · rw [e]; rfl

/-- A frame on a suboptimal swapchain issues the same fifteen calls as one on
an optimal swapchain. -/
theorem protocol_order_witness :
    (suboptimalAcquireFrame.acquire_result = VK_SUCCESS
        ∨ suboptimalAcquireFrame.acquire_result = VK_SUBOPTIMAL_KHR)
      ∧ (drawFrame 0 suboptimalAcquireFrame sampleWorld).calls =
        [ .vkWaitForFences 22, .vkAcquireNextImageKHR 3 18, .vkResetFences 22,
          .vkResetCommandBuffer 16, .vkBeginCommandBuffer 16,
          .vkCmdBeginRenderPass 16 14 11 ⟨800, 600⟩, .vkCmdBindPipeline 16 15,
          .vkCmdBindVertexBuffers 16 24, .vkCmdSetViewport 16 ⟨800, 600⟩,
          .vkCmdSetScissor 16 ⟨800, 600⟩, .vkCmdDraw 16 3 1, .vkCmdEndRenderPass 16,
          .vkEndCommandBuffer 16, .vkQueueSubmit 1 [18] [1024] [16] [20] 22,
          .vkQueuePresentKHR 2 [20] [3] [1] ] :=
  ⟨Or.inr rfl, protocol_order 0 suboptimalAcquireFrame sampleWorld (Or.inr rfl) rfl rfl rfl⟩

/-- C6 (slot-consistent synchronisation).  In a drawing iteration with current
slot `s` and acquired image index `i`: every acquire uses the current swapchain
and `m_image_available[s]`; every submission goes to the graphics queue with
command buffer `s`, waits on exactly `m_image_available[s]` at the
colour-attachment-output stage, signals exactly `m_render_finished[s]` and arms
`m_in_flight_frame[s]`; every present goes to the present queue, waits on
exactly `m_render_finished[s]` and presents image `i` of the current swapchain.
The acquire is always issued, the submission once the recording has succeeded,
and the present once the submission has succeeded. -/
theorem slot_consistent_synchronisation (fuel : Nat) (env : FrameEnv) (w : World)
    (hacq : env.acquire_result = VK_SUCCESS ∨ env.acquire_result = VK_SUBOPTIMAL_KHR) :
    (∀ c ∈ (drawFrame fuel env w).calls,
        (c.kind = .acquire → c = .vkAcquireNextImageKHR w.app.m_swapchain
            (at_ w.app.m_image_available w.app.m_current_frame))
        ∧ (c.kind = .submit → c = .vkQueueSubmit w.app.m_graphics_queue
            [at_ w.app.m_image_available w.app.m_current_frame]
            [VK_PIPELINE_STAGE_COLOR_ATTACHMENT_OUTPUT_BIT]
            [at_ w.app.m_command_buffers w.app.m_current_frame]
            [at_ w.app.m_render_finished w.app.m_current_frame]
            (at_ w.app.m_in_flight_frame w.app.m_current_frame))
        ∧ (c.kind = .present → c = .vkQueuePresentKHR w.app.m_present_queue
            [at_ w.app.m_render_finished w.app.m_current_frame] [w.app.m_swapchain]
            [env.image_index]))
    ∧ (∃ c ∈ (drawFrame fuel env w).calls, c.kind = .acquire)
    ∧ (env.begin_result = VK_SUCCESS → env.end_result = VK_SUCCESS →
        ∃ c ∈ (drawFrame fuel env w).calls, c.kind = .submit)
    ∧ (env.begin_result = VK_SUCCESS → env.end_result = VK_SUCCESS →
        env.submit_result = VK_SUCCESS →
        ∃ c ∈ (drawFrame fuel env w).calls, c.kind = .present) := by
  obtain ⟨tail, hcalls, ht⟩ := drawFrame_drawing_calls fuel env w hacq
  refine ⟨?_, ?_, ?_, ?_⟩
  · intro c hc
    rw [hcalls] at hc
    simp only [List.mem_append] at hc
    rcases hc with (hc | hc) | hc
    · simp only [acquireCalls, List.mem_cons, List.mem_singleton, List.not_mem_nil,
        or_false] at hc
      rcases hc with rfl | rfl <;> simp [Call.kind]
    · simp only [beginCalls, List.mem_cons, List.mem_singleton, List.not_mem_nil,
        or_false] at hc
      rcases hc with rfl | rfl | rfl <;> simp [Call.kind]
    · rcases kind_of_drawing_tail w.app env.image_index tail ht c hc with hk | rfl | rfl
      · simp [hk]
      · simp [submitCall, Call.kind]
      · simp [presentCall, Call.kind]
  · exact ⟨.vkAcquireNextImageKHR w.app.m_swapchain
      (at_ w.app.m_image_available w.app.m_current_frame),
      by rw [hcalls]; simp [acquireCalls], rfl⟩
  · intro hb he
    rcases drawFrame_drawing fuel env w hacq with
      ⟨hb1, _⟩ | ⟨_, he1, _⟩ | ⟨_, _, _, e⟩ | ⟨_, _, _, _, e⟩ | ⟨_, _, _, _, e⟩
    · exact absurd hb hb1
    · exact absurd he he1
    · exact ⟨submitCall w.app, by rw [e]; simp, rfl⟩
    · exact ⟨submitCall w.app, by rw [e]; simp [frameCalls], rfl⟩
    · exact ⟨submitCall w.app, by rw [e]; simp [frameCalls], rfl⟩
  · intro hb he hs
    rcases drawFrame_drawing fuel env w hacq with
      ⟨hb1, _⟩ | ⟨_, he1, _⟩ | ⟨_, _, hs1, _⟩ | ⟨_, _, _, _, e⟩ | ⟨_, _, _, _, e⟩
    · exact absurd hb hb1
    · exact absurd he he1
    · exact absurd hs hs1
    · exact ⟨presentCall w.app env.image_index, by rw [e]; simp [frameCalls], rfl⟩
    · exact ⟨presentCall w.app env.image_index, by rw [e]; simp [frameCalls], rfl⟩

/-- On the sample state (slot 0, image 1) the submission of the frame is the
one of slot 0. -/
theorem slot_consistent_synchronisation_witness :
    (calmFrame.acquire_result = VK_SUCCESS ∨ calmFrame.acquire_result = VK_SUBOPTIMAL_KHR)
      ∧ Call.vkQueueSubmit 1 [18] [1024] [16] [20] 22 ∈ (drawFrame 0 calmFrame sampleWorld).calls
      ∧ (Call.vkQueueSubmit 1 [18] [1024] [16] [20] 22).kind = .submit
      ∧ Call.vkQueueSubmit 1 [18] [1024] [16] [20] 22
          = .vkQueueSubmit sampleWorld.app.m_graphics_queue
            [at_ sampleWorld.app.m_image_available sampleWorld.app.m_current_frame]
            [VK_PIPELINE_STAGE_COLOR_ATTACHMENT_OUTPUT_BIT]
            [at_ sampleWorld.app.m_command_buffers sampleWorld.app.m_current_frame]
            [at_ sampleWorld.app.m_render_finished sampleWorld.app.m_current_frame]
            (at_ sampleWorld.app.m_in_flight_frame sampleWorld.app.m_current_frame) :=
  ⟨Or.inl rfl, by decide, rfl,
    ((slot_consistent_synchronisation 0 calmFrame sampleWorld (Or.inl rfl)).1
      (.vkQueueSubmit 1 [18] [1024] [16] [20] 22) (by decide)).2.1 rfl⟩

theorem recordCalls_kind (a : App) (i : Nat) : ∀ x ∈ recordCalls a i, x.kind = .record := by
  simp [recordCalls, Call.kind]

theorem no_present_before (a : App) (i : Nat) :
    ∀ c ∈ acquireCalls a ++ beginCalls a ++ recordCalls a i ++ [submitCall a],
      c.kind ≠ .present := by
  simp [acquireCalls, beginCalls, recordCalls, submitCall, Call.kind]

theorem no_present_without_acquire (fuel : Nat) (env : FrameEnv) (w : World)
    (hacq : ¬ (env.acquire_result = VK_SUCCESS ∨ env.acquire_result = VK_SUBOPTIMAL_KHR)) :
    ∀ c ∈ (drawFrame fuel env w).calls, c.kind ≠ .present := by
  simp only [not_or] at hacq
  by_cases hood : env.acquire_result = VK_ERROR_OUT_OF_DATE_KHR
  · intro c hc
    rw [drawFrame_out_of_date_calls fuel env w hood] at hc
    simp only [List.mem_cons] at hc
    rcases hc with rfl | rfl | rfl | hc
    · simp [Call.kind]
    · simp [Call.kind]
    · simp [Call.kind]
    · have hr := emits_recreateSwapchainBody fuel env.recreate w c hc
      intro hk
      simp [Call.isRecreation, hk] at hr
  · intro c hc
    rw [drawFrame_acquire_error fuel env w hood hacq.1 hacq.2] at hc
    simp only [acquireCalls, List.mem_cons, List.mem_singleton, List.not_mem_nil,
      or_false] at hc
    rcases hc with rfl | rfl <;> simp [Call.kind]

/-- An iteration issues a present only if the acquire, the recording and the
submission have succeeded; its calls are then those of a whole frame. -/
theorem reaches_present (fuel : Nat) (env : FrameEnv) (w : World)
    (h : ∃ c ∈ (drawFrame fuel env w).calls, c.kind = .present) :
    (env.acquire_result = VK_SUCCESS ∨ env.acquire_result = VK_SUBOPTIMAL_KHR)
      ∧ env.begin_result = VK_SUCCESS ∧ env.end_result = VK_SUCCESS
      ∧ env.submit_result = VK_SUCCESS
      ∧ (drawFrame fuel env w).calls = frameCalls w.app env.image_index := by
  obtain ⟨c, hc, hk⟩ := h
  by_cases hacq : env.acquire_result = VK_SUCCESS ∨ env.acquire_result = VK_SUBOPTIMAL_KHR
  · have hno := no_present_before w.app env.image_index
    rcases drawFrame_drawing fuel env w hacq with
      ⟨_, e⟩ | ⟨_, _, e⟩ | ⟨_, _, _, e⟩ | ⟨hb, he, hs, _, e⟩ | ⟨hb, he, hs, _, e⟩
    · exfalso
      rw [e] at hc
      exact hno c (by simp only [List.mem_append] at hc ⊢; tauto) hk
    · exfalso
      rw [e] at hc
      exact hno c (by simp only [List.mem_append] at hc ⊢; tauto) hk
    · exfalso
      rw [e] at hc
      exact hno c hc hk
    · exact ⟨hacq, hb, he, hs, by rw [e]⟩
    · exact ⟨hacq, hb, he, hs, by rw [e]⟩
  · exact absurd hk (no_present_without_acquire fuel env w hacq c hc)

/-- With the resize flag set, a present that reports the loss of the device
does not make `drawFrame` raise: the iteration returns. -/
theorem present_error_not_raised :
    (∃ c ∈ (drawFrame 0 lostPresentFrame resizedWorld).calls, c.kind = .present)
      ∧ lostPresentFrame.present_result ≠ VK_SUCCESS
      ∧ lostPresentFrame.present_result ≠ VK_ERROR_OUT_OF_DATE_KHR
      ∧ lostPresentFrame.present_result ≠ VK_SUBOPTIMAL_KHR
      ∧ (drawFrame 0 lostPresentFrame resizedWorld).outcome = .returned () := by
  decide!

/-- C7, as amended (present-time fatal errors).  An iteration of `drawFrame`
that reaches the present step raises "failed to present swap chain image!" if
and only if `m_framebuffer_resized` is not set and the present result is none
of success, out-of-date and suboptimal; it then leaves the state as it was. -/
theorem present_fatal_errors (fuel : Nat) (env : FrameEnv) (w : World)
    (hreach : ∃ c ∈ (drawFrame fuel env w).calls, c.kind = .present) :
    ((drawFrame fuel env w).outcome = .raised "failed to present swap chain image!"
        ↔ (w.app.m_framebuffer_resized = false ∧ env.present_result ≠ VK_SUCCESS
            ∧ env.present_result ≠ VK_ERROR_OUT_OF_DATE_KHR
            ∧ env.present_result ≠ VK_SUBOPTIMAL_KHR))
    ∧ ((drawFrame fuel env w).outcome = .raised "failed to present swap chain image!"
        → (drawFrame fuel env w).world = w) := by
  obtain ⟨hacq, hb, he, hs, _⟩ := reaches_present fuel env w hreach
  rcases drawFrame_drawing fuel env w hacq with
    ⟨hb1, _⟩ | ⟨_, he1, _⟩ | ⟨_, _, hs1, _⟩ | ⟨_, _, _, hp, e⟩ | ⟨_, _, _, hp, e⟩
  · exact absurd hb hb1
  · exact absurd he he1
  · exact absurd hs hs1
  · rw [e]
    exact ⟨⟨fun _ => ⟨hp.2.2.1, hp.2.2.2, hp.1, hp.2.1⟩, fun _ => rfl⟩, fun _ => rfl⟩
  · rw [e]
    refine ⟨⟨fun h => by simp at h, fun h => ?_⟩, fun h => by simp at h⟩
    exfalso
    obtain ⟨h1, h2, h3, h4⟩ := h
    rcases hp with hp | hp | hp | hp
    · exact h3 hp
    · exact h4 hp
    · rw [h1] at hp; simp at hp
    · exact h2 hp

/-- Without the resize flag, a present that reports the loss of the device is
fatal. -/
theorem present_fatal_errors_witness :
    (∃ c ∈ (drawFrame 0 lostPresentFrame sampleWorld).calls, c.kind = .present)
      ∧ (drawFrame 0 lostPresentFrame sampleWorld).outcome
          = .raised "failed to present swap chain image!" :=
  ⟨by decide!, ((present_fatal_errors 0 lostPresentFrame sampleWorld (by decide!)).1).mpr
    ⟨rfl, by decide, by decide, by decide⟩⟩

/-- An iteration enters `recreateSwapchain` exactly when its acquire reports
out-of-date. -/
theorem recreates_iff (fuel : Nat) (env : FrameEnv) (w : World) :
    Call.recreateSwapchain ∈ (drawFrame fuel env w).calls
      ↔ env.acquire_result = VK_ERROR_OUT_OF_DATE_KHR := by
  constructor
  · intro hm
    by_contra hood
    by_cases hacq : env.acquire_result = VK_SUCCESS ∨ env.acquire_result = VK_SUBOPTIMAL_KHR
    · obtain ⟨tail, hcalls, ht⟩ := drawFrame_drawing_calls fuel env w hacq
      rw [hcalls] at hm
      simp only [List.mem_append] at hm
      rcases hm with (hm | hm) | hm
      · simp [acquireCalls] at hm
      · simp [beginCalls] at hm
      · rcases kind_of_drawing_tail w.app env.image_index tail ht _ hm with hk | hk | hk
        · simp [Call.kind] at hk
        · simp [submitCall] at hk
        · simp [presentCall] at hk
    · simp only [not_or] at hacq
      rw [drawFrame_acquire_error fuel env w hood hacq.1 hacq.2] at hm
      simp [acquireCalls] at hm
  · intro hood
    rw [drawFrame_out_of_date_calls fuel env w hood]
    simp

/-- The calls of a whole frame are no calls of a recreation. -/
theorem frameCalls_not_recreation (a : App) (i : Nat) :
    ∀ c ∈ frameCalls a i, c.isRecreation = false ∧ c ≠ .recreateSwapchain := by
  simp [frameCalls, acquireCalls, beginCalls, recordCalls, submitCall, presentCall,
    Call.isRecreation, Call.kind]

/-- After a present that reports a suboptimal swapchain, the next iteration
(whose acquire succeeds) performs no recreation: nothing was marked. -/
theorem no_recreation_after_suboptimal_present :
    suboptimalPresentFrame.present_result = VK_SUBOPTIMAL_KHR
      ∧ (∃ c ∈ (drawFrame 0 suboptimalPresentFrame sampleWorld).calls, c.kind = .present)
      ∧ (drawFrame 0 suboptimalPresentFrame sampleWorld).outcome = .returned ()
      ∧ (mainLoopPass 0 calmFrame (drawFrame 0 suboptimalPresentFrame sampleWorld).world).outcome
          = .returned ()
      ∧ Call.recreateSwapchain ∉
          (mainLoopPass 0 calmFrame (drawFrame 0 suboptimalPresentFrame sampleWorld).world).calls
      ∧ ∀ c ∈ (mainLoopPass 0 calmFrame
            (drawFrame 0 suboptimalPresentFrame sampleWorld).world).calls,
          c.kind ≠ .destroy ∧ c.kind ≠ .create := by
  decide!

/-- C8, as amended (no deferred recreation).  If in an iteration of `drawFrame`
that reaches the present step the present reports out-of-date or suboptimal,
or the resize flag is set, then no recreation is performed in that iteration
and nothing is marked: the iteration returns having only cleared the resize
flag and advanced the slot index.  The next pass of the main loop performs a
recreation if and only if its own acquire reports out-of-date. -/
theorem present_defers_nothing (fuel : Nat) (env : FrameEnv) (w : World)
    (hreach : ∃ c ∈ (drawFrame fuel env w).calls, c.kind = .present)
    (hp : env.present_result = VK_ERROR_OUT_OF_DATE_KHR ∨ env.present_result = VK_SUBOPTIMAL_KHR
      ∨ w.app.m_framebuffer_resized = true) :
    (∀ c ∈ (drawFrame fuel env w).calls, c.isRecreation = false ∧ c ≠ .recreateSwapchain)
    ∧ (drawFrame fuel env w).outcome = .returned ()
    ∧ (drawFrame fuel env w).world = { w with app := { w.app with
          m_framebuffer_resized := false
          m_current_frame := ((w.app.m_current_frame + 1) % UINT32_SIZE) % MAX_FRAMES_IN_FLIGHT } }
    ∧ ∀ (fuel1 : Nat) (env1 : FrameEnv),
        Call.recreateSwapchain ∈ (mainLoopPass fuel1 env1 (drawFrame fuel env w).world).calls
          ↔ env1.acquire_result = VK_ERROR_OUT_OF_DATE_KHR := by
  obtain ⟨hacq, hb, he, hs, hcalls⟩ := reaches_present fuel env w hreach
  have e := drawFrame_present_deferred fuel env w hacq hb he hs hp
  refine ⟨?_, by rw [e], by rw [e], ?_⟩
  · rw [hcalls]
    exact frameCalls_not_recreation w.app env.image_index
  · intro fuel1 env1
    rw [mainLoopPass_run]
    simp only [List.mem_cons, reduceCtorEq, false_or]
    exact recreates_iff fuel1 env1 _

/-- After a suboptimal present on the sample state the flag is clear and the
slot index is 1; a following pass recreates only on an out-of-date acquire. -/
theorem present_defers_nothing_witness :
    (∃ c ∈ (drawFrame 0 suboptimalPresentFrame sampleWorld).calls, c.kind = .present)
      ∧ suboptimalPresentFrame.present_result = VK_SUBOPTIMAL_KHR
      ∧ (drawFrame 0 suboptimalPresentFrame sampleWorld).outcome = .returned () :=
  ⟨by decide!, rfl,
    (present_defers_nothing 0 suboptimalPresentFrame sampleWorld (by decide!)
      (Or.inr (Or.inl rfl))).2.1⟩

/-- C9 (resize flag consumption).  An iteration of `drawFrame` that reaches the
present step with the present reporting out-of-date or suboptimal, or with
`m_framebuffer_resized` set, does not raise: it returns with
`m_framebuffer_resized` false and the slot index advanced.  Hence after every
drawing iteration that returns, `m_framebuffer_resized` is false. -/
theorem resize_flag_consumption (fuel : Nat) (env : FrameEnv) (w : World) :
    ((∃ c ∈ (drawFrame fuel env w).calls, c.kind = .present) →
      (env.present_result = VK_ERROR_OUT_OF_DATE_KHR ∨ env.present_result = VK_SUBOPTIMAL_KHR
        ∨ w.app.m_framebuffer_resized = true) →
      (drawFrame fuel env w).outcome = .returned ()
        ∧ (drawFrame fuel env w).world.app.m_framebuffer_resized = false
        ∧ (drawFrame fuel env w).world.app.m_current_frame
            = ((w.app.m_current_frame + 1) % UINT32_SIZE) % MAX_FRAMES_IN_FLIGHT)
    ∧ ((env.acquire_result = VK_SUCCESS ∨ env.acquire_result = VK_SUBOPTIMAL_KHR) →
      (drawFrame fuel env w).outcome = .returned () →
      (drawFrame fuel env w).world.app.m_framebuffer_resized = false) := by
  constructor
  · intro hreach hp
    obtain ⟨hacq, hb, he, hs, _⟩ := reaches_present fuel env w hreach
    rw [drawFrame_present_deferred fuel env w hacq hb he hs hp]
    exact ⟨rfl, rfl, rfl⟩
  · intro hacq hret
    rw [drawFrame_returned fuel env w hacq hret]
    rfl

/-- With the flag set and a suboptimal present, the frame returns with the flag
clear and the slot index advanced from 0 to 1. -/
theorem resize_flag_consumption_witness :
    (∃ c ∈ (drawFrame 0 suboptimalPresentFrame resizedWorld).calls, c.kind = .present)
      ∧ resizedWorld.app.m_framebuffer_resized = true
      ∧ (drawFrame 0 suboptimalPresentFrame resizedWorld).outcome = .returned ()
      ∧ (drawFrame 0 suboptimalPresentFrame resizedWorld).world.app.m_framebuffer_resized = false
      ∧ (drawFrame 0 suboptimalPresentFrame resizedWorld).world.app.m_current_frame = 1 :=
  ⟨by decide!, rfl,
    (resize_flag_consumption 0 suboptimalPresentFrame resizedWorld).1 (by decide!)
      (Or.inr (Or.inl rfl))⟩

/-- C10 (acquire-time fatal errors).  An iteration of `drawFrame` raises at the
acquire step (an exception is thrown when only the fence wait and the acquire
have been issued) if and only if the acquire result is none of success,
suboptimal and out-of-date.  It then raises "failed to acquire swap chain
image!", no fence reset, recording, submission or present has been issued, and
the state, with it the slot index, is unchanged. -/
theorem acquire_fatal_errors (fuel : Nat) (env : FrameEnv) (w : World) :
    ((∃ what, (drawFrame fuel env w).outcome = .raised what
          ∧ (drawFrame fuel env w).calls
            = [ .vkWaitForFences (at_ w.app.m_in_flight_frame w.app.m_current_frame),
                .vkAcquireNextImageKHR w.app.m_swapchain
                  (at_ w.app.m_image_available w.app.m_current_frame) ])
        ↔ (env.acquire_result ≠ VK_SUCCESS ∧ env.acquire_result ≠ VK_SUBOPTIMAL_KHR
            ∧ env.acquire_result ≠ VK_ERROR_OUT_OF_DATE_KHR))
    ∧ ((env.acquire_result ≠ VK_SUCCESS ∧ env.acquire_result ≠ VK_SUBOPTIMAL_KHR
          ∧ env.acquire_result ≠ VK_ERROR_OUT_OF_DATE_KHR) →
        (drawFrame fuel env w).outcome = .raised "failed to acquire swap chain image!"
          ∧ (∀ c ∈ (drawFrame fuel env w).calls, c.kind ≠ .fenceReset
              ∧ c.kind ≠ .commandReset ∧ c.kind ≠ .record ∧ c.kind ≠ .submit
              ∧ c.kind ≠ .present)
          ∧ (drawFrame fuel env w).world = w
          ∧ (drawFrame fuel env w).world.app.m_current_frame = w.app.m_current_frame) := by
  constructor
  · constructor
    · rintro ⟨what, _, hcalls⟩
      by_cases hood : env.acquire_result = VK_ERROR_OUT_OF_DATE_KHR
      · rw [drawFrame_out_of_date_calls fuel env w hood] at hcalls
        simp at hcalls
      · by_cases hacq : env.acquire_result = VK_SUCCESS
            ∨ env.acquire_result = VK_SUBOPTIMAL_KHR
        · obtain ⟨tail, htail, _⟩ := drawFrame_drawing_calls fuel env w hacq
          rw [htail] at hcalls
          simp [acquireCalls, beginCalls] at hcalls
        · simp only [not_or] at hacq
          exact ⟨hacq.1, hacq.2, hood⟩
    · rintro ⟨h1, h2, h3⟩
      rw [drawFrame_acquire_error fuel env w h3 h1 h2]
      exact ⟨_, rfl, rfl⟩
  · rintro ⟨h1, h2, h3⟩
    rw [drawFrame_acquire_error fuel env w h3 h1 h2]
    refine ⟨rfl, ?_, rfl, rfl⟩
    simp [acquireCalls, Call.kind]

/-- An acquire that reports the loss of the device is fatal at once. -/
theorem acquire_fatal_errors_witness :
    (lostAcquireFrame.acquire_result ≠ VK_SUCCESS
        ∧ lostAcquireFrame.acquire_result ≠ VK_SUBOPTIMAL_KHR
        ∧ lostAcquireFrame.acquire_result ≠ VK_ERROR_OUT_OF_DATE_KHR)
      ∧ (drawFrame 0 lostAcquireFrame sampleWorld).outcome
          = .raised "failed to acquire swap chain image!" :=
  ⟨by decide, ((acquire_fatal_errors 0 lostAcquireFrame sampleWorld).2 (by decide)).1⟩

/-- The calls of a run of passes are those of its passes, one after the other. -/
theorem mainLoopPasses_calls (fuel : Nat) (envs : List FrameEnv) :
    ∀ w : World,
      (mainLoopPasses fuel envs w).calls = ((passes fuel envs w).map Prod.snd).flatten := by
  induction envs with
  | nil => intro w; simp [mainLoopPasses, passes]
  | cons env rest ih =>
    intro w
    rw [mainLoopPasses_cons]
    simp only [passes, List.map_cons, List.flatten_cons]
    cases h : (mainLoopPass fuel env w).outcome with
    | returned u =>
      rw [andThen_of_returned _ _ _ u h]
      simp only [ih]
    | raised e =>
      have hn : ∀ a, (mainLoopPass fuel env w).outcome ≠ .returned a := by
        intro a ha; rw [h] at ha; simp at ha
      rw [(andThen_of_not_returned _ (fun _ => mainLoopPasses fuel rest) w hn).1]
      simp
    | blocked =>
      have hn : ∀ a, (mainLoopPass fuel env w).outcome ≠ .returned a := by
        intro a ha; rw [h] at ha; simp at ha
      rw [(andThen_of_not_returned _ (fun _ => mainLoopPasses fuel rest) w hn).1]
      simp

/-- Every pass recorded by `passes` is one pass of the loop from its state. -/
theorem passes_mem (fuel : Nat) (envs : List FrameEnv) :
    ∀ (w : World) (p : World × List Call), p ∈ passes fuel envs w →
      ∃ env ∈ envs, p.2 = (mainLoopPass fuel env p.1).calls := by
  induction envs with
  | nil => intro w p hp; simp [passes] at hp
  | cons env rest ih =>
    intro w p hp
    simp only [passes, List.mem_cons] at hp
    rcases hp with rfl | hp
    · exact ⟨env, List.mem_cons_self _ _, rfl⟩
    · cases h : (mainLoopPass fuel env w).outcome with
      | returned u =>
        rw [h] at hp
        obtain ⟨e, he, hpe⟩ := ih _ p hp
        exact ⟨e, List.mem_cons_of_mem _ he, hpe⟩
      | raised e => rw [h] at hp; simp at hp
      | blocked => rw [h] at hp; simp at hp

/-- A split of `A ++ B` at an element with a property that nothing in `A` has
falls in `B`. -/
theorem split_after {P : Call → Prop} {A B pre post : List Call} {c : Call}
    (hA : ∀ x ∈ A, ¬ P x) (h : A ++ B = pre ++ c :: post) (hc : P c) :
    ∃ pre1, pre = A ++ pre1 ∧ B = pre1 ++ c :: post := by
  rcases List.append_eq_append_iff.mp h with ⟨a1, h1, h2⟩ | ⟨c1, h1, h2⟩
  · exact ⟨a1, h1, h2⟩
  · cases c1 with
    | nil =>
      refine ⟨[], ?_, ?_⟩
      · simpa using h1.symm
      · simpa using h2.symm
    | cons c0 c2 =>
      simp only [List.cons_append, List.cons.injEq] at h2
      exfalso
      refine hA c ?_ hc
      rw [h1, h2.1]
      simp

/-- A split of `R ++ S` at an element with a property that nothing in `S` has
falls in `R`. -/
theorem split_before {P : Call → Prop} {R S pre post : List Call} {c : Call}
    (hS : ∀ x ∈ S, ¬ P x) (h : R ++ S = pre ++ c :: post) (hc : P c) :
    ∃ post1, R = pre ++ c :: post1 ∧ post = post1 ++ S := by
  rcases List.append_eq_append_iff.mp h with ⟨a1, h1, h2⟩ | ⟨c1, h1, h2⟩
  · exfalso
    refine hS c ?_ hc
    rw [h2]
    simp
  · cases c1 with
    | nil =>
      exfalso
      refine hS c ?_ hc
      simp only [List.nil_append] at h2
      rw [← h2]
      simp
    | cons c0 c2 =>
      simp only [List.cons_append, List.cons.injEq] at h2
      refine ⟨c2, ?_, h2.2⟩
      rw [h1, h2.1]

/-- The calls of a drawing iteration: the acquire stage with the fence reset,
then calls that rewrite the slot's command buffer, then at most the submission
and the present. -/
theorem drawFrame_drawing_split (fuel : Nat) (env : FrameEnv) (w : World)
    (hacq : env.acquire_result = VK_SUCCESS ∨ env.acquire_result = VK_SUBOPTIMAL_KHR) :
    ∃ R S, (drawFrame fuel env w).calls
        = (acquireCalls w.app
            ++ [.vkResetFences (at_ w.app.m_in_flight_frame w.app.m_current_frame)])
          ++ (R ++ S)
      ∧ (∀ x ∈ R, x.rewrites = some (at_ w.app.m_command_buffers w.app.m_current_frame)
          ∧ x.kind ≠ .submit)
      ∧ (∀ x ∈ S, x.rewrites = none ∧ (x.kind = .submit → x = submitCall w.app)) := by
  have hrec : ∀ x ∈ recordCalls w.app env.image_index,
      x.rewrites = some (at_ w.app.m_command_buffers w.app.m_current_frame)
        ∧ x.kind ≠ .submit := by
    simp [recordCalls, Call.rewrites, Call.kind]
  have hhead : ∀ x ∈ [Call.vkResetCommandBuffer (at_ w.app.m_command_buffers w.app.m_current_frame),
      Call.vkBeginCommandBuffer (at_ w.app.m_command_buffers w.app.m_current_frame)],
      x.rewrites = some (at_ w.app.m_command_buffers w.app.m_current_frame)
        ∧ x.kind ≠ .submit := by
    simp [Call.rewrites, Call.kind]
  obtain ⟨tail, hcalls, ht⟩ := drawFrame_drawing_calls fuel env w hacq
  rcases ht with rfl | rfl | rfl | rfl
  · refine ⟨_, [], ?_, hhead, by simp⟩
    rw [hcalls]; simp [beginCalls]
  · refine ⟨[.vkResetCommandBuffer (at_ w.app.m_command_buffers w.app.m_current_frame),
        .vkBeginCommandBuffer (at_ w.app.m_command_buffers w.app.m_current_frame)]
        ++ recordCalls w.app env.image_index, [], ?_, ?_, by simp⟩
    · rw [hcalls]; simp [beginCalls]
    · intro x hx
      rcases List.mem_append.mp hx with hx | hx
      · exact hhead x hx
      · exact hrec x hx
  · refine ⟨[.vkResetCommandBuffer (at_ w.app.m_command_buffers w.app.m_current_frame),
        .vkBeginCommandBuffer (at_ w.app.m_command_buffers w.app.m_current_frame)]
        ++ recordCalls w.app env.image_index, [submitCall w.app], ?_, ?_, ?_⟩
    · rw [hcalls]; simp [beginCalls]
    · intro x hx
      rcases List.mem_append.mp hx with hx | hx
      · exact hhead x hx
      · exact hrec x hx
    · simp [submitCall, Call.rewrites]
  · refine ⟨[.vkResetCommandBuffer (at_ w.app.m_command_buffers w.app.m_current_frame),
        .vkBeginCommandBuffer (at_ w.app.m_command_buffers w.app.m_current_frame)]
        ++ recordCalls w.app env.image_index,
        [submitCall w.app, presentCall w.app env.image_index], ?_, ?_, ?_⟩
    · rw [hcalls]; simp [beginCalls]
    · intro x hx
      rcases List.mem_append.mp hx with hx | hx
      · exact hhead x hx
      · exact hrec x hx
    · simp [submitCall, presentCall, Call.rewrites, Call.kind]

/-- An iteration whose acquire does not succeed rewrites no command buffer. -/
theorem no_rewrite_without_acquire (fuel : Nat) (env : FrameEnv) (w : World)
    (hacq : ¬ (env.acquire_result = VK_SUCCESS ∨ env.acquire_result = VK_SUBOPTIMAL_KHR)) :
    ∀ c ∈ (drawFrame fuel env w).calls, c.rewrites = none := by
  simp only [not_or] at hacq
  by_cases hood : env.acquire_result = VK_ERROR_OUT_OF_DATE_KHR
  · intro c hc
    rw [drawFrame_out_of_date_calls fuel env w hood] at hc
    simp only [List.mem_cons] at hc
    rcases hc with rfl | rfl | rfl | hc
    · rfl
    · rfl
    · rfl
    · have hr := emits_recreateSwapchainBody fuel env.recreate w c hc
      cases c <;> first | rfl | simp [Call.isRecreation, Call.kind] at hr
  · intro c hc
    rw [drawFrame_acquire_error fuel env w hood hacq.1 hacq.2] at hc
    simp only [acquireCalls, List.mem_cons, List.mem_singleton, List.not_mem_nil,
      or_false] at hc
    rcases hc with rfl | rfl <;> rfl

/-- Backpressure within one pass of the main loop. -/
theorem mainLoopPass_backpressure (fuel : Nat) (env : FrameEnv) (w : World)
    (pre post : List Call) (c : Call) (b : Handle)
    (hsplit : (mainLoopPass fuel env w).calls = pre ++ c :: post)
    (hc : c.rewrites = some b) :
    b = at_ w.app.m_command_buffers w.app.m_current_frame
      ∧ .vkWaitForFences (at_ w.app.m_in_flight_frame w.app.m_current_frame) ∈ pre
      ∧ (∀ x ∈ pre, x.kind ≠ .submit)
      ∧ (∀ x ∈ post, x.kind = .submit → x = submitCall w.app) := by
  rw [mainLoopPass_run] at hsplit
  simp only at hsplit
  have hcP : c.rewrites ≠ none := by rw [hc]; simp
  by_cases hacq : env.acquire_result = VK_SUCCESS ∨ env.acquire_result = VK_SUBOPTIMAL_KHR
  · obtain ⟨R, S, hcalls, hR, hS⟩ := drawFrame_drawing_split fuel env (afterPoll env w) hacq
    rw [hcalls] at hsplit
    have hA : ∀ x ∈ Call.glfwPollEvents :: (acquireCalls (afterPoll env w).app
        ++ [.vkResetFences (at_ (afterPoll env w).app.m_in_flight_frame
              (afterPoll env w).app.m_current_frame)]), ¬ (x.rewrites ≠ none) := by
      simp [acquireCalls, Call.rewrites]
    obtain ⟨pre1, hpre, hB⟩ := split_after hA (by simpa using hsplit) hcP
    obtain ⟨post1, hRs, hpost⟩ :=
      split_before (P := fun x => x.rewrites ≠ none) (fun x hx => by simp [(hS x hx).1]) hB hcP
    have hcR : c ∈ R := by rw [hRs]; simp
    have hpre1 : ∀ x ∈ pre1, x ∈ R := by
      intro x hx; rw [hRs]; simp [hx]
    have hpost1 : ∀ x ∈ post1, x ∈ R := by
      intro x hx; rw [hRs]; simp [hx]
    refine ⟨?_, ?_, ?_, ?_⟩
    · have := (hR c hcR).1
      rw [hc] at this
      simpa [afterPoll] using this
    · rw [hpre]
      simp [acquireCalls, afterPoll]
    · intro x hx
      rw [hpre] at hx
      simp only [List.mem_append, List.mem_cons] at hx
      rcases hx with (rfl | hx | hx) | hx
      · simp [Call.kind]
      · simp only [acquireCalls, List.mem_cons, List.mem_singleton, List.not_mem_nil,
          or_false] at hx
        rcases hx with rfl | rfl <;> simp [Call.kind]
      · simp only [List.mem_singleton, List.not_mem_nil, or_false] at hx
        subst hx
        simp [Call.kind]
      · exact (hR x (hpre1 x hx)).2
    · intro x hx hk
      rw [hpost] at hx
      rcases List.mem_append.mp hx with hx | hx
      · exact absurd hk (hR x (hpost1 x hx)).2
      · simpa [afterPoll, submitCall] using (hS x hx).2 hk
  · exfalso
    have hmem : c ∈ (drawFrame fuel env (afterPoll env w)).calls := by
      have : c ∈ Call.glfwPollEvents :: (drawFrame fuel env (afterPoll env w)).calls := by
        rw [hsplit]; simp
      rcases List.mem_cons.mp this with rfl | h
      · simp [Call.rewrites] at hc
      · exact h
    exact hcP (no_rewrite_without_acquire fuel env _ hacq c hmem)

/-- A pass that does not recreate the swapchain keeps the fences and the
command buffers of the slots. -/
theorem mainLoopPass_keeps_slots (fuel : Nat) (env : FrameEnv) (w : World)
    (hood : env.acquire_result ≠ VK_ERROR_OUT_OF_DATE_KHR) :
    (mainLoopPass fuel env w).world.app.m_in_flight_frame = w.app.m_in_flight_frame
      ∧ (mainLoopPass fuel env w).world.app.m_command_buffers = w.app.m_command_buffers := by
  rw [mainLoopPass_run]
  simp only
  by_cases hacq : env.acquire_result = VK_SUCCESS ∨ env.acquire_result = VK_SUBOPTIMAL_KHR
  · rcases drawFrame_drawing fuel env (afterPoll env w) hacq with
      ⟨_, e⟩ | ⟨_, _, e⟩ | ⟨_, _, _, e⟩ | ⟨_, _, _, _, e⟩ | ⟨_, _, _, _, e⟩
    all_goals (rw [e]; exact ⟨rfl, rfl⟩)
  · simp only [not_or] at hacq
    rw [drawFrame_acquire_error fuel env _ hood hacq.1 hacq.2]
    exact ⟨rfl, rfl⟩

theorem keeps_andThen {α β γ : Type} {g : App → γ} {m : M α} {f : α → M β}
    (hm : Keeps g m) (hf : ∀ a, Keeps g (f a)) : Keeps g (m.andThen f) := by
  intro w
  have hmw := hm w
  simp only [M.andThen]
  rcases h : m w with ⟨o, w1, cs⟩
  rw [h] at hmw
  cases o with
  | returned a =>
    simp only
    rw [hf a w1]
    exact hmw
  | raised e => exact hmw
  | blocked => exact hmw

theorem keeps_bind {α β γ : Type} {g : App → γ} {m : M α} {f : α → M β}
    (hm : Keeps g m) (hf : ∀ a, Keeps g (f a)) : Keeps g (m >>= f) :=
  keeps_andThen hm hf

theorem keeps_still {α γ : Type} {g : App → γ} {m : M α} (h : ∀ w, (m w).world.app = w.app) :
    Keeps g m := by
  intro w
  rw [h w]

theorem keeps_emit {γ : Type} {g : App → γ} (c : Call) : Keeps g (emit c) :=
  keeps_still (fun _ => rfl)

theorem keeps_pure {α γ : Type} {g : App → γ} (a : α) : Keeps g (pure a : M α) :=
  keeps_still (fun _ => rfl)

theorem keeps_raise {α γ : Type} {g : App → γ} (e : String) : Keeps g (raise e : M α) :=
  keeps_still (fun _ => rfl)

theorem keeps_block {α γ : Type} {g : App → γ} : Keeps g (block : M α) :=
  keeps_still (fun _ => rfl)

theorem keeps_getApp {γ : Type} {g : App → γ} : Keeps g getApp :=
  keeps_still (fun _ => rfl)

theorem keeps_create {γ : Type} {g : App → γ} (c : Call) (r : Nat → VkResult) :
    Keeps g (create c r) :=
  keeps_still (fun _ => rfl)

theorem keeps_swapchainImages {γ : Type} {g : App → γ} (n : Nat) :
    Keeps g (swapchainImages n) :=
  keeps_still (fun _ => rfl)

theorem keeps_modifyApp {γ : Type} {g : App → γ} {f : App → App} (h : ∀ a, g (f a) = g a) :
    Keeps g (modifyApp f) := by
  intro w
  exact h w.app

theorem keeps_ite {α γ : Type} {g : App → γ} (c : Prop) [Decidable c] {m1 m2 : M α}
    (h1 : Keeps g m1) (h2 : Keeps g m2) : Keeps g (if c then m1 else m2) := by
  split
  · exact h1
  · exact h2

theorem keeps_forEach {α γ : Type} {g : App → γ} {f : α → M Unit} (h : ∀ x, Keeps g (f x))
    (xs : List α) : Keeps g (forEach f xs) := by
  induction xs with
  | nil => exact keeps_pure ()
  | cons x rest ih => exact keeps_bind (h x) (fun _ => ih)

theorem keeps_getImageViews {γ : Type} {g : App → γ} (env : RecreateEnv)
    (fmt : VkSurfaceFormatKHR) (images : List Handle) :
    Keeps g (getImageViews env fmt images) := by
  induction images with
  | nil => exact keeps_pure []
  | cons image rest ih =>
    refine keeps_bind (keeps_create _ _) (fun r => ?_)
    exact keeps_ite _ (keeps_raise _) (keeps_bind ih (fun _ => keeps_pure _))

theorem keeps_createFramebuffers {γ : Type} {g : App → γ} (env : RecreateEnv)
    (extent : VkExtent2D) (render_pass : Handle) (views : List Handle) :
    Keeps g (createFramebuffers env extent render_pass views) := by
  induction views with
  | nil => exact keeps_pure []
  | cons view rest ih =>
    refine keeps_bind (keeps_create _ _) (fun r => ?_)
    exact keeps_ite _ (keeps_raise _) (keeps_bind ih (fun _ => keeps_pure _))

theorem keeps_waitWhileMinimized (env : RecreateEnv) (fuel : Nat) :
    ∀ (n : Nat) (size : Int × Int), Keeps slotBuffers (waitWhileMinimized env fuel n size) := by
  induction fuel with
  | zero =>
    intro n size
    exact keeps_ite _ keeps_block (keeps_pure _)
  | succ fuel ih =>
    intro n size
    refine keeps_ite _ ?_ (keeps_pure _)
    refine keeps_bind (keeps_emit _) (fun _ => ?_)
    refine keeps_bind (keeps_emit _) (fun _ => ?_)
    refine keeps_bind ?_ (fun _ => ih _ _)
    exact keeps_ite _ (keeps_modifyApp (fun _ => rfl)) (keeps_pure _)

theorem keeps_createSwapchain (env : RecreateEnv) (n : Nat) :
    Keeps slotBuffers (createSwapchain env n) := by
  unfold createSwapchain
  refine keeps_bind (keeps_modifyApp (fun _ => rfl)) (fun _ => ?_)
  refine keeps_bind (keeps_modifyApp (fun _ => rfl)) (fun _ => ?_)
  refine keeps_bind (keeps_modifyApp (fun _ => rfl)) (fun _ => ?_)
  refine keeps_bind keeps_getApp (fun a => ?_)
  refine keeps_bind ?_ (fun _ => ?_)
  · unfold chooseSwapExtentM
    exact keeps_ite _ (keeps_pure _) (keeps_bind (keeps_emit _) (fun _ => keeps_pure _))
  refine keeps_bind (keeps_modifyApp (fun _ => rfl)) (fun _ => ?_)
  refine keeps_bind ?_ (fun _ => ?_)
  · unfold createSwapchainWithParams
    refine keeps_bind keeps_getApp (fun a => ?_)
    refine keeps_bind (keeps_create _ _) (fun r => ?_)
    exact keeps_ite _ (keeps_raise _) (keeps_pure _)
  refine keeps_bind (keeps_modifyApp (fun _ => rfl)) (fun _ => ?_)
  refine keeps_bind ?_ (fun _ => ?_)
  · unfold getSwapchainImages
    refine keeps_ite _ (keeps_raise _) ?_
    refine keeps_bind (keeps_swapchainImages _) (fun _ => ?_)
    exact keeps_ite _ (keeps_raise _) (keeps_pure _)
  refine keeps_bind (keeps_modifyApp (fun _ => rfl)) (fun _ => ?_)
  refine keeps_bind keeps_getApp (fun a => ?_)
  refine keeps_bind (keeps_getImageViews _ _ _) (fun _ => ?_)
  exact keeps_modifyApp (fun _ => rfl)

theorem keeps_createSyncObjects (env : RecreateEnv) :
    Keeps slotBuffers (createSyncObjects env) := by
  unfold createSyncObjects
  refine keeps_bind (keeps_modifyApp (fun _ => rfl)) (fun _ => ?_)
  refine keeps_bind (keeps_modifyApp (fun _ => rfl)) (fun _ => ?_)
  refine keeps_bind (keeps_modifyApp (fun _ => rfl)) (fun _ => ?_)
  refine keeps_forEach (fun i => ?_) _
  unfold createSyncObjectsAt
  refine keeps_bind (keeps_create _ _) (fun r => ?_)
  refine keeps_ite _ (keeps_raise _) ?_
  refine keeps_bind (keeps_modifyApp (fun _ => rfl)) (fun _ => ?_)
  refine keeps_bind (keeps_create _ _) (fun r => ?_)
  refine keeps_ite _ (keeps_raise _) ?_
  refine keeps_bind (keeps_modifyApp (fun _ => rfl)) (fun _ => ?_)
  refine keeps_bind (keeps_create _ _) (fun r => ?_)
  exact keeps_ite _ (keeps_raise _) (keeps_modifyApp (fun _ => rfl))

/-- A recreation leaves the command buffers and the slot index as they were. -/
theorem keeps_recreateSwapchain (fuel : Nat) (env : RecreateEnv) :
    Keeps slotBuffers (recreateSwapchain fuel env) := by
  unfold recreateSwapchain
  refine keeps_bind (keeps_emit _) (fun _ => ?_)
  unfold recreateSwapchainBody
  refine keeps_bind (keeps_emit _) (fun _ => ?_)
  refine keeps_bind (keeps_waitWhileMinimized env fuel _ _) (fun n => ?_)
  refine keeps_bind (keeps_emit _) (fun _ => ?_)
  refine keeps_bind ?_ (fun _ => ?_)
  · unfold cleanupSwapchain
    refine keeps_bind keeps_getApp (fun a => ?_)
    refine keeps_bind (keeps_forEach (fun i => keeps_emit _) _) (fun _ => ?_)
    refine keeps_bind (keeps_forEach (fun i => keeps_emit _) _) (fun _ => ?_)
    exact keeps_emit _
  refine keeps_bind keeps_getApp (fun a => ?_)
  refine keeps_bind (keeps_emit _) (fun _ => ?_)
  refine keeps_bind (keeps_emit _) (fun _ => ?_)
  refine keeps_bind (keeps_emit _) (fun _ => ?_)
  refine keeps_bind ?_ (fun _ => ?_)
  · refine keeps_forEach (fun i => ?_) _
    unfold destroySyncObjectsAt
    refine keeps_bind keeps_getApp (fun a => ?_)
    refine keeps_bind (keeps_emit _) (fun _ => ?_)
    refine keeps_bind (keeps_emit _) (fun _ => ?_)
    exact keeps_emit _
  refine keeps_bind (keeps_createSwapchain env _) (fun _ => ?_)
  refine keeps_bind keeps_getApp (fun a => ?_)
  refine keeps_bind (keeps_getImageViews _ _ _) (fun _ => ?_)
  refine keeps_bind (keeps_modifyApp (fun _ => rfl)) (fun _ => ?_)
  refine keeps_bind ?_ (fun _ => ?_)
  · unfold createRenderPass
    refine keeps_bind keeps_getApp (fun a => ?_)
    refine keeps_bind (keeps_create _ _) (fun r => ?_)
    exact keeps_ite _ (keeps_raise _) (keeps_modifyApp (fun _ => rfl))
  refine keeps_bind keeps_getApp (fun a => ?_)
  refine keeps_bind ?_ (fun _ => ?_)
  · unfold createPipeline
    refine keeps_bind (keeps_create _ _) (fun r => ?_)
    refine keeps_ite _ (keeps_raise _) ?_
    refine keeps_bind (keeps_modifyApp (fun _ => rfl)) (fun _ => ?_)
    refine keeps_bind (keeps_create _ _) (fun r => ?_)
    exact keeps_ite _ (keeps_raise _) (keeps_modifyApp (fun _ => rfl))
  refine keeps_bind keeps_getApp (fun a => ?_)
  refine keeps_bind (keeps_createFramebuffers _ _ _ _) (fun _ => ?_)
  exact keeps_createSyncObjects env

/-- What a sequence does when it returns: so did its first part. -/
theorem andThen_returned {α β : Type} (m : M α) (f : α → M β) (w : World) (b : β)
    (h : (m.andThen f w).outcome = .returned b) :
    ∃ a, (m w).outcome = .returned a
      ∧ (m.andThen f w).calls = (m w).calls ++ (f a (m w).world).calls := by
  cases hm : (m w).outcome with
  | returned a =>
    refine ⟨a, rfl, ?_⟩
    rw [andThen_of_returned m f w a hm]
  | raised e =>
    exfalso
    exact (andThen_of_not_returned m f w (by intro a ha; rw [hm] at ha; simp at ha)).2.2 b h
  | blocked =>
    exfalso
    exact (andThen_of_not_returned m f w (by intro a ha; rw [hm] at ha; simp at ha)).2.2 b h

/-- A recreation that returns has waited for the device to be idle. -/
theorem recreateSwapchainBody_idle (fuel : Nat) (env : RecreateEnv) (w : World)
    (h : (recreateSwapchainBody fuel env w).outcome = .returned ()) :
    ∃ A B, (recreateSwapchainBody fuel env w).calls = A ++ .vkDeviceWaitIdle :: B := by
  unfold recreateSwapchainBody at h ⊢
  simp only [bind_eq_andThen, emit_andThen] at h ⊢
  obtain ⟨n, _, hcalls⟩ := andThen_returned _ _ _ _ h
  rw [hcalls]
  simp only [emit_andThen]
  exact ⟨_, _, by rw [← List.cons_append]⟩

theorem rewritesOnlyObserved_append (A B : List Call) :
    ∀ P : List (Handle × Handle),
      rewritesOnlyObserved P (A ++ B)
        = (rewritesOnlyObserved P A && rewritesOnlyObserved (A.foldl unobserved P) B) := by
  induction A with
  | nil => intro P; simp [rewritesOnlyObserved]
  | cons c rest ih =>
    intro P
    rw [List.cons_append]
    simp only [rewritesOnlyObserved, List.foldl_cons]
    rw [ih, Bool.and_assoc]

theorem rewritesOnlyObserved_of_no_rewrite (L : List Call) (h : ∀ c ∈ L, c.rewrites = none) :
    ∀ P : List (Handle × Handle), rewritesOnlyObserved P L = true := by
  induction L with
  | nil => intro P; rfl
  | cons c rest ih =>
    intro P
    simp only [rewritesOnlyObserved, h c (List.mem_cons_self _ _), Bool.true_and]
    exact ih (fun x hx => h x (List.mem_cons_of_mem _ hx)) _

theorem unobserved_nil_of_recreation (c : Call) (h : c.isRecreation = true) :
    unobserved [] c = [] := by
  cases c <;> first | rfl | simp [Call.isRecreation, Call.kind] at h

theorem foldl_unobserved_recreation (L : List Call) (h : ∀ c ∈ L, c.isRecreation = true) :
    L.foldl unobserved [] = [] := by
  induction L with
  | nil => rfl
  | cons c rest ih =>
    rw [List.foldl_cons, unobserved_nil_of_recreation c (h c (List.mem_cons_self _ _))]
    exact ih (fun x hx => h x (List.mem_cons_of_mem _ hx))

/-- After the wait on the fence of the current slot, no unobserved submission
is one of the command buffer of that slot. -/
theorem observed_after_wait (w : World) (P : List (Handle × Handle)) (h : SlotsCoherent w P) :
    (P.filter (fun p => p.2 ≠ at_ w.app.m_in_flight_frame w.app.m_current_frame)).all
      (fun p => p.1 ≠ at_ w.app.m_command_buffers w.app.m_current_frame) = true := by
  obtain ⟨hs, hne, hall⟩ := h
  simp only [MAX_FRAMES_IN_FLIGHT] at hs
  rw [List.all_eq_true]
  intro p hp
  obtain ⟨hpP, hpf⟩ := List.mem_filter.mp hp
  obtain ⟨t, ht, h1, h2⟩ := hall p hpP
  simp only [MAX_FRAMES_IN_FLIGHT] at ht
  simp only [ne_eq, decide_eq_true_eq] at hpf ⊢
  intro hcb
  rw [h1] at hcb
  rw [h2] at hpf
  have ht01 : t = 0 ∨ t = 1 := by omega
  have hs01 : w.app.m_current_frame = 0 ∨ w.app.m_current_frame = 1 := by omega
  rcases ht01 with rfl | rfl <;> rcases hs01 with hs0 | hs0 <;> rw [hs0] at hcb hpf
  · exact hpf rfl
  · exact hne hcb
  · exact hne hcb.symm
  · exact hpf rfl

/-- The unobserved submissions after a whole frame: those that the wait did not
observe, and the submission of the frame. -/
theorem foldl_unobserved_frame (env : FrameEnv) (w : World) (P : List (Handle × Handle)) :
    (Call.glfwPollEvents :: frameCalls (afterPoll env w).app env.image_index).foldl unobserved P
      = P.filter (fun p => p.2 ≠ at_ w.app.m_in_flight_frame w.app.m_current_frame)
        ++ [(at_ w.app.m_command_buffers w.app.m_current_frame,
              at_ w.app.m_in_flight_frame w.app.m_current_frame)] := by
  simp [frameCalls, acquireCalls, beginCalls, recordCalls, submitCall, presentCall, unobserved,
    afterPoll]

/-- One pass of the main loop rewrites only command buffers without an
unobserved submission, and keeps the slots coherent. -/
theorem mainLoopPass_observed (fuel : Nat) (env : FrameEnv) (w : World)
    (P : List (Handle × Handle)) (hinv : SlotsCoherent w P) :
    rewritesOnlyObserved P (mainLoopPass fuel env w).calls = true
      ∧ ((mainLoopPass fuel env w).outcome = .returned () →
          SlotsCoherent (mainLoopPass fuel env w).world
            ((mainLoopPass fuel env w).calls.foldl unobserved P)) := by
  have hK := observed_after_wait w P hinv
  rw [mainLoopPass_run]
  simp only
  by_cases hacq : env.acquire_result = VK_SUCCESS ∨ env.acquire_result = VK_SUBOPTIMAL_KHR
  · have hret : SlotsCoherent (advanced (afterPoll env w))
        ((Call.glfwPollEvents :: frameCalls (afterPoll env w).app env.image_index).foldl
          unobserved P) := by
      rw [foldl_unobserved_frame]
      obtain ⟨hs, hne, hall⟩ := hinv
      refine ⟨?_, hne, ?_⟩
      · simp only [advanced, afterPoll, MAX_FRAMES_IN_FLIGHT]
        exact Nat.mod_lt _ (by decide)
      · intro p hp
        rcases List.mem_append.mp hp with hp | hp
        · exact hall p (List.mem_filter.mp hp).1
        · simp only [List.mem_singleton] at hp
          subst hp
          exact ⟨w.app.m_current_frame, hs, rfl, rfl⟩
    rcases drawFrame_drawing fuel env (afterPoll env w) hacq with
      ⟨_, e⟩ | ⟨_, _, e⟩ | ⟨_, _, _, e⟩ | ⟨_, _, _, _, e⟩ | ⟨_, _, _, _, e⟩
    · rw [e]
      refine ⟨?_, fun h => by simp at h⟩
      simpa [rewritesOnlyObserved, unobserved, Call.rewrites, acquireCalls, beginCalls,
        afterPoll] using hK
    · rw [e]
      refine ⟨?_, fun h => by simp at h⟩
      simpa [rewritesOnlyObserved, unobserved, Call.rewrites, acquireCalls, beginCalls,
        recordCalls, afterPoll] using hK
    · rw [e]
      refine ⟨?_, fun h => by simp at h⟩
      simpa [rewritesOnlyObserved, unobserved, Call.rewrites, acquireCalls, beginCalls,
        recordCalls, submitCall, afterPoll] using hK
    · rw [e]
      refine ⟨?_, fun h => by simp at h⟩
      simpa [rewritesOnlyObserved, unobserved, Call.rewrites, acquireCalls, beginCalls,
        recordCalls, submitCall, presentCall, frameCalls, afterPoll] using hK
    · rw [e]
      refine ⟨?_, fun _ => hret⟩
      simpa [rewritesOnlyObserved, unobserved, Call.rewrites, acquireCalls, beginCalls,
        recordCalls, submitCall, presentCall, frameCalls, afterPoll] using hK
  · constructor
    · refine rewritesOnlyObserved_of_no_rewrite _ ?_ P
      intro c hc
      rcases List.mem_cons.mp hc with rfl | hc
      · rfl
      · exact no_rewrite_without_acquire fuel env _ hacq c hc
    · intro hret
      simp only [not_or] at hacq
      by_cases hood : env.acquire_result = VK_ERROR_OUT_OF_DATE_KHR
      · have hkeep := keeps_recreateSwapchain fuel env.recreate (afterPoll env w)
        simp only [slotBuffers, Prod.mk.injEq] at hkeep
        rw [drawFrame_out_of_date fuel env _ hood] at hret ⊢
        simp only at hret ⊢
        have hbody : (recreateSwapchainBody fuel env.recreate (afterPoll env w)).outcome
            = .returned () := by
          simpa [recreateSwapchain] using hret
        obtain ⟨A, B, hAB⟩ := recreateSwapchainBody_idle fuel env.recreate _ hbody
        have hB : ∀ c ∈ B, c.isRecreation = true := by
          intro c hc
          refine emits_recreateSwapchainBody fuel env.recreate (afterPoll env w) c ?_
          rw [hAB]
          simp [hc]
        have hpend : (Call.glfwPollEvents :: (acquireCalls (afterPoll env w).app
            ++ (recreateSwapchain fuel env.recreate (afterPoll env w)).calls)).foldl unobserved P
              = [] := by
          rw [recreateSwapchain_calls, hAB]
          simp only [List.foldl_cons, List.foldl_append, unobserved]
          exact foldl_unobserved_recreation B hB
        rw [hpend]
        obtain ⟨hs, hne, _⟩ := hinv
        refine ⟨?_, ?_, by simp⟩
        · rw [hkeep.2]; exact hs
        · rw [hkeep.1]; exact hne
      · rw [drawFrame_acquire_error fuel env _ hood hacq.1 hacq.2] at hret
        simp at hret

/-- A run of passes rewrites only command buffers without an unobserved
submission. -/
theorem mainLoopPasses_observed (fuel : Nat) (envs : List FrameEnv) :
    ∀ (w : World) (P : List (Handle × Handle)), SlotsCoherent w P →
      rewritesOnlyObserved P (mainLoopPasses fuel envs w).calls = true := by
  induction envs with
  | nil => intro w P _; simp [mainLoopPasses, rewritesOnlyObserved]
  | cons env rest ih =>
    intro w P hinv
    obtain ⟨h1, h2⟩ := mainLoopPass_observed fuel env w P hinv
    rw [mainLoopPasses_cons]
    cases h : (mainLoopPass fuel env w).outcome with
    | returned u =>
      rw [andThen_of_returned _ _ _ u h]
      simp only
      rw [rewritesOnlyObserved_append, h1, Bool.true_and]
      exact ih _ _ (h2 h)
    | raised e =>
      have hn : ∀ a, (mainLoopPass fuel env w).outcome ≠ .returned a := by
        intro a ha; rw [h] at ha; simp at ha
      rw [(andThen_of_not_returned _ (fun _ => mainLoopPasses fuel rest) w hn).1]
      exact h1
    | blocked =>
      have hn : ∀ a, (mainLoopPass fuel env w).outcome ≠ .returned a := by
        intro a ha; rw [h] at ha; simp at ha
      rw [(andThen_of_not_returned _ (fun _ => mainLoopPasses fuel rest) w hn).1]
      exact h1

/-- The check is not vacuous: it rejects a trace that resets a command buffer
right after submitting it, and accepts it once the fence has been waited on. -/
theorem rewritesOnlyObserved_detects :
    rewritesOnlyObserved [] [.vkQueueSubmit 1 [18] [1024] [16] [20] 22,
        .vkResetCommandBuffer 16] = false
      ∧ rewritesOnlyObserved [] [.vkQueueSubmit 1 [18] [1024] [16] [20] 22,
        .vkWaitForFences 22, .vkResetCommandBuffer 16] = true := by
  decide

/-- C3 (backpressure).  The trace of any number of consecutive passes of the
main loop is the sequence of the traces of its passes.  In each pass, started
in a state with current slot `s`, every call that resets or records into a
command buffer does so into the command buffer of slot `s` and is preceded in
that pass by a wait on `m_in_flight_frame[s]`, with no submission between the
start of the pass and that call; so every earlier submission that armed the
fence of slot `s` lies before the wait.  The submissions that follow in the
pass are the one of slot `s`, arming `m_in_flight_frame[s]`.  Between passes
the fence and the command buffer of a slot stay the same objects unless the
swapchain is recreated.  Hence, when the two slots have different command
buffers, no call of the whole trace resets or records into a command buffer
whose last submission has not been observed complete, by a wait on the fence
that the submission armed or by the device-idle wait of a recreation. -/
theorem backpressure (fuel : Nat) (envs : List FrameEnv) (w0 : World) :
    (mainLoopPasses fuel envs w0).calls = ((passes fuel envs w0).map Prod.snd).flatten
    ∧ (∀ p ∈ passes fuel envs w0, ∀ (pre post : List Call) (c : Call) (b : Handle),
        p.2 = pre ++ c :: post → c.rewrites = some b →
          b = at_ p.1.app.m_command_buffers p.1.app.m_current_frame
          ∧ .vkWaitForFences (at_ p.1.app.m_in_flight_frame p.1.app.m_current_frame) ∈ pre
          ∧ (∀ x ∈ pre, x.kind ≠ .submit)
          ∧ (∀ x ∈ post, x.kind = .submit → x = submitCall p.1.app))
    ∧ (∀ (env : FrameEnv) (w : World), env.acquire_result ≠ VK_ERROR_OUT_OF_DATE_KHR →
        (mainLoopPass fuel env w).world.app.m_in_flight_frame = w.app.m_in_flight_frame
        ∧ (mainLoopPass fuel env w).world.app.m_command_buffers = w.app.m_command_buffers)
    ∧ (w0.app.m_current_frame < MAX_FRAMES_IN_FLIGHT →
        at_ w0.app.m_command_buffers 0 ≠ at_ w0.app.m_command_buffers 1 →
        rewritesOnlyObserved [] (mainLoopPasses fuel envs w0).calls = true) := by
  refine ⟨mainLoopPasses_calls fuel envs w0, ?_,
    fun env w h => mainLoopPass_keeps_slots fuel env w h, ?_⟩
  · intro p hp pre post c b hsplit hc
    obtain ⟨env, _, hpe⟩ := passes_mem fuel envs w0 p hp
    rw [hpe] at hsplit
    exact mainLoopPass_backpressure fuel env p.1 pre post c b hsplit hc
  · intro hs hne
    exact mainLoopPasses_observed fuel envs w0 [] ⟨hs, hne, by simp⟩

/-- In the second of two frames from the sample state (slot 1), the reset of
command buffer 17 comes after the wait on fence 23; and a run with a recreation
between two frames of slot 0 passes the check of the whole trace. -/
theorem backpressure_witness :
    secondPass ∈ passes 0 [calmFrame, calmFrame] sampleWorld
      ∧ secondPass.2
          = [Call.glfwPollEvents, .vkWaitForFences 23, .vkAcquireNextImageKHR 3 19,
              .vkResetFences 23]
            ++ .vkResetCommandBuffer 17 :: secondPass.2.drop 5
      ∧ (Call.vkResetCommandBuffer 17).rewrites = some 17
      ∧ Call.vkWaitForFences 23 ∈
          [Call.glfwPollEvents, .vkWaitForFences 23, .vkAcquireNextImageKHR 3 19,
            .vkResetFences 23]
      ∧ rewritesOnlyObserved []
          (mainLoopPasses 0 [calmFrame, staleFrame, calmFrame, calmFrame] sampleWorld).calls
          = true :=
  ⟨by decide!, by decide!, rfl,
    ((backpressure 0 [calmFrame, calmFrame] sampleWorld).2.1 secondPass (by decide!)
      [Call.glfwPollEvents, .vkWaitForFences 23, .vkAcquireNextImageKHR 3 19, .vkResetFences 23]
      (secondPass.2.drop 5) (.vkResetCommandBuffer 17) 17 (by decide!) rfl).2.1,
    (backpressure 0 [calmFrame, staleFrame, calmFrame, calmFrame] sampleWorld).2.2.2
      (by decide) (by decide)⟩

theorem clamp_eq (v lo hi : Nat) (h : lo ≤ hi) : clamp v lo hi = max lo (min v hi) := by
  unfold clamp
  split
  · omega
  · split <;> omega

/-- C15 (extent resolution).  For capabilities with `minImageExtent` at most
`maxImageExtent` in both components, `chooseSwapExtent` returns
`capabilities.currentExtent` when the surface reports a defined current extent
(the code tells the undefined sentinel by its width `0xFFFFFFFF`); for the
sentinel it returns the window framebuffer size, converted to `uint32_t`, with
the width clamped into `[minImageExtent.width, maxImageExtent.width]` and the
height into `[minImageExtent.height, maxImageExtent.height]`. -/
theorem extent_resolution (capabilities : VkSurfaceCapabilitiesKHR) (size : Int × Int)
    (hw : capabilities.minImageExtent.width ≤ capabilities.maxImageExtent.width)
    (hh : capabilities.minImageExtent.height ≤ capabilities.maxImageExtent.height) :
    (capabilities.currentExtent.width ≠ UINT32_MAX →
      chooseSwapExtent capabilities size = capabilities.currentExtent)
    ∧ (capabilities.currentExtent.width = UINT32_MAX →
      (chooseSwapExtent capabilities size).width
          = max capabilities.minImageExtent.width
              (min (to_uint32 size.1) capabilities.maxImageExtent.width)
        ∧ (chooseSwapExtent capabilities size).height
          = max capabilities.minImageExtent.height
              (min (to_uint32 size.2) capabilities.maxImageExtent.height)
        ∧ capabilities.minImageExtent.width ≤ (chooseSwapExtent capabilities size).width
        ∧ (chooseSwapExtent capabilities size).width ≤ capabilities.maxImageExtent.width
        ∧ capabilities.minImageExtent.height ≤ (chooseSwapExtent capabilities size).height
        ∧ (chooseSwapExtent capabilities size).height ≤ capabilities.maxImageExtent.height
        ∧ (capabilities.minImageExtent.width ≤ to_uint32 size.1 →
            to_uint32 size.1 ≤ capabilities.maxImageExtent.width →
            (chooseSwapExtent capabilities size).width = to_uint32 size.1)
        ∧ (capabilities.minImageExtent.height ≤ to_uint32 size.2 →
            to_uint32 size.2 ≤ capabilities.maxImageExtent.height →
            (chooseSwapExtent capabilities size).height = to_uint32 size.2)) := by
  constructor
  · intro h
    simp [chooseSwapExtent, h]
  · intro h
    simp only [chooseSwapExtent, h, ne_eq, not_true_eq_false, if_false, clamp_eq _ _ _ hw,
      clamp_eq _ _ _ hh]
    refine ⟨?_, ?_, ?_, ?_, ?_, ?_, ?_, ?_⟩ <;> first | trivial | omega

/-- A window of 640 by 480 within the limits is taken as it is. -/
theorem extent_resolution_witness :
    (undefinedExtentCapabilities.minImageExtent.width
        ≤ undefinedExtentCapabilities.maxImageExtent.width
      ∧ undefinedExtentCapabilities.minImageExtent.height
        ≤ undefinedExtentCapabilities.maxImageExtent.height
      ∧ undefinedExtentCapabilities.currentExtent.width = UINT32_MAX)
    ∧ (chooseSwapExtent undefinedExtentCapabilities (640, 480)).width = 640
    ∧ (chooseSwapExtent undefinedExtentCapabilities (640, 480)).height = 480 :=
  ⟨by decide,
    ((extent_resolution undefinedExtentCapabilities (640, 480) (by decide) (by decide)).2
      rfl).2.2.2.2.2.2.1 (by decide) (by decide),
    ((extent_resolution undefinedExtentCapabilities (640, 480) (by decide) (by decide)).2
      rfl).2.2.2.2.2.2.2 (by decide) (by decide)⟩

/-- With the undefined current extent, limits (1, 1) and (4096, 4096) and a
framebuffer of (10000, 50), the chosen extent is not (4096, 1). -/
theorem extent_clamping_not_4096_1 :
    undefinedExtentCapabilities.currentExtent = ⟨UINT32_MAX, UINT32_MAX⟩
      ∧ undefinedExtentCapabilities.minImageExtent = ⟨1, 1⟩
      ∧ undefinedExtentCapabilities.maxImageExtent = ⟨4096, 4096⟩
      ∧ chooseSwapExtent undefinedExtentCapabilities (10000, 50) ≠ ⟨4096, 1⟩ := by
  decide

/-- C16, as amended (extent clamping example).  With the undefined (sentinel)
current extent, `minImageExtent = (1, 1)`, `maxImageExtent = (4096, 4096)` and
a framebuffer size of (10000, 50), `chooseSwapExtent` returns the extent
(4096, 50): the width is cut down to the maximum, the height 50 lies within the
limits and stays. -/
theorem extent_clamping_example :
    chooseSwapExtent ⟨2, 8, ⟨UINT32_MAX, UINT32_MAX⟩, ⟨1, 1⟩, ⟨4096, 4096⟩, 1⟩ (10000, 50)
      = ⟨4096, 50⟩ := by
  decide

/-- At the largest `uint32_t` minimum (and no maximum) the sum wraps and the
request is 0; the formula `max(min + 1, min)`, replaced by the maximum when
that is nonzero and smaller, gives 4294967295 when computed in `uint32_t` and
4294967296 when computed exactly. -/
theorem image_count_wraps :
    largestCountCapabilities.minImageCount < UINT32_SIZE
      ∧ largestCountCapabilities.maxImageCount < UINT32_SIZE
      ∧ imageCount largestCountCapabilities = 0
      ∧ imageCount largestCountCapabilities
          ≠ (if largestCountCapabilities.maxImageCount ≠ 0
                ∧ largestCountCapabilities.maxImageCount
                    < max ((largestCountCapabilities.minImageCount + 1) % UINT32_SIZE)
                        largestCountCapabilities.minImageCount
              then largestCountCapabilities.maxImageCount
              else max ((largestCountCapabilities.minImageCount + 1) % UINT32_SIZE)
                largestCountCapabilities.minImageCount)
      ∧ imageCount largestCountCapabilities
          ≠ (if largestCountCapabilities.maxImageCount ≠ 0
                ∧ largestCountCapabilities.maxImageCount
                    < max (largestCountCapabilities.minImageCount + 1)
                        largestCountCapabilities.minImageCount
              then largestCountCapabilities.maxImageCount
              else max (largestCountCapabilities.minImageCount + 1)
                largestCountCapabilities.minImageCount) := by
  decide

/-- C17, as amended (image count formula).  For every pair of `uint32_t`
values `minImageCount` and `maxImageCount`, the image count that
`createSwapchain` requests is `minImageCount + 1` computed in `uint32_t`,
replaced by `maxImageCount` when `maxImageCount` is nonzero and smaller than
that value.  Unless `minImageCount` is the largest `uint32_t`, this is
`max(minImageCount + 1, minImageCount)`, replaced in the same way; at the
largest `uint32_t` the sum wraps and the request is 0. -/
theorem image_count_formula (capabilities : VkSurfaceCapabilitiesKHR)
    (hmin : capabilities.minImageCount < UINT32_SIZE) :
    imageCount capabilities
        = (if capabilities.maxImageCount ≠ 0
              ∧ capabilities.maxImageCount < (capabilities.minImageCount + 1) % UINT32_SIZE
            then capabilities.maxImageCount
            else (capabilities.minImageCount + 1) % UINT32_SIZE)
    ∧ (capabilities.minImageCount ≠ UINT32_MAX →
        imageCount capabilities
          = (if capabilities.maxImageCount ≠ 0
                ∧ capabilities.maxImageCount
                    < max (capabilities.minImageCount + 1) capabilities.minImageCount
              then capabilities.maxImageCount
              else max (capabilities.minImageCount + 1) capabilities.minImageCount))
    ∧ (capabilities.minImageCount = UINT32_MAX → imageCount capabilities = 0) := by
  simp only [UINT32_SIZE, UINT32_MAX] at *
  refine ⟨?_, ?_, ?_⟩
  · simp only [imageCount, UINT32_SIZE, gt_iff_lt, Nat.pos_iff_ne_zero]
  · intro hne
    have h1 : (capabilities.minImageCount + 1) % 4294967296 = capabilities.minImageCount + 1 :=
      Nat.mod_eq_of_lt (by omega)
    have h2 : max (capabilities.minImageCount + 1) capabilities.minImageCount
        = capabilities.minImageCount + 1 := by omega
    simp only [imageCount, UINT32_SIZE, gt_iff_lt, Nat.pos_iff_ne_zero, h1, h2]
  · intro he
    simp [imageCount, UINT32_SIZE, he]

/-- With a minimum of 2 and a maximum of 8 images, 3 are requested. -/
theorem image_count_formula_witness :
    (sampleApp.m_swapchain_support_details.capabilities.minImageCount < UINT32_SIZE
      ∧ sampleApp.m_swapchain_support_details.capabilities.minImageCount ≠ UINT32_MAX)
    ∧ imageCount sampleApp.m_swapchain_support_details.capabilities = 3 :=
  ⟨by decide,
    ((image_count_formula sampleApp.m_swapchain_support_details.capabilities
      (by decide)).2.1 (by decide)).trans (by decide)⟩

/-- When the surface allows exactly two images, two are requested, fewer than
the minimum plus one.  When minimum and maximum are both the largest `uint32_t`,
the sum wraps and 0 images are requested, fewer than the minimum. -/
theorem image_count_below_minimum_plus_one :
    twoImageCapabilities.maxImageCount ≠ 0
      ∧ twoImageCapabilities.minImageCount ≤ twoImageCapabilities.maxImageCount
      ∧ imageCount twoImageCapabilities = 2
      ∧ ¬ (twoImageCapabilities.minImageCount + 1 ≤ imageCount twoImageCapabilities)
      ∧ largestRangeCapabilities.maxImageCount ≠ 0
      ∧ largestRangeCapabilities.minImageCount ≤ largestRangeCapabilities.maxImageCount
      ∧ imageCount largestRangeCapabilities = 0
      ∧ ¬ (largestRangeCapabilities.minImageCount ≤ imageCount largestRangeCapabilities) := by
  decide

/-- C18, as amended (image count range).  For surface capabilities (of
`uint32_t` values) with a nonzero `maxImageCount` and
`minImageCount <= maxImageCount`, the requested image count `N` satisfies
`N <= maxImageCount`.  When `minImageCount` is below the largest `uint32_t`,
`N` is the smaller of `minImageCount + 1` and `maxImageCount`, so
`minImageCount <= N`: it is `minImageCount + 1` when
`minImageCount < maxImageCount`, where the bound `minImageCount + 1 <= N`
holds, and it is `maxImageCount` when `minImageCount = maxImageCount`.  When
`minImageCount` is the largest `uint32_t` (and so is `maxImageCount`), the sum
wraps and `N` is 0. -/
theorem image_count_range (capabilities : VkSurfaceCapabilitiesKHR)
    (hmax : capabilities.maxImageCount ≠ 0)
    (hle : capabilities.minImageCount ≤ capabilities.maxImageCount)
    (h32 : capabilities.maxImageCount < UINT32_SIZE) :
    imageCount capabilities ≤ capabilities.maxImageCount
    ∧ (capabilities.minImageCount ≠ UINT32_MAX →
        imageCount capabilities
            = min (capabilities.minImageCount + 1) capabilities.maxImageCount
          ∧ capabilities.minImageCount ≤ imageCount capabilities)
    ∧ (capabilities.minImageCount < capabilities.maxImageCount →
        imageCount capabilities = capabilities.minImageCount + 1
          ∧ capabilities.minImageCount + 1 ≤ imageCount capabilities)
    ∧ (capabilities.minImageCount ≠ UINT32_MAX →
        capabilities.minImageCount = capabilities.maxImageCount →
        imageCount capabilities = capabilities.maxImageCount)
    ∧ (capabilities.minImageCount = UINT32_MAX →
        capabilities.maxImageCount = UINT32_MAX ∧ imageCount capabilities = 0) := by
  simp only [UINT32_SIZE, UINT32_MAX] at *
  refine ⟨?_, ?_, ?_, ?_, ?_⟩
  · simp only [imageCount, UINT32_SIZE]
    split <;> omega
  · intro hne
    have h1 : (capabilities.minImageCount + 1) % 4294967296 = capabilities.minImageCount + 1 :=
      Nat.mod_eq_of_lt (by omega)
    simp only [imageCount, UINT32_SIZE, h1]
    split <;> omega
  · intro hlt
    have h1 : (capabilities.minImageCount + 1) % 4294967296 = capabilities.minImageCount + 1 :=
      Nat.mod_eq_of_lt (by omega)
    simp only [imageCount, UINT32_SIZE, h1]
    split <;> omega
  · intro hne heq
    have h1 : (capabilities.minImageCount + 1) % 4294967296 = capabilities.minImageCount + 1 :=
      Nat.mod_eq_of_lt (by omega)
    simp only [imageCount, UINT32_SIZE, h1]
    split <;> omega
  · intro heq
    have h1 : (capabilities.minImageCount + 1) % 4294967296 = 0 := by
      rw [heq]
    refine ⟨by omega, ?_⟩
    simp only [imageCount, UINT32_SIZE, h1]
    split <;> omega

/-- With a minimum of 2 and a maximum of 8 images, the request 3 lies between
minimum plus one and maximum; with a minimum and a maximum of 2 images the
request is 2. -/
theorem image_count_range_witness :
    (sampleApp.m_swapchain_support_details.capabilities.maxImageCount ≠ 0
      ∧ sampleApp.m_swapchain_support_details.capabilities.minImageCount
          < sampleApp.m_swapchain_support_details.capabilities.maxImageCount)
    ∧ imageCount sampleApp.m_swapchain_support_details.capabilities
        ≤ sampleApp.m_swapchain_support_details.capabilities.maxImageCount
    ∧ sampleApp.m_swapchain_support_details.capabilities.minImageCount + 1
        ≤ imageCount sampleApp.m_swapchain_support_details.capabilities
    ∧ imageCount twoImageCapabilities = twoImageCapabilities.maxImageCount :=
  ⟨by decide,
    (image_count_range sampleApp.m_swapchain_support_details.capabilities
      (by decide) (by decide) (by decide)).1,
    ((image_count_range sampleApp.m_swapchain_support_details.capabilities
      (by decide) (by decide) (by decide)).2.2.1 (by decide)).2,
    (image_count_range twoImageCapabilities (by decide) (by decide) (by decide)).2.2.2.1
      (by decide) (by decide)⟩

theorem findPreferredFormat_none (formats : List VkSurfaceFormatKHR)
    (h : ∀ x ∈ formats, ¬ (x.format = VK_FORMAT_B8G8R8A8_SRGB
      ∧ x.colorSpace = VK_COLOR_SPACE_SRGB_NONLINEAR_KHR)) :
    findPreferredFormat formats = none := by
  induction formats with
  | nil => rfl
  | cons f rest ih =>
    simp only [findPreferredFormat, if_neg (h f (List.mem_cons_self _ _))]
    exact ih (fun x hx => h x (List.mem_cons_of_mem _ hx))

theorem findPreferredFormat_first (pre post : List VkSurfaceFormatKHR) (f : VkSurfaceFormatKHR)
    (hf : f.format = VK_FORMAT_B8G8R8A8_SRGB ∧ f.colorSpace = VK_COLOR_SPACE_SRGB_NONLINEAR_KHR)
    (hpre : ∀ x ∈ pre, ¬ (x.format = VK_FORMAT_B8G8R8A8_SRGB
      ∧ x.colorSpace = VK_COLOR_SPACE_SRGB_NONLINEAR_KHR)) :
    findPreferredFormat (pre ++ f :: post) = some f := by
  induction pre with
  | nil => simp [findPreferredFormat, hf]
  | cons p rest ih =>
    simp only [List.cons_append, findPreferredFormat, if_neg (hpre p (List.mem_cons_self _ _))]
    exact ih (fun x hx => hpre x (List.mem_cons_of_mem _ hx))

/-- C19 (format selection).  For every non-empty list of available surface
formats, `chooseSwapSurfaceFormat` returns the first entry whose format is
`B8G8R8A8_SRGB` and whose colour space is `SRGB_NONLINEAR` if the list has such
an entry, and the first entry of the list otherwise. -/
theorem format_selection (available_formats : List VkSurfaceFormatKHR)
    (hne : available_formats ≠ []) :
    (∀ (pre post : List VkSurfaceFormatKHR) (f : VkSurfaceFormatKHR),
        available_formats = pre ++ f :: post →
        (f.format = VK_FORMAT_B8G8R8A8_SRGB ∧ f.colorSpace = VK_COLOR_SPACE_SRGB_NONLINEAR_KHR) →
        (∀ x ∈ pre, ¬ (x.format = VK_FORMAT_B8G8R8A8_SRGB
          ∧ x.colorSpace = VK_COLOR_SPACE_SRGB_NONLINEAR_KHR)) →
        chooseSwapSurfaceFormat available_formats = f)
    ∧ ((∀ x ∈ available_formats, ¬ (x.format = VK_FORMAT_B8G8R8A8_SRGB
          ∧ x.colorSpace = VK_COLOR_SPACE_SRGB_NONLINEAR_KHR)) →
        chooseSwapSurfaceFormat available_formats = available_formats.head hne) := by
  constructor
  · intro pre post f hsplit hf hpre
    rw [hsplit]
    simp only [chooseSwapSurfaceFormat, findPreferredFormat_first pre post f hf hpre]
  · intro hnone
    simp only [chooseSwapSurfaceFormat, findPreferredFormat_none available_formats hnone]
    cases available_formats with
    | nil => exact absurd rfl hne
    | cons f rest => rfl

/-- Of the formats (44, 0), (50, 0), (50, 0) the second is chosen; of
(44, 0), (50, 1) the first. -/
theorem format_selection_witness :
    ([⟨44, 0⟩, ⟨50, 0⟩, ⟨50, 0⟩] : List VkSurfaceFormatKHR) ≠ []
      ∧ chooseSwapSurfaceFormat [⟨44, 0⟩, ⟨50, 0⟩, ⟨50, 0⟩] = ⟨50, 0⟩
      ∧ chooseSwapSurfaceFormat [⟨44, 0⟩, ⟨50, 1⟩] = ⟨44, 0⟩ :=
  ⟨by decide,
    (format_selection [⟨44, 0⟩, ⟨50, 0⟩, ⟨50, 0⟩] (by decide)).1 [⟨44, 0⟩] [⟨50, 0⟩] ⟨50, 0⟩ rfl
      (by decide) (by decide),
    (format_selection [⟨44, 0⟩, ⟨50, 1⟩] (by decide)).2 (by decide)⟩

/-- C20 (present-mode selection).  For every list of available present modes,
the empty list included, `chooseSwapPresentMode` returns `MAILBOX` if and only
if `MAILBOX` occurs in the list, and returns `FIFO` otherwise. -/
theorem present_mode_selection (available_present_modes : List Nat) :
    (chooseSwapPresentMode available_present_modes = VK_PRESENT_MODE_MAILBOX_KHR
        ↔ VK_PRESENT_MODE_MAILBOX_KHR ∈ available_present_modes)
    ∧ (VK_PRESENT_MODE_MAILBOX_KHR ∉ available_present_modes →
        chooseSwapPresentMode available_present_modes = VK_PRESENT_MODE_FIFO_KHR) := by
  induction available_present_modes with
  | nil =>
    refine ⟨⟨fun h => ?_, fun h => ?_⟩, fun _ => rfl⟩
    · simp [chooseSwapPresentMode, VK_PRESENT_MODE_FIFO_KHR, VK_PRESENT_MODE_MAILBOX_KHR] at h
    · simp at h
  | cons m rest ih =>
    by_cases hm : m = VK_PRESENT_MODE_MAILBOX_KHR
    · refine ⟨⟨fun _ => ?_, fun _ => ?_⟩, fun h => ?_⟩
      · rw [hm]; exact List.mem_cons_self _ _
      · simp [chooseSwapPresentMode, hm]
      · exact absurd (by rw [hm]; exact List.mem_cons_self _ _) h
    · have hm2 : VK_PRESENT_MODE_MAILBOX_KHR ≠ m := fun h => hm h.symm
      simp only [chooseSwapPresentMode, if_neg hm, List.mem_cons, hm2, false_or]
      exact ih

/-- The modes IMMEDIATE, FIFO give FIFO; the modes FIFO, MAILBOX give MAILBOX;
no modes give FIFO. -/
theorem present_mode_selection_witness :
    VK_PRESENT_MODE_MAILBOX_KHR ∉ [0, VK_PRESENT_MODE_FIFO_KHR]
      ∧ chooseSwapPresentMode [0, VK_PRESENT_MODE_FIFO_KHR] = VK_PRESENT_MODE_FIFO_KHR
      ∧ chooseSwapPresentMode [VK_PRESENT_MODE_FIFO_KHR, VK_PRESENT_MODE_MAILBOX_KHR]
          = VK_PRESENT_MODE_MAILBOX_KHR
      ∧ chooseSwapPresentMode [] = VK_PRESENT_MODE_FIFO_KHR :=
  ⟨by decide, (present_mode_selection [0, VK_PRESENT_MODE_FIFO_KHR]).2 (by decide),
    (present_mode_selection [VK_PRESENT_MODE_FIFO_KHR, VK_PRESENT_MODE_MAILBOX_KHR]).1.mpr
      (by decide),
    (present_mode_selection []).2 (by decide)⟩

/-- An iteration issues a submission only if the acquire and the recording have
succeeded. -/
theorem reaches_submit (fuel : Nat) (env : FrameEnv) (w : World)
    (h : ∃ c ∈ (drawFrame fuel env w).calls, c.kind = .submit) :
    (env.acquire_result = VK_SUCCESS ∨ env.acquire_result = VK_SUBOPTIMAL_KHR)
      ∧ env.begin_result = VK_SUCCESS ∧ env.end_result = VK_SUCCESS := by
  obtain ⟨c, hc, hk⟩ := h
  by_cases hacq : env.acquire_result = VK_SUCCESS ∨ env.acquire_result = VK_SUBOPTIMAL_KHR
  · have hno : ∀ x ∈ acquireCalls w.app ++ beginCalls w.app
        ++ recordCalls w.app env.image_index, x.kind ≠ .submit := by
      simp [acquireCalls, beginCalls, recordCalls, Call.kind]
    rcases drawFrame_drawing fuel env w hacq with
      ⟨_, e⟩ | ⟨_, _, e⟩ | ⟨hb, he, _, e⟩ | ⟨hb, he, _, _, e⟩ | ⟨hb, he, _, _, e⟩
    · exfalso
      rw [e] at hc
      exact hno c (by simp only [List.mem_append] at hc ⊢; tauto) hk
    · exfalso
      rw [e] at hc
      exact hno c hc hk
    · exact ⟨hacq, hb, he⟩
    · exact ⟨hacq, hb, he⟩
    · exact ⟨hacq, hb, he⟩
  · exfalso
    simp only [not_or] at hacq
    by_cases hood : env.acquire_result = VK_ERROR_OUT_OF_DATE_KHR
    · rw [drawFrame_out_of_date_calls fuel env w hood] at hc
      simp only [List.mem_cons] at hc
      rcases hc with rfl | rfl | rfl | hc
      · simp [Call.kind] at hk
      · simp [Call.kind] at hk
      · simp [Call.kind] at hk
      · have hr := emits_recreateSwapchainBody fuel env.recreate w c hc
        simp [Call.isRecreation, hk] at hr
    · rw [drawFrame_acquire_error fuel env w hood hacq.1 hacq.2] at hc
      simp only [acquireCalls, List.mem_cons, List.mem_singleton, List.not_mem_nil,
        or_false] at hc
      rcases hc with rfl | rfl <;> simp [Call.kind] at hk

/-- C11 (submission failure is fatal).  An iteration of `drawFrame` that
issues the queue submission raises "failed to submit draw command buffer!" if
and only if the result of the submission is not success.  When it raises, the
submission is the last call issued, no present call is issued, and the state,
with it the slot index, is as it was. -/
theorem submission_failure_fatal (fuel : Nat) (env : FrameEnv) (w : World)
    (hreach : ∃ c ∈ (drawFrame fuel env w).calls, c.kind = .submit) :
    ((drawFrame fuel env w).outcome = .raised "failed to submit draw command buffer!"
        ↔ env.submit_result ≠ VK_SUCCESS)
    ∧ ((∃ what, (drawFrame fuel env w).outcome = .raised what
          ∧ (drawFrame fuel env w).calls.getLast? = some (submitCall w.app))
        ↔ env.submit_result ≠ VK_SUCCESS)
    ∧ (env.submit_result ≠ VK_SUCCESS →
        (∀ c ∈ (drawFrame fuel env w).calls, c.kind ≠ .present)
          ∧ (drawFrame fuel env w).world = w
          ∧ (drawFrame fuel env w).world.app.m_current_frame = w.app.m_current_frame) := by
  obtain ⟨hacq, hb, he⟩ := reaches_submit fuel env w hreach
  rcases drawFrame_drawing fuel env w hacq with
    ⟨hb1, _⟩ | ⟨_, he1, _⟩ | ⟨_, _, hs, e⟩ | ⟨_, _, hs, _, e⟩ | ⟨_, _, hs, _, e⟩
  · exact absurd hb hb1
  · exact absurd he he1
  · rw [e]
    refine ⟨⟨fun _ => hs, fun _ => rfl⟩, ⟨fun _ => hs, fun _ => ⟨_, rfl, by simp⟩⟩, fun _ => ?_⟩
    exact ⟨no_present_before w.app env.image_index, rfl, rfl⟩
  · rw [e]
    refine ⟨⟨fun h => ?_, fun h => absurd hs h⟩, ⟨fun h => ?_, fun h => absurd hs h⟩,
      fun h => absurd hs h⟩
    · simp at h
    · obtain ⟨_, _, hl⟩ := h
      simp [frameCalls, submitCall, presentCall] at hl
  · rw [e]
    refine ⟨⟨fun h => ?_, fun h => absurd hs h⟩, ⟨fun h => ?_, fun h => absurd hs h⟩,
      fun h => absurd hs h⟩
    · simp at h
    · obtain ⟨_, h, _⟩ := h
      simp at h

/-- A submission that reports the loss of the device is fatal: the frame ends
at the submission, in slot 0. -/
theorem submission_failure_fatal_witness :
    (∃ c ∈ (drawFrame 0 lostSubmitFrame sampleWorld).calls, c.kind = .submit)
      ∧ lostSubmitFrame.submit_result ≠ VK_SUCCESS
      ∧ (drawFrame 0 lostSubmitFrame sampleWorld).outcome
          = .raised "failed to submit draw command buffer!"
      ∧ (drawFrame 0 lostSubmitFrame sampleWorld).world.app.m_current_frame = 0 :=
  ⟨by decide!, by decide,
    (submission_failure_fatal 0 lostSubmitFrame sampleWorld (by decide!)).1.mpr (by decide),
    ((submission_failure_fatal 0 lostSubmitFrame sampleWorld (by decide!)).2.2
      (by decide)).2.2⟩

/-- The body of a recreation is its three stages in a row. -/
theorem recreateSwapchainBody_stages (fuel : Nat) (env : RecreateEnv) :
    recreateSwapchainBody fuel env
      = (recreateStall fuel env).andThen
          (fun n => recreateTeardown.andThen (fun _ => recreateRebuild env n)) := by
  simp only [recreateSwapchainBody, recreateStall, recreateTeardown, recreateRebuild,
    bind_eq_andThen, andThen_assoc]

theorem map_at_range (v : List Handle) : (List.range v.length).map (at_ v) = v := by
  apply List.ext_getElem
  · simp
  · intro i h1 h2
    simp [at_, List.getElem?_eq_getElem h2]

theorem forEach_emit {α : Type} (f : α → Call) (xs : List α) (w : World) :
    forEach (fun x => emit (f x)) xs w = ⟨.returned (), w, xs.map f⟩ := by
  induction xs with
  | nil => rfl
  | cons x rest ih =>
    simp only [forEach, bind_eq_andThen, emit_andThen, ih, List.map_cons]

theorem cleanupSwapchain_run (w : World) :
    cleanupSwapchain w = ⟨.returned (), w,
      w.app.m_swapchain_framebuffers.map .vkDestroyFramebuffer
        ++ (List.range w.app.m_swapchain_framebuffers.length).map
            (fun i => .vkDestroyImageView (at_ w.app.m_swapchain_views i))
        ++ [.vkDestroySwapchainKHR w.app.m_swapchain]⟩ := by
  have h1 : (List.range w.app.m_swapchain_framebuffers.length).map
      (fun i => Call.vkDestroyFramebuffer (at_ w.app.m_swapchain_framebuffers i))
        = w.app.m_swapchain_framebuffers.map .vkDestroyFramebuffer := by
    conv_rhs => rw [← map_at_range w.app.m_swapchain_framebuffers]
    rw [List.map_map]
    rfl
  simp only [cleanupSwapchain, bind_eq_andThen, getApp_andThen]
  rw [andThen_of_returned _ _ _ () (by rw [forEach_emit])]
  rw [andThen_of_returned _ _ _ () (by rw [forEach_emit, forEach_emit])]
  simp only [forEach_emit, emit_run, h1, List.append_assoc]

theorem destroySyncObjects_run (w : World) :
    forEach destroySyncObjectsAt (List.range MAX_FRAMES_IN_FLIGHT) w = ⟨.returned (), w,
      [.vkDestroySemaphore (at_ w.app.m_image_available 0),
        .vkDestroySemaphore (at_ w.app.m_render_finished 0),
        .vkDestroyFence (at_ w.app.m_in_flight_frame 0),
        .vkDestroySemaphore (at_ w.app.m_image_available 1),
        .vkDestroySemaphore (at_ w.app.m_render_finished 1),
        .vkDestroyFence (at_ w.app.m_in_flight_frame 1)]⟩ := by
  have h : List.range MAX_FRAMES_IN_FLIGHT = [0, 1] := by decide
  simp [h, forEach, destroySyncObjectsAt]

/-- The teardown always returns, changes nothing in the application, and issues
the device-idle wait followed by the destroy calls. -/
theorem recreateTeardown_run (w : World) :
    recreateTeardown w = ⟨.returned (), w, .vkDeviceWaitIdle :: teardownCalls w.app⟩ := by
  simp only [recreateTeardown, bind_eq_andThen, emit_andThen]
  rw [andThen_of_returned _ _ _ () (by rw [cleanupSwapchain_run])]
  simp only [cleanupSwapchain_run, getApp_andThen, emit_andThen, destroySyncObjects_run,
    teardownCalls, List.append_assoc, List.cons_append, List.nil_append]

theorem emits_createSwapchainWithParams {P : Call → Bool} (env : RecreateEnv)
    (hc : ∀ c, c.kind = .create → P c = true) : Emits P (createSwapchainWithParams env) := by
  unfold createSwapchainWithParams
  refine emits_bind emits_getApp (fun a => ?_)
  refine emits_bind (emits_create _ (hc _ (swapchainCreateInfo_kind _ _ _))) (fun r => ?_)
  exact emits_ite _ (emits_raise _) (emits_pure _)

theorem emits_getSwapchainImages {P : Call → Bool} (env : RecreateEnv) :
    Emits P (getSwapchainImages env) := by
  unfold getSwapchainImages
  refine emits_ite _ (emits_raise _) ?_
  refine emits_bind (emits_swapchainImages _) (fun _ => ?_)
  exact emits_ite _ (emits_raise _) (emits_pure _)

theorem emits_createRenderPass {P : Call → Bool} (env : RecreateEnv)
    (hc : ∀ c, c.kind = .create → P c = true) : Emits P (createRenderPass env) := by
  unfold createRenderPass
  refine emits_bind emits_getApp (fun a => ?_)
  refine emits_bind (emits_create _ (hc _ rfl)) (fun r => ?_)
  exact emits_ite _ (emits_raise _) (emits_modifyApp _)

theorem emits_createPipeline {P : Call → Bool} (env : RecreateEnv) (render_pass : Handle)
    (hc : ∀ c, c.kind = .create → P c = true) : Emits P (createPipeline env render_pass) := by
  unfold createPipeline
  refine emits_bind (emits_create _ (hc _ rfl)) (fun r => ?_)
  refine emits_ite _ (emits_raise _) ?_
  refine emits_bind (emits_modifyApp _) (fun _ => ?_)
  refine emits_bind (emits_create _ (hc _ rfl)) (fun r => ?_)
  exact emits_ite _ (emits_raise _) (emits_modifyApp _)

/-- The rebuild observes the framebuffer size once if the surface reports the
undefined current extent, and not at all otherwise; every other call of it is a
create call. -/
theorem recreateRebuild_calls (env : RecreateEnv) (n : Nat) (w : World) :
    ∃ creates, (recreateRebuild env n w).calls
        = (if env.support.capabilities.currentExtent.width ≠ UINT32_MAX then []
            else [.glfwGetFramebufferSize (env.sizes n).1 (env.sizes n).2]) ++ creates
      ∧ ∀ c ∈ creates, c.kind = .create := by
  have hc : ∀ c : Call, c.kind = .create → decide (c.kind = .create) = true := by
    intro c h; simp [h]
  have htail : ∀ extent : VkExtent2D, Emits (fun c => decide (c.kind = .create))
      ((modifyApp (fun a => { a with m_swapchain_params :=
          { a.m_swapchain_params with extent := extent } })).andThen fun _ =>
        (createSwapchainWithParams env).andThen fun swap_chain =>
        (modifyApp (fun a => { a with m_swapchain := swap_chain })).andThen fun _ =>
        (getSwapchainImages env).andThen fun swapchain_images =>
        (modifyApp (fun a => { a with m_swapchain_images := swapchain_images })).andThen fun _ =>
        getApp.andThen fun a =>
        (getImageViews env a.m_swapchain_params.surface_format a.m_swapchain_images).andThen
          fun image_views =>
        (modifyApp (fun a => { a with m_swapchain_views := image_views })).andThen fun _ =>
        getApp.andThen fun a =>
        (getImageViews env a.m_swapchain_params.surface_format a.m_swapchain_images).andThen
          fun image_views =>
        (modifyApp (fun a => { a with m_swapchain_views := image_views })).andThen fun _ =>
        (createRenderPass env).andThen fun _ =>
        getApp.andThen fun a =>
        (createPipeline env a.m_render_pass).andThen fun _ =>
        getApp.andThen fun a =>
        (createFramebuffers env a.m_swapchain_params.extent a.m_render_pass
          a.m_swapchain_views).andThen fun _ =>
        createSyncObjects env) := by
    intro extent
    refine emits_andThen (emits_modifyApp _) (fun _ => ?_)
    refine emits_andThen (emits_createSwapchainWithParams env hc) (fun _ => ?_)
    refine emits_andThen (emits_modifyApp _) (fun _ => ?_)
    refine emits_andThen (emits_getSwapchainImages env) (fun _ => ?_)
    refine emits_andThen (emits_modifyApp _) (fun _ => ?_)
    refine emits_andThen emits_getApp (fun a => ?_)
    refine emits_andThen (emits_getImageViews _ _ hc _) (fun _ => ?_)
    refine emits_andThen (emits_modifyApp _) (fun _ => ?_)
    refine emits_andThen emits_getApp (fun a => ?_)
    refine emits_andThen (emits_getImageViews _ _ hc _) (fun _ => ?_)
    refine emits_andThen (emits_modifyApp _) (fun _ => ?_)
    refine emits_andThen (emits_createRenderPass env hc) (fun _ => ?_)
    refine emits_andThen emits_getApp (fun a => ?_)
    refine emits_andThen (emits_createPipeline env _ hc) (fun _ => ?_)
    refine emits_andThen emits_getApp (fun a => ?_)
    refine emits_andThen (emits_createFramebuffers _ _ _ hc _) (fun _ => ?_)
    exact emits_createSyncObjects env hc
  simp only [recreateRebuild, createSwapchain, chooseSwapExtentM, bind_eq_andThen, pure_eq_ret,
    andThen_assoc, modifyApp_andThen, getApp_andThen, ite_andThen, ret_andThen]
  by_cases hd : env.support.capabilities.currentExtent.width ≠ UINT32_MAX
  · simp only [hd, if_true, ne_eq, not_false_eq_true, List.nil_append, ret_andThen]
    refine ⟨_, rfl, fun c hcm => ?_⟩
    simpa using htail _ _ c hcm
  · simp only [hd, if_false, emit_andThen, ret_andThen, List.singleton_append]
    refine ⟨_, rfl, fun c hcm => ?_⟩
    simpa using htail _ _ c hcm

/-- The wait for a nonzero size never throws. -/
theorem waitWhileMinimized_outcome (env : RecreateEnv) (fuel : Nat) :
    ∀ (n : Nat) (size : Int × Int) (w : World),
      (∃ k, (waitWhileMinimized env fuel n size w).outcome = .returned k)
        ∨ (waitWhileMinimized env fuel n size w).outcome = .blocked := by
  induction fuel with
  | zero =>
    intro n size w
    by_cases hz : size.1 = 0 ∨ size.2 = 0
    · right; simp [waitWhileMinimized, hz, block]
    · left; exact ⟨n, by simp [waitWhileMinimized, hz]⟩
  | succ fuel ih =>
    intro n size w
    by_cases hz : size.1 = 0 ∨ size.2 = 0
    · simp only [waitWhileMinimized, hz, if_true, bind_eq_andThen, emit_andThen]
      by_cases hr : env.wait_resized n = true
      · simp only [hr, if_true, framebuffer_resize_callback, modifyApp_andThen]
        exact ih _ _ _
      · simp only [hr, Bool.false_eq_true, if_false, pure_eq_ret, ret_andThen]
        exact ih _ _ _
    · left; exact ⟨n, by simp [waitWhileMinimized, hz]⟩

theorem keeps_objects_waitWhileMinimized (env : RecreateEnv) (fuel : Nat) :
    ∀ (n : Nat) (size : Int × Int),
      Keeps swapchainObjects (waitWhileMinimized env fuel n size) := by
  induction fuel with
  | zero =>
    intro n size
    exact keeps_ite _ keeps_block (keeps_pure _)
  | succ fuel ih =>
    intro n size
    refine keeps_ite _ ?_ (keeps_pure _)
    refine keeps_bind (keeps_emit _) (fun _ => ?_)
    refine keeps_bind (keeps_emit _) (fun _ => ?_)
    refine keeps_bind ?_ (fun _ => ih _ _)
    exact keeps_ite _ (keeps_modifyApp (fun _ => rfl)) (keeps_pure _)

/-- The stall never throws, issues calls to the window system only, and leaves
the objects of the application as they are. -/
theorem recreateStall_run (fuel : Nat) (env : RecreateEnv) (w : World) :
    ((∃ k, (recreateStall fuel env w).outcome = .returned k)
        ∨ (recreateStall fuel env w).outcome = .blocked)
      ∧ (∀ c ∈ (recreateStall fuel env w).calls, c.kind = .window)
      ∧ swapchainObjects (recreateStall fuel env w).world.app = swapchainObjects w.app := by
  refine ⟨?_, ?_, ?_⟩
  · simp only [recreateStall, bind_eq_andThen, emit_andThen]
    exact waitWhileMinimized_outcome env fuel _ _ _
  · have h : Emits (fun c => decide (c.kind = .window)) (recreateStall fuel env) := by
      unfold recreateStall
      refine emits_bind (emits_emit (by rfl)) (fun _ => ?_)
      exact emits_waitWhileMinimized env (fun c hc => by simp [hc]) fuel _ _
    intro c hc
    simpa using h w c hc
  · have h : Keeps swapchainObjects (recreateStall fuel env) := by
      unfold recreateStall
      exact keeps_bind (keeps_emit _) (fun _ => keeps_objects_waitWhileMinimized env fuel _ _)
    exact h w

/-- The calls of a whole recreation: either it is still waiting for a nonzero
size, or it has issued the device-idle wait, the destroy calls and then the
calls of the rebuild. -/
theorem recreateSwapchain_stages (fuel : Nat) (env : RecreateEnv) (w : World) :
    ((recreateSwapchain fuel env w).outcome = .blocked
        ∧ (recreateSwapchain fuel env w).calls
            = .recreateSwapchain :: (recreateStall fuel env w).calls)
    ∨ (∃ k, (recreateStall fuel env w).outcome = .returned k
        ∧ (recreateSwapchain fuel env w).outcome
            = (recreateRebuild env k (recreateStall fuel env w).world).outcome
        ∧ (recreateSwapchain fuel env w).calls
            = .recreateSwapchain :: ((recreateStall fuel env w).calls
                ++ .vkDeviceWaitIdle :: (teardownCalls w.app
                ++ (recreateRebuild env k (recreateStall fuel env w).world).calls))) := by
  obtain ⟨hout, _, hobj⟩ := recreateStall_run fuel env w
  have htd : teardownCalls (recreateStall fuel env w).world.app = teardownCalls w.app := by
    simp only [swapchainObjects, Prod.mk.injEq] at hobj
    obtain ⟨h1, h2, h3, h4, h5, h6, h7, h8, h9⟩ := hobj
    simp only [teardownCalls, h1, h2, h3, h4, h5, h6, h7, h8, h9]
  simp only [recreateSwapchain, bind_eq_andThen, emit_andThen, recreateSwapchainBody_stages]
  rcases hout with ⟨k, hk⟩ | hb
  · right
    refine ⟨k, hk, ?_, ?_⟩
    · rw [andThen_of_returned _ _ _ k hk]
      simp only
      rw [andThen_of_returned _ _ _ () (by rw [recreateTeardown_run])]
      simp only [recreateTeardown_run]
    · rw [andThen_of_returned _ _ _ k hk]
      simp only
      rw [andThen_of_returned _ _ _ () (by rw [recreateTeardown_run])]
      simp only [recreateTeardown_run, htd, List.cons_append]
  · left
    have hn : ∀ a, (recreateStall fuel env w).outcome ≠ .returned a := by
      intro a ha; rw [hb] at ha; simp at ha
    have h := andThen_of_not_returned (recreateStall fuel env)
      (fun n => recreateTeardown.andThen (fun _ => recreateRebuild env n)) w hn
    refine ⟨?_, by rw [h.1]⟩
    simp only [M.andThen]
    rcases hs : recreateStall fuel env w with ⟨o, w1, cs⟩
    rw [hs] at hb
    simp only at hb
    subst hb
    rfl

theorem waitWhileMinimized_nonzero (env : RecreateEnv) (fuel n : Nat) (size : Int × Int)
    (w : World) (h : ¬ (size.1 = 0 ∨ size.2 = 0)) :
    waitWhileMinimized env fuel n size w = ⟨.returned n, w, []⟩ := by
  cases fuel <;> simp [waitWhileMinimized, h]

/-- The loop of the stall when the next `j` observations are zero and the one
after them is not: `j + 1` passes, each an observation and a wait. -/
theorem waitWhileMinimized_exact (env : RecreateEnv) (j : Nat) :
    ∀ (fuel n : Nat) (size : Int × Int) (w : World),
      (size.1 = 0 ∨ size.2 = 0) →
      (∀ i < j, (env.sizes (n + i)).1 = 0 ∨ (env.sizes (n + i)).2 = 0) →
      ¬ ((env.sizes (n + j)).1 = 0 ∨ (env.sizes (n + j)).2 = 0) →
      j < fuel →
      (waitWhileMinimized env fuel n size w).outcome = .returned (n + j + 1)
        ∧ (waitWhileMinimized env fuel n size w).calls = observeAndWait env n (j + 1) := by
  induction j with
  | zero =>
    intro fuel n size w hz _ hnz hf
    obtain ⟨f, rfl⟩ : ∃ f, fuel = f + 1 := ⟨fuel - 1, by omega⟩
    simp only [Nat.add_zero] at hnz
    simp only [waitWhileMinimized, hz, if_true, bind_eq_andThen, emit_andThen, observeAndWait]
    by_cases hr : env.wait_resized n = true
    · simp only [hr, if_true, framebuffer_resize_callback, modifyApp_andThen,
        waitWhileMinimized_nonzero env f (n + 1) _ _ hnz]
      exact ⟨trivial, trivial⟩
    · simp only [hr, Bool.false_eq_true, if_false, pure_eq_ret, ret_andThen,
        waitWhileMinimized_nonzero env f (n + 1) _ _ hnz]
      exact ⟨trivial, trivial⟩
  | succ j ih =>
    intro fuel n size w hz hzero hnz hf
    obtain ⟨f, rfl⟩ : ∃ f, fuel = f + 1 := ⟨fuel - 1, by omega⟩
    have hz0 : (env.sizes n).1 = 0 ∨ (env.sizes n).2 = 0 := by
      simpa using hzero 0 (by omega)
    have hzero1 : ∀ i < j, (env.sizes (n + 1 + i)).1 = 0 ∨ (env.sizes (n + 1 + i)).2 = 0 := by
      intro i hi
      have := hzero (i + 1) (by omega)
      rwa [show n + (i + 1) = n + 1 + i by omega] at this
    have hnz1 : ¬ ((env.sizes (n + 1 + j)).1 = 0 ∨ (env.sizes (n + 1 + j)).2 = 0) := by
      rwa [show n + (j + 1) = n + 1 + j by omega] at hnz
    have hres : ∀ w1 : World,
        (waitWhileMinimized env f (n + 1) (env.sizes n) w1).outcome = .returned (n + (j + 1) + 1)
          ∧ (waitWhileMinimized env f (n + 1) (env.sizes n) w1).calls
              = observeAndWait env (n + 1) (j + 1) := by
      intro w1
      have := ih f (n + 1) (env.sizes n) w1 hz0 hzero1 hnz1 (by omega)
      rwa [show n + 1 + j + 1 = n + (j + 1) + 1 by omega] at this
    rw [observeAndWait]
    simp only [waitWhileMinimized, hz, if_true, bind_eq_andThen, emit_andThen]
    by_cases hr : env.wait_resized n = true
    · simp only [hr, if_true, framebuffer_resize_callback, modifyApp_andThen]
      exact ⟨(hres _).1, by rw [(hres _).2]⟩
    · simp only [hr, Bool.false_eq_true, if_false, pure_eq_ret, ret_andThen]
      exact ⟨(hres _).1, by rw [(hres _).2]⟩

/-- The stall when the first `m` observations are zero and the next is not:
it returns after `m + 1` observations and `m` waits. -/
theorem recreateStall_exact (fuel : Nat) (env : RecreateEnv) (w : World) (m : Nat)
    (hzero : ∀ i < m, (env.sizes i).1 = 0 ∨ (env.sizes i).2 = 0)
    (hsize : ¬ ((env.sizes m).1 = 0 ∨ (env.sizes m).2 = 0))
    (hfuel : m ≤ fuel) :
    (recreateStall fuel env w).outcome = .returned (m + 1)
      ∧ (recreateStall fuel env w).calls
          = .glfwGetFramebufferSize (env.sizes 0).1 (env.sizes 0).2 :: observeAndWait env 1 m := by
  simp only [recreateStall, bind_eq_andThen, emit_andThen]
  cases m with
  | zero =>
    simp only [waitWhileMinimized_nonzero env fuel 1 _ w hsize, observeAndWait]
    exact ⟨trivial, trivial⟩
  | succ j =>
    have hz0 := hzero 0 (by omega)
    have hzero1 : ∀ i < j, (env.sizes (1 + i)).1 = 0 ∨ (env.sizes (1 + i)).2 = 0 := by
      intro i hi
      exact hzero (1 + i) (by omega)
    have hnz : ¬ ((env.sizes (1 + j)).1 = 0 ∨ (env.sizes (1 + j)).2 = 0) := by
      rwa [show 1 + j = j + 1 by omega]
    obtain ⟨h1, h2⟩ := waitWhileMinimized_exact env j fuel 1 (env.sizes 0) w hz0 hzero1 hnz
      (by omega)
    refine ⟨?_, by rw [h2]⟩
    rw [h1, show 1 + j + 1 = j + 1 + 1 by omega]

theorem observeAndWait_counts (env : RecreateEnv) (j : Nat) :
    ∀ n, (observeAndWait env n j).countP Call.isSizeObservation = j
      ∧ (observeAndWait env n j).count .glfwWaitEvents = j
      ∧ ∀ c ∈ observeAndWait env n j, c.kind = .window := by
  induction j with
  | zero => intro n; simp [observeAndWait]
  | succ j ih =>
    intro n
    obtain ⟨h1, h2, h3⟩ := ih (n + 1)
    refine ⟨?_, ?_, ?_⟩
    · simp [observeAndWait, Call.isSizeObservation, h1]
    · simp [observeAndWait, h2]
    · intro c hc
      simp only [observeAndWait, List.mem_cons] at hc
      rcases hc with rfl | rfl | hc
      · rfl
      · rfl
      · exact h3 c hc

theorem teardownCalls_kind (a : App) : ∀ c ∈ teardownCalls a, c.kind = .destroy := by
  intro c hc
  simp only [teardownCalls, List.mem_append, List.mem_map, List.mem_cons, List.mem_singleton,
    List.not_mem_nil, or_false] at hc
  rcases hc with ((⟨_, _, rfl⟩ | ⟨_, _, rfl⟩) | (rfl | rfl | rfl | rfl))
    | (rfl | rfl | rfl | rfl | rfl | rfl) <;> rfl

theorem neverBlocks_andThen {α β : Type} {m : M α} {f : α → M β}
    (hm : NeverBlocks m) (hf : ∀ a, NeverBlocks (f a)) : NeverBlocks (m.andThen f) := by
  intro w
  have hmw := hm w
  simp only [M.andThen]
  rcases h : m w with ⟨o, w1, cs⟩
  rw [h] at hmw
  cases o with
  | returned a => exact hf a w1
  | raised e => simp
  | blocked => exact absurd rfl hmw

theorem neverBlocks_bind {α β : Type} {m : M α} {f : α → M β}
    (hm : NeverBlocks m) (hf : ∀ a, NeverBlocks (f a)) : NeverBlocks (m >>= f) :=
  neverBlocks_andThen hm hf

theorem neverBlocks_emit (c : Call) : NeverBlocks (emit c) := by
  intro w; simp

theorem neverBlocks_pure {α : Type} (a : α) : NeverBlocks (pure a : M α) := by
  intro w; simp

theorem neverBlocks_raise {α : Type} (e : String) : NeverBlocks (raise e : M α) := by
  intro w; simp

theorem neverBlocks_getApp : NeverBlocks getApp := by
  intro w; simp [getApp]

theorem neverBlocks_modifyApp (g : App → App) : NeverBlocks (modifyApp g) := by
  intro w; simp

theorem neverBlocks_create (c : Call) (r : Nat → VkResult) : NeverBlocks (create c r) := by
  intro w; simp [create]

theorem neverBlocks_swapchainImages (n : Nat) : NeverBlocks (swapchainImages n) := by
  intro w; simp [swapchainImages]

theorem neverBlocks_ite {α : Type} (c : Prop) [Decidable c] {m1 m2 : M α}
    (h1 : NeverBlocks m1) (h2 : NeverBlocks m2) : NeverBlocks (if c then m1 else m2) := by
  split
  · exact h1
  · exact h2

theorem neverBlocks_forEach {α : Type} {f : α → M Unit} (h : ∀ x, NeverBlocks (f x))
    (xs : List α) : NeverBlocks (forEach f xs) := by
  induction xs with
  | nil => exact neverBlocks_pure ()
  | cons x rest ih => exact neverBlocks_bind (h x) (fun _ => ih)

theorem neverBlocks_getImageViews (env : RecreateEnv) (fmt : VkSurfaceFormatKHR)
    (images : List Handle) : NeverBlocks (getImageViews env fmt images) := by
  induction images with
  | nil => exact neverBlocks_pure []
  | cons image rest ih =>
    refine neverBlocks_bind (neverBlocks_create _ _) (fun r => ?_)
    exact neverBlocks_ite _ (neverBlocks_raise _)
      (neverBlocks_bind ih (fun _ => neverBlocks_pure _))

theorem neverBlocks_createFramebuffers (env : RecreateEnv) (extent : VkExtent2D)
    (render_pass : Handle) (views : List Handle) :
    NeverBlocks (createFramebuffers env extent render_pass views) := by
  induction views with
  | nil => exact neverBlocks_pure []
  | cons view rest ih =>
    refine neverBlocks_bind (neverBlocks_create _ _) (fun r => ?_)
    exact neverBlocks_ite _ (neverBlocks_raise _)
      (neverBlocks_bind ih (fun _ => neverBlocks_pure _))

theorem neverBlocks_createSwapchain (env : RecreateEnv) (n : Nat) :
    NeverBlocks (createSwapchain env n) := by
  unfold createSwapchain
  refine neverBlocks_bind (neverBlocks_modifyApp _) (fun _ => ?_)
  refine neverBlocks_bind (neverBlocks_modifyApp _) (fun _ => ?_)
  refine neverBlocks_bind (neverBlocks_modifyApp _) (fun _ => ?_)
  refine neverBlocks_bind neverBlocks_getApp (fun a => ?_)
  refine neverBlocks_bind ?_ (fun _ => ?_)
  · unfold chooseSwapExtentM
    exact neverBlocks_ite _ (neverBlocks_pure _)
      (neverBlocks_bind (neverBlocks_emit _) (fun _ => neverBlocks_pure _))
  refine neverBlocks_bind (neverBlocks_modifyApp _) (fun _ => ?_)
  refine neverBlocks_bind ?_ (fun _ => ?_)
  · unfold createSwapchainWithParams
    refine neverBlocks_bind neverBlocks_getApp (fun a => ?_)
    refine neverBlocks_bind (neverBlocks_create _ _) (fun r => ?_)
    exact neverBlocks_ite _ (neverBlocks_raise _) (neverBlocks_pure _)
  refine neverBlocks_bind (neverBlocks_modifyApp _) (fun _ => ?_)
  refine neverBlocks_bind ?_ (fun _ => ?_)
  · unfold getSwapchainImages
    refine neverBlocks_ite _ (neverBlocks_raise _) ?_
    refine neverBlocks_bind (neverBlocks_swapchainImages _) (fun _ => ?_)
    exact neverBlocks_ite _ (neverBlocks_raise _) (neverBlocks_pure _)
  refine neverBlocks_bind (neverBlocks_modifyApp _) (fun _ => ?_)
  refine neverBlocks_bind neverBlocks_getApp (fun a => ?_)
  refine neverBlocks_bind (neverBlocks_getImageViews _ _ _) (fun _ => ?_)
  exact neverBlocks_modifyApp _

theorem neverBlocks_createSyncObjects (env : RecreateEnv) :
    NeverBlocks (createSyncObjects env) := by
  unfold createSyncObjects
  refine neverBlocks_bind (neverBlocks_modifyApp _) (fun _ => ?_)
  refine neverBlocks_bind (neverBlocks_modifyApp _) (fun _ => ?_)
  refine neverBlocks_bind (neverBlocks_modifyApp _) (fun _ => ?_)
  refine neverBlocks_forEach (fun i => ?_) _
  unfold createSyncObjectsAt
  refine neverBlocks_bind (neverBlocks_create _ _) (fun r => ?_)
  refine neverBlocks_ite _ (neverBlocks_raise _) ?_
  refine neverBlocks_bind (neverBlocks_modifyApp _) (fun _ => ?_)
  refine neverBlocks_bind (neverBlocks_create _ _) (fun r => ?_)
  refine neverBlocks_ite _ (neverBlocks_raise _) ?_
  refine neverBlocks_bind (neverBlocks_modifyApp _) (fun _ => ?_)
  refine neverBlocks_bind (neverBlocks_create _ _) (fun r => ?_)
  exact neverBlocks_ite _ (neverBlocks_raise _) (neverBlocks_modifyApp _)

/-- The rebuild has no loop in which it could be left waiting. -/
theorem neverBlocks_recreateRebuild (env : RecreateEnv) (n : Nat) :
    NeverBlocks (recreateRebuild env n) := by
  unfold recreateRebuild
  refine neverBlocks_bind (neverBlocks_createSwapchain env n) (fun _ => ?_)
  refine neverBlocks_bind neverBlocks_getApp (fun a => ?_)
  refine neverBlocks_bind (neverBlocks_getImageViews _ _ _) (fun _ => ?_)
  refine neverBlocks_bind (neverBlocks_modifyApp _) (fun _ => ?_)
  refine neverBlocks_bind ?_ (fun _ => ?_)
  · unfold createRenderPass
    refine neverBlocks_bind neverBlocks_getApp (fun a => ?_)
    refine neverBlocks_bind (neverBlocks_create _ _) (fun r => ?_)
    exact neverBlocks_ite _ (neverBlocks_raise _) (neverBlocks_modifyApp _)
  refine neverBlocks_bind neverBlocks_getApp (fun a => ?_)
  refine neverBlocks_bind ?_ (fun _ => ?_)
  · unfold createPipeline
    refine neverBlocks_bind (neverBlocks_create _ _) (fun r => ?_)
    refine neverBlocks_ite _ (neverBlocks_raise _) ?_
    refine neverBlocks_bind (neverBlocks_modifyApp _) (fun _ => ?_)
    refine neverBlocks_bind (neverBlocks_create _ _) (fun r => ?_)
    exact neverBlocks_ite _ (neverBlocks_raise _) (neverBlocks_modifyApp _)
  refine neverBlocks_bind neverBlocks_getApp (fun a => ?_)
  refine neverBlocks_bind (neverBlocks_createFramebuffers _ _ _ _) (fun _ => ?_)
  exact neverBlocks_createSyncObjects env

/-- What a recreation does once its stall has returned. -/
theorem recreateSwapchain_after_stall (fuel : Nat) (env : RecreateEnv) (w : World) (k : Nat)
    (hk : (recreateStall fuel env w).outcome = .returned k) :
    (recreateSwapchain fuel env w).outcome
        = (recreateRebuild env k (recreateStall fuel env w).world).outcome
      ∧ (recreateSwapchain fuel env w).world
        = (recreateRebuild env k (recreateStall fuel env w).world).world
      ∧ (recreateSwapchain fuel env w).calls
        = .recreateSwapchain :: ((recreateStall fuel env w).calls
            ++ .vkDeviceWaitIdle :: (teardownCalls w.app
            ++ (recreateRebuild env k (recreateStall fuel env w).world).calls)) := by
  obtain ⟨_, _, hobj⟩ := recreateStall_run fuel env w
  have htd : teardownCalls (recreateStall fuel env w).world.app = teardownCalls w.app := by
    simp only [swapchainObjects, Prod.mk.injEq] at hobj
    obtain ⟨h1, h2, h3, h4, h5, h6, h7, h8, h9⟩ := hobj
    simp only [teardownCalls, h1, h2, h3, h4, h5, h6, h7, h8, h9]
  simp only [recreateSwapchain, bind_eq_andThen, emit_andThen, recreateSwapchainBody_stages]
  rw [andThen_of_returned _ _ _ k hk]
  simp only
  rw [andThen_of_returned _ _ _ () (by rw [recreateTeardown_run])]
  simp only [recreateTeardown_run, htd, List.cons_append, and_self]

/-- The order of the teardown.  A call of `recreateSwapchain` that is still waiting
for a nonzero framebuffer size has issued calls to the window system only.
Otherwise its calls are: calls to the window system, the device-idle wait, then
the destroy calls in exactly this order: every framebuffer of
`m_swapchain_framebuffers`, the image views of `m_swapchain_views` at the same
indices (all image views when the two vectors have the same length), the
swapchain, the render pass, the pipeline, the pipeline layout, and for slot 0
and then slot 1 the two semaphores and the fence; and after the last destroy
only create calls and size observations.  So no destroy call comes before the
device-idle wait and no create call before the last destroy. -/
theorem teardown_order (fuel : Nat) (env : RecreateEnv) (w : World) :
    (((recreateSwapchain fuel env w).outcome = .blocked
        ∧ ∀ c ∈ (recreateSwapchain fuel env w).calls, c.kind = .marker ∨ c.kind = .window)
      ∨ (∃ stall rebuild, (recreateSwapchain fuel env w).calls
            = (.recreateSwapchain :: stall)
              ++ (.vkDeviceWaitIdle ::
                (w.app.m_swapchain_framebuffers.map .vkDestroyFramebuffer
                  ++ (List.range w.app.m_swapchain_framebuffers.length).map
                      (fun i => .vkDestroyImageView (at_ w.app.m_swapchain_views i))
                  ++ [.vkDestroySwapchainKHR w.app.m_swapchain,
                      .vkDestroyRenderPass w.app.m_render_pass,
                      .vkDestroyPipeline w.app.m_graphics_pipeline,
                      .vkDestroyPipelineLayout w.app.m_pipeline_layout]
                  ++ [.vkDestroySemaphore (at_ w.app.m_image_available 0),
                      .vkDestroySemaphore (at_ w.app.m_render_finished 0),
                      .vkDestroyFence (at_ w.app.m_in_flight_frame 0),
                      .vkDestroySemaphore (at_ w.app.m_image_available 1),
                      .vkDestroySemaphore (at_ w.app.m_render_finished 1),
                      .vkDestroyFence (at_ w.app.m_in_flight_frame 1)]))
              ++ rebuild
          ∧ (∀ c ∈ stall, c.kind = .window)
          ∧ (∀ c ∈ rebuild, c.kind = .create ∨ c.kind = .window)))
    ∧ (w.app.m_swapchain_views.length = w.app.m_swapchain_framebuffers.length →
        (List.range w.app.m_swapchain_framebuffers.length).map
            (fun i => Call.vkDestroyImageView (at_ w.app.m_swapchain_views i))
          = w.app.m_swapchain_views.map .vkDestroyImageView) := by
  constructor
  · rcases recreateSwapchain_stages fuel env w with ⟨hb, hcalls⟩ | ⟨k, _, _, hcalls⟩
    · left
      refine ⟨hb, fun c hc => ?_⟩
      rw [hcalls] at hc
      rcases List.mem_cons.mp hc with rfl | hc
      · exact Or.inl rfl
      · exact Or.inr ((recreateStall_run fuel env w).2.1 c hc)
    · right
      obtain ⟨creates, hre, hcr⟩ := recreateRebuild_calls env k (recreateStall fuel env w).world
      refine ⟨(recreateStall fuel env w).calls,
        (recreateRebuild env k (recreateStall fuel env w).world).calls, ?_,
        (recreateStall_run fuel env w).2.1, ?_⟩
      · rw [hcalls]
        simp only [teardownCalls, List.cons_append, List.append_assoc, List.nil_append]
      · intro c hc
        rw [hre] at hc
        rcases List.mem_append.mp hc with hc | hc
        · right
          split at hc
          · simp at hc
          · simp only [List.mem_singleton] at hc
            rw [hc]; rfl
        · exact Or.inl (hcr c hc)
  · intro hlen
    rw [← hlen]
    conv_rhs => rw [← map_at_range w.app.m_swapchain_views]
    rw [List.map_map]
    rfl

/-- On the sample state the three image views 7, 8, 9 are destroyed after the
three framebuffers, and the first twenty-one calls of a recreation are the
entry, one size observation, the device-idle wait and the eighteen destroy
calls in order. -/
theorem teardown_order_witness :
    sampleWorld.app.m_swapchain_views.length = sampleWorld.app.m_swapchain_framebuffers.length
      ∧ (List.range sampleWorld.app.m_swapchain_framebuffers.length).map
            (fun i => Call.vkDestroyImageView (at_ sampleWorld.app.m_swapchain_views i))
          = [.vkDestroyImageView 7, .vkDestroyImageView 8, .vkDestroyImageView 9]
      ∧ (recreateSwapchain 0 calmRecreate sampleWorld).calls.take 21
          = [.recreateSwapchain, .glfwGetFramebufferSize 800 600, .vkDeviceWaitIdle,
              .vkDestroyFramebuffer 10, .vkDestroyFramebuffer 11, .vkDestroyFramebuffer 12,
              .vkDestroyImageView 7, .vkDestroyImageView 8, .vkDestroyImageView 9,
              .vkDestroySwapchainKHR 3, .vkDestroyRenderPass 14, .vkDestroyPipeline 15,
              .vkDestroyPipelineLayout 13, .vkDestroySemaphore 18, .vkDestroySemaphore 20,
              .vkDestroyFence 22, .vkDestroySemaphore 19, .vkDestroySemaphore 21,
              .vkDestroyFence 23,
              .vkCreateSwapchainKHR 3 ⟨50, 0⟩ ⟨800, 600⟩ 0 0 [] 2, .vkCreateImageView 26 50] :=
  ⟨rfl, (teardown_order 0 calmRecreate sampleWorld).2 rfl, by decide!⟩

/-- With a window that is never minimized and a surface that reports the
undefined current extent, a recreation observes the framebuffer size twice:
once before the teardown and once more in `chooseSwapExtent`. -/
theorem second_size_observation :
    ¬ ((undefinedExtentRecreate.sizes 0).1 = 0 ∨ (undefinedExtentRecreate.sizes 0).2 = 0)
      ∧ (recreateSwapchain 0 undefinedExtentRecreate sampleWorld).outcome = .returned ()
      ∧ (recreateSwapchain 0 undefinedExtentRecreate sampleWorld).calls.countP
          Call.isSizeObservation = 2
      ∧ (recreateSwapchain 0 undefinedExtentRecreate sampleWorld).calls.count
          .glfwWaitEvents = 0 := by
  decide!

/-- C14, as amended (minimization stall).  When the first `m` framebuffer-size
observations have a zero width or height and the next one (the `k`-th, with
`k = m + 1`) has neither, a call of `recreateSwapchain` with enough fuel does
not block: it makes exactly `k` size observations and `k - 1` event-pump waits
before the device-idle wait, namely one observation and then `m` times an
observation followed by a wait; the device-idle wait and all destroy and create
calls come after these.  After the device-idle wait it waits for no events, and
it observes the size once more (in `chooseSwapExtent`) exactly when the surface
reports the undefined current extent. -/
theorem minimization_stall (fuel : Nat) (env : RecreateEnv) (w : World) (m : Nat)
    (hzero : ∀ i < m, (env.sizes i).1 = 0 ∨ (env.sizes i).2 = 0)
    (hsize : ¬ ((env.sizes m).1 = 0 ∨ (env.sizes m).2 = 0))
    (hfuel : m ≤ fuel) :
    (recreateSwapchain fuel env w).outcome ≠ .blocked
    ∧ ∃ rest, (recreateSwapchain fuel env w).calls
          = (.recreateSwapchain :: .glfwGetFramebufferSize (env.sizes 0).1 (env.sizes 0).2
              :: observeAndWait env 1 m) ++ (.vkDeviceWaitIdle :: rest)
        ∧ (Call.recreateSwapchain :: .glfwGetFramebufferSize (env.sizes 0).1 (env.sizes 0).2
              :: observeAndWait env 1 m).countP Call.isSizeObservation = m + 1
        ∧ (Call.recreateSwapchain :: .glfwGetFramebufferSize (env.sizes 0).1 (env.sizes 0).2
              :: observeAndWait env 1 m).count .glfwWaitEvents = m
        ∧ (∀ c ∈ Call.recreateSwapchain
              :: .glfwGetFramebufferSize (env.sizes 0).1 (env.sizes 0).2
              :: observeAndWait env 1 m, c.kind = .marker ∨ c.kind = .window)
        ∧ rest.count .glfwWaitEvents = 0
        ∧ rest.countP Call.isSizeObservation
            = (if env.support.capabilities.currentExtent.width ≠ UINT32_MAX then 0 else 1)
        ∧ (∀ c ∈ rest, c.kind = .destroy ∨ c.kind = .create ∨ c.isSizeObservation = true) := by
  obtain ⟨hret, hstall⟩ := recreateStall_exact fuel env w m hzero hsize hfuel
  obtain ⟨hc1, hc2, hc3⟩ := observeAndWait_counts env m 1
  obtain ⟨hout, _, hcalls⟩ := recreateSwapchain_after_stall fuel env w (m + 1) hret
  obtain ⟨creates, hre, hcr⟩ :=
    recreateRebuild_calls env (m + 1) (recreateStall fuel env w).world
  refine ⟨?_, teardownCalls w.app
    ++ (recreateRebuild env (m + 1) (recreateStall fuel env w).world).calls,
    ?_, ?_, ?_, ?_, ?_, ?_, ?_⟩
  · rw [hout]
    exact neverBlocks_recreateRebuild env (m + 1) _
  · rw [hcalls, hstall]
    simp only [List.cons_append]
  · simp [Call.isSizeObservation, hc1]
  · simp [hc2]
  · intro c hc
    simp only [List.mem_cons] at hc
    rcases hc with rfl | rfl | hc
    · exact Or.inl rfl
    · exact Or.inr rfl
    · exact Or.inr (hc3 c hc)
  · rw [List.count_eq_zero]
    intro hmem
    rcases List.mem_append.mp hmem with h | h
    · have := teardownCalls_kind w.app _ h
      simp [Call.kind] at this
    · rw [hre] at h
      rcases List.mem_append.mp h with h | h
      · split at h <;> simp at h
      · have := hcr _ h
        simp [Call.kind] at this
  · rw [hre]
    have h1 : (teardownCalls w.app).countP Call.isSizeObservation = 0 := by
      rw [List.countP_eq_zero]
      intro c hc
      have := teardownCalls_kind w.app c hc
      cases c <;> simp [Call.kind, Call.isSizeObservation] at this ⊢
    have h2 : creates.countP Call.isSizeObservation = 0 := by
      rw [List.countP_eq_zero]
      intro c hc
      have := hcr c hc
      cases c <;> simp [Call.kind, Call.isSizeObservation] at this ⊢
    simp only [List.countP_append, h1, h2, Nat.zero_add, Nat.add_zero]
    split <;> simp [Call.isSizeObservation]
  · intro c hc
    rcases List.mem_append.mp hc with h | h
    · exact Or.inl (teardownCalls_kind w.app c h)
    · rw [hre] at h
      rcases List.mem_append.mp h with h | h
      · right; right
        split at h
        · simp at h
        · simp only [List.mem_singleton] at h
          rw [h]; rfl
      · exact Or.inr (Or.inl (hcr c h))

/-- For the sizes (0, 0), (0, 0), (800, 600) the recreation blocks through the
first two observations and proceeds at the third: three observations and two
waits come before the device-idle wait, and with one pass of fuel less it is
still waiting. -/
theorem minimization_stall_witness :
    (∀ i < 2, (minimizedRecreate.sizes i).1 = 0 ∨ (minimizedRecreate.sizes i).2 = 0)
      ∧ ¬ ((minimizedRecreate.sizes 2).1 = 0 ∨ (minimizedRecreate.sizes 2).2 = 0)
      ∧ (recreateSwapchain 2 minimizedRecreate sampleWorld).outcome ≠ .blocked
      ∧ (recreateSwapchain 2 minimizedRecreate sampleWorld).calls.take 7
          = [.recreateSwapchain, .glfwGetFramebufferSize 0 0, .glfwGetFramebufferSize 0 0,
              .glfwWaitEvents, .glfwGetFramebufferSize 800 600, .glfwWaitEvents,
              .vkDeviceWaitIdle]
      ∧ (recreateSwapchain 2 minimizedRecreate sampleWorld).calls.countP
          Call.isSizeObservation = 3
      ∧ (recreateSwapchain 1 minimizedRecreate sampleWorld).outcome = .blocked :=
  ⟨by decide, by decide,
    (minimization_stall 2 minimizedRecreate sampleWorld 2 (by decide) (by decide)
      (by decide)).1,
    by decide!, by decide!, by decide!⟩

theorem keeps_framebuffers_waitWhileMinimized (env : RecreateEnv) (fuel : Nat) :
    ∀ (n : Nat) (size : Int × Int),
      Keeps App.m_swapchain_framebuffers (waitWhileMinimized env fuel n size) := by
  induction fuel with
  | zero =>
    intro n size
    exact keeps_ite _ keeps_block (keeps_pure _)
  | succ fuel ih =>
    intro n size
    refine keeps_ite _ ?_ (keeps_pure _)
    refine keeps_bind (keeps_emit _) (fun _ => ?_)
    refine keeps_bind (keeps_emit _) (fun _ => ?_)
    refine keeps_bind ?_ (fun _ => ih _ _)
    exact keeps_ite _ (keeps_modifyApp (fun _ => rfl)) (keeps_pure _)

theorem keeps_framebuffers_createSwapchain (env : RecreateEnv) (n : Nat) :
    Keeps App.m_swapchain_framebuffers (createSwapchain env n) := by
  unfold createSwapchain
  refine keeps_bind (keeps_modifyApp (fun _ => rfl)) (fun _ => ?_)
  refine keeps_bind (keeps_modifyApp (fun _ => rfl)) (fun _ => ?_)
  refine keeps_bind (keeps_modifyApp (fun _ => rfl)) (fun _ => ?_)
  refine keeps_bind keeps_getApp (fun a => ?_)
  refine keeps_bind ?_ (fun _ => ?_)
  · unfold chooseSwapExtentM
    exact keeps_ite _ (keeps_pure _) (keeps_bind (keeps_emit _) (fun _ => keeps_pure _))
  refine keeps_bind (keeps_modifyApp (fun _ => rfl)) (fun _ => ?_)
  refine keeps_bind ?_ (fun _ => ?_)
  · unfold createSwapchainWithParams
    refine keeps_bind keeps_getApp (fun a => ?_)
    refine keeps_bind (keeps_create _ _) (fun r => ?_)
    exact keeps_ite _ (keeps_raise _) (keeps_pure _)
  refine keeps_bind (keeps_modifyApp (fun _ => rfl)) (fun _ => ?_)
  refine keeps_bind ?_ (fun _ => ?_)
  · unfold getSwapchainImages
    refine keeps_ite _ (keeps_raise _) ?_
    refine keeps_bind (keeps_swapchainImages _) (fun _ => ?_)
    exact keeps_ite _ (keeps_raise _) (keeps_pure _)
  refine keeps_bind (keeps_modifyApp (fun _ => rfl)) (fun _ => ?_)
  refine keeps_bind keeps_getApp (fun a => ?_)
  refine keeps_bind (keeps_getImageViews _ _ _) (fun _ => ?_)
  exact keeps_modifyApp (fun _ => rfl)

theorem keeps_framebuffers_createSyncObjects (env : RecreateEnv) :
    Keeps App.m_swapchain_framebuffers (createSyncObjects env) := by
  unfold createSyncObjects
  refine keeps_bind (keeps_modifyApp (fun _ => rfl)) (fun _ => ?_)
  refine keeps_bind (keeps_modifyApp (fun _ => rfl)) (fun _ => ?_)
  refine keeps_bind (keeps_modifyApp (fun _ => rfl)) (fun _ => ?_)
  refine keeps_forEach (fun i => ?_) _
  unfold createSyncObjectsAt
  refine keeps_bind (keeps_create _ _) (fun r => ?_)
  refine keeps_ite _ (keeps_raise _) ?_
  refine keeps_bind (keeps_modifyApp (fun _ => rfl)) (fun _ => ?_)
  refine keeps_bind (keeps_create _ _) (fun r => ?_)
  refine keeps_ite _ (keeps_raise _) ?_
  refine keeps_bind (keeps_modifyApp (fun _ => rfl)) (fun _ => ?_)
  refine keeps_bind (keeps_create _ _) (fun r => ?_)
  exact keeps_ite _ (keeps_raise _) (keeps_modifyApp (fun _ => rfl))

/-- A recreation leaves the member `m_swapchain_framebuffers` as it was. -/
theorem keeps_framebuffers_recreateSwapchain (fuel : Nat) (env : RecreateEnv) :
    Keeps App.m_swapchain_framebuffers (recreateSwapchain fuel env) := by
  unfold recreateSwapchain
  refine keeps_bind (keeps_emit _) (fun _ => ?_)
  unfold recreateSwapchainBody
  refine keeps_bind (keeps_emit _) (fun _ => ?_)
  refine keeps_bind (keeps_framebuffers_waitWhileMinimized env fuel _ _) (fun n => ?_)
  refine keeps_bind (keeps_emit _) (fun _ => ?_)
  refine keeps_bind ?_ (fun _ => ?_)
  · unfold cleanupSwapchain
    refine keeps_bind keeps_getApp (fun a => ?_)
    refine keeps_bind (keeps_forEach (fun i => keeps_emit _) _) (fun _ => ?_)
    refine keeps_bind (keeps_forEach (fun i => keeps_emit _) _) (fun _ => ?_)
    exact keeps_emit _
  refine keeps_bind keeps_getApp (fun a => ?_)
  refine keeps_bind (keeps_emit _) (fun _ => ?_)
  refine keeps_bind (keeps_emit _) (fun _ => ?_)
  refine keeps_bind (keeps_emit _) (fun _ => ?_)
  refine keeps_bind ?_ (fun _ => ?_)
  · refine keeps_forEach (fun i => ?_) _
    unfold destroySyncObjectsAt
    refine keeps_bind keeps_getApp (fun a => ?_)
    refine keeps_bind (keeps_emit _) (fun _ => ?_)
    refine keeps_bind (keeps_emit _) (fun _ => ?_)
    exact keeps_emit _
  refine keeps_bind (keeps_framebuffers_createSwapchain env _) (fun _ => ?_)
  refine keeps_bind keeps_getApp (fun a => ?_)
  refine keeps_bind (keeps_getImageViews _ _ _) (fun _ => ?_)
  refine keeps_bind (keeps_modifyApp (fun _ => rfl)) (fun _ => ?_)
  refine keeps_bind ?_ (fun _ => ?_)
  · unfold createRenderPass
    refine keeps_bind keeps_getApp (fun a => ?_)
    refine keeps_bind (keeps_create _ _) (fun r => ?_)
    exact keeps_ite _ (keeps_raise _) (keeps_modifyApp (fun _ => rfl))
  refine keeps_bind keeps_getApp (fun a => ?_)
  refine keeps_bind ?_ (fun _ => ?_)
  · unfold createPipeline
    refine keeps_bind (keeps_create _ _) (fun r => ?_)
    refine keeps_ite _ (keeps_raise _) ?_
    refine keeps_bind (keeps_modifyApp (fun _ => rfl)) (fun _ => ?_)
    refine keeps_bind (keeps_create _ _) (fun r => ?_)
    exact keeps_ite _ (keeps_raise _) (keeps_modifyApp (fun _ => rfl))
  refine keeps_bind keeps_getApp (fun a => ?_)
  refine keeps_bind (keeps_createFramebuffers _ _ _ _) (fun _ => ?_)
  exact keeps_framebuffers_createSyncObjects env


/-- C12 (no stale resources after recreation), as the code behaves: a recreation
that returns from the sample state destroys the framebuffers 10, 11 and 12 and
creates three framebuffers for the new views 32, 33 and 34, but the member
m_swapchain_framebuffers still holds 10, 11 and 12, and the next drawFrame begins
its render pass on the destroyed framebuffer of the acquired image index, for each
of the three image indices. -/
theorem stale_framebuffers_after_recreation :
    sampleWorld.app.m_swapchain_framebuffers = [10, 11, 12]
      ∧ (recreateSwapchain 0 calmRecreate sampleWorld).outcome = .returned ()
      ∧ (∀ fb ∈ [10, 11, 12],
          Call.vkDestroyFramebuffer fb ∈ (recreateSwapchain 0 calmRecreate sampleWorld).calls)
      ∧ (∀ view ∈ [32, 33, 34],
          Call.vkCreateFramebuffer 35 view ⟨800, 600⟩
            ∈ (recreateSwapchain 0 calmRecreate sampleWorld).calls)
      ∧ (recreateSwapchain 0 calmRecreate sampleWorld).world.app.m_swapchain_views
          = [32, 33, 34]
      ∧ (recreateSwapchain 0 calmRecreate sampleWorld).world.app.m_render_pass = 35
      ∧ (recreateSwapchain 0 calmRecreate sampleWorld).world.app.m_swapchain_framebuffers
          = [10, 11, 12]
      ∧ (∀ i < 3,
          (drawFrame 0 { calmFrame with image_index := i }
              (recreateSwapchain 0 calmRecreate sampleWorld).world).outcome = .returned ()
          ∧ Call.vkCmdBeginRenderPass 16 35 (at_ [10, 11, 12] i) ⟨800, 600⟩
            ∈ (drawFrame 0 { calmFrame with image_index := i }
                (recreateSwapchain 0 calmRecreate sampleWorld).world).calls) := by
  decide!

/-- The sharing mode of the swapchain create call follows the comparison of the
graphics and present families: `CONCURRENT` with a declared count of 2 and the
vector of `getIndices` when they differ, `EXCLUSIVE` with count 0 and no list
when they are equal. -/
theorem swapchainCreateInfo_sharing (a : App) (queue_families : List QueueFamily)
    (iteration_order : List Nat → List Nat) :
    ((findQueueFamilies queue_families).graphics_family
          ≠ (findQueueFamilies queue_families).present_family →
        swapchainCreateInfo a queue_families iteration_order
          = .vkCreateSwapchainKHR (imageCount a.m_swapchain_support_details.capabilities)
              a.m_swapchain_params.surface_format a.m_swapchain_params.extent
              VK_SHARING_MODE_CONCURRENT 2
              ((findQueueFamilies queue_families).getIndices iteration_order)
              a.m_swapchain_params.present_mode)
    ∧ ((findQueueFamilies queue_families).graphics_family
          = (findQueueFamilies queue_families).present_family →
        swapchainCreateInfo a queue_families iteration_order
          = .vkCreateSwapchainKHR (imageCount a.m_swapchain_support_details.capabilities)
              a.m_swapchain_params.surface_format a.m_swapchain_params.extent
              VK_SHARING_MODE_EXCLUSIVE 0 [] a.m_swapchain_params.present_mode) := by
  constructor
  · intro h
    simp only [swapchainCreateInfo, h, ne_eq, not_false_eq_true, if_true]
  · intro h
    simp only [swapchainCreateInfo, h, ne_eq, not_true_eq_false, if_false]

/-- Of three distinct entries in some order, the third is not among the first
two. -/
theorem third_not_among_first_two (l : List Nat) (h : l.Perm [0, 1, 2]) :
    l.length = 3 ∧ ∃ family ∈ [0, 1, 2], family ∉ l.take 2 := by
  have hlen : l.length = 3 := h.length_eq
  have hnodup : l.Nodup := h.nodup_iff.mpr (by decide)
  match l, hlen with
  | [a, b, c], _ =>
    refine ⟨rfl, c, h.subset (by simp), ?_⟩
    simp only [List.nodup_cons, List.mem_cons, List.mem_singleton, List.not_mem_nil,
      or_false, not_or] at hnodup
    simp only [List.take_succ_cons, List.take_zero, List.mem_cons, List.mem_singleton,
      List.not_mem_nil, or_false, not_or]
    exact ⟨fun h1 => hnodup.1.2 h1.symm, fun h2 => hnodup.2.1 h2.symm⟩

/-- C21 (swapchain sharing mode), as the code behaves, in whatever order the
library iterates the set of families.  With one queue family per role
(graphics 0, transfer 1, present 2) the three roles resolve to three distinct
families and the set of `getFamilies` has the three elements 0, 1 and 2.
`createSwapchain` requests `CONCURRENT` sharing with a declared family count of
2 and the vector of `getIndices`, which has three entries: the declared count
is not the number of distinct families in use, and one of the three families
in use is not among the two declared entries. -/
theorem sharing_mode_declares_two_of_three (iteration_order : List Nat → List Nat)
    (hperm : ∀ s : List Nat, (iteration_order s).Perm s) :
    findQueueFamilies distinctFamilies = ⟨some 0, some 2, some 1⟩
      ∧ (∀ family, family ∈ (findQueueFamilies distinctFamilies).getFamilies
          ↔ family = 0 ∨ family = 1 ∨ family = 2)
      ∧ (findQueueFamilies distinctFamilies).getFamilies.length = 3
      ∧ (∃ family_indices : List Nat,
          swapchainCreateInfo sampleApp distinctFamilies iteration_order
            = .vkCreateSwapchainKHR 3 ⟨50, 0⟩ ⟨800, 600⟩ VK_SHARING_MODE_CONCURRENT 2
                family_indices 2
          ∧ family_indices.Perm [0, 1, 2]
          ∧ family_indices.length = 3
          ∧ (2 : Nat) ≠ family_indices.length
          ∧ ∃ family ∈ [0, 1, 2], family ∉ family_indices.take 2) := by
  have hfam : (findQueueFamilies distinctFamilies).getFamilies = [0, 2, 1] := by decide
  have hp : (iteration_order [0, 2, 1]).Perm [0, 1, 2] :=
    (hperm [0, 2, 1]).trans (by decide)
  obtain ⟨hlen, hmiss⟩ := third_not_among_first_two _ hp
  refine ⟨by decide, ?_, by decide, iteration_order [0, 2, 1], ?_, hp, hlen, ?_, hmiss⟩
  · intro family
    rw [hfam]
    simp only [List.mem_cons, List.mem_singleton, List.not_mem_nil, or_false]
    constructor
    · rintro (h | h | h)
      · exact Or.inl h
      · exact Or.inr (Or.inr h)
      · exact Or.inr (Or.inl h)
    · rintro (h | h | h)
      · exact Or.inl h
      · exact Or.inr (Or.inr h)
      · exact Or.inr (Or.inl h)
  · rw [(swapchainCreateInfo_sharing sampleApp distinctFamilies iteration_order).1 (by decide)]
    simp only [QueueFamilyIndices.getIndices, hfam]
    rfl
  · rw [hlen]
    decide

/-- With a library that iterates the set from the last inserted element to the
first, the vector is 1, 2, 0: the two declared entries are the transfer family
and the present family, and the graphics family 0 is left out. -/
theorem sharing_mode_declares_two_of_three_witness :
    (∀ s : List Nat, (List.reverse s).Perm s)
      ∧ swapchainCreateInfo sampleApp distinctFamilies List.reverse
          = .vkCreateSwapchainKHR 3 ⟨50, 0⟩ ⟨800, 600⟩ VK_SHARING_MODE_CONCURRENT 2 [1, 2, 0] 2
      ∧ (0 : Nat) ∉ ([1, 2, 0] : List Nat).take 2
      ∧ findQueueFamilies distinctFamilies = ⟨some 0, some 2, some 1⟩ :=
  ⟨List.reverse_perm, by decide, by decide,
    (sharing_mode_declares_two_of_three List.reverse List.reverse_perm).1⟩

/-- With the families graphics only, graphics with transfer, present: family 0
is the first that supports graphics, and `findQueueFamilies` returns family 1
for graphics. -/
theorem graphics_family_not_first :
    familyPasses QueueFamily.graphics twoGraphicsFamilies 0 = true
      ∧ findQueueFamilies twoGraphicsFamilies = ⟨some 1, some 2, some 1⟩
      ∧ (findQueueFamilies twoGraphicsFamilies).graphics_family ≠ some 0 := by
  decide

theorem findQueueFamiliesLoop_cons (indices : QueueFamilyIndices) (i : Nat)
    (queue_family : QueueFamily) (rest : List QueueFamily) :
    findQueueFamiliesLoop indices i (queue_family :: rest)
      = if (visitFamily indices i queue_family).isComplete
        then visitFamily indices i queue_family
        else findQueueFamiliesLoop (visitFamily indices i queue_family) (i + 1) rest := rfl

/-- The loop of `findQueueFamilies` looks at a prefix of the enumeration: it
goes on while the indices are incomplete and stops at the first family after
which they are complete. -/
theorem findQueueFamiliesLoop_visits (queue_families : List QueueFamily) :
    ∀ (indices : QueueFamilyIndices) (i : Nat), ∃ n, n ≤ queue_families.length
      ∧ findQueueFamiliesLoop indices i queue_families
          = visitFamilies indices i (queue_families.take n)
      ∧ (∀ m, 0 < m → m < n →
          (visitFamilies indices i (queue_families.take m)).isComplete = false)
      ∧ (n < queue_families.length →
          (visitFamilies indices i (queue_families.take n)).isComplete = true) := by
  induction queue_families with
  | nil =>
    intro indices i
    exact ⟨0, Nat.le_refl _, rfl, fun m h1 h2 => absurd h2 (by omega), fun h => absurd h (by simp)⟩
  | cons q rest ih =>
    intro indices i
    rw [findQueueFamiliesLoop_cons]
    by_cases hc : (visitFamily indices i q).isComplete = true
    · refine ⟨1, by simp, ?_, fun m h1 h2 => absurd h2 (by omega), fun _ => ?_⟩
      · simp [hc, visitFamilies]
      · simpa [visitFamilies] using hc
    · obtain ⟨n, hn, heq, hmin, hstop⟩ := ih (visitFamily indices i q) (i + 1)
      refine ⟨n + 1, by simpa using hn, ?_, ?_, ?_⟩
      · simp only [hc, if_false, List.take_succ_cons, visitFamilies]
        exact heq
      · intro m h1 h2
        obtain ⟨m, rfl⟩ : ∃ k, m = k + 1 := ⟨m - 1, by omega⟩
        simp only [List.take_succ_cons, visitFamilies]
        by_cases hm : m = 0
        · subst hm
          simpa [visitFamilies] using hc
        · exact hmin m (by omega) (by omega)
      · intro h
        simp only [List.take_succ_cons, visitFamilies]
        exact hstop (by simpa using h)

theorem visitFamilies_graphics (l : List QueueFamily) :
    ∀ (indices : QueueFamilyIndices) (i : Nat),
      (visitFamilies indices i l).graphics_family
        = lastFamily QueueFamily.graphics indices.graphics_family i l := by
  induction l with
  | nil => intro indices i; rfl
  | cons q rest ih =>
    intro indices i
    simp only [visitFamilies, lastFamily, ih]
    congr 1
    simp only [visitFamily, QueueFamily.graphics]
    split_ifs <;> simp_all

theorem visitFamilies_transfer (l : List QueueFamily) :
    ∀ (indices : QueueFamilyIndices) (i : Nat),
      (visitFamilies indices i l).transfer_family
        = lastFamily QueueFamily.transfer indices.transfer_family i l := by
  induction l with
  | nil => intro indices i; rfl
  | cons q rest ih =>
    intro indices i
    simp only [visitFamilies, lastFamily, ih]
    congr 1
    simp only [visitFamily, QueueFamily.transfer]
    split_ifs <;> simp_all

theorem visitFamilies_present (l : List QueueFamily) :
    ∀ (indices : QueueFamilyIndices) (i : Nat),
      (visitFamilies indices i l).present_family
        = lastFamily QueueFamily.present_support indices.present_family i l := by
  induction l with
  | nil => intro indices i; rfl
  | cons q rest ih =>
    intro indices i
    simp only [visitFamilies, lastFamily, ih]
    congr 1
    simp only [visitFamily]
    split_ifs <;> simp_all

theorem familyPasses_zero (test : QueueFamily → Bool) (q : QueueFamily)
    (rest : List QueueFamily) : familyPasses test (q :: rest) 0 = test q := by
  simp [familyPasses]

theorem familyPasses_succ (test : QueueFamily → Bool) (q : QueueFamily)
    (rest : List QueueFamily) (j : Nat) :
    familyPasses test (q :: rest) (j + 1) = familyPasses test rest j := by
  simp [familyPasses]

theorem familyPasses_take (test : QueueFamily → Bool) (l : List QueueFamily) (n j : Nat)
    (h : j < n) : familyPasses test (l.take n) j = familyPasses test l j := by
  simp [familyPasses, List.getElem?_take, h]

/-- A role is found exactly when a family of the list passes its test. -/
theorem lastFamily_isSome (test : QueueFamily → Bool) (l : List QueueFamily) :
    ∀ (current : Option Nat) (i : Nat),
      (lastFamily test current i l).isSome = (current.isSome || l.any test) := by
  induction l with
  | nil => intro current i; simp [lastFamily]
  | cons q rest ih =>
    intro current i
    simp only [lastFamily, ih, List.any_cons]
    cases test q <;> cases current <;> simp

/-- The value of a role: the number of the last family that passes its test,
or the value it had when no family passes. -/
theorem lastFamily_eq_some (test : QueueFamily → Bool) (l : List QueueFamily) :
    ∀ (current : Option Nat) (i x : Nat),
      lastFamily test current i l = some x
        ↔ (∃ j, j < l.length ∧ x = i + j ∧ familyPasses test l j = true
              ∧ ∀ k, j < k → k < l.length → familyPasses test l k = false)
          ∨ (current = some x ∧ ∀ j, j < l.length → familyPasses test l j = false) := by
  induction l with
  | nil =>
    intro current i x
    simp [lastFamily]
  | cons q rest ih =>
    intro current i x
    simp only [lastFamily, ih, List.length_cons]
    constructor
    · rintro (⟨j, hj, rfl, hp, hlast⟩ | ⟨hcur, hnone⟩)
      · refine Or.inl ⟨j + 1, by omega, by omega, by rwa [familyPasses_succ], ?_⟩
        intro k hk1 hk2
        obtain ⟨k, rfl⟩ : ∃ k0, k = k0 + 1 := ⟨k - 1, by omega⟩
        rw [familyPasses_succ]
        exact hlast k (by omega) (by omega)
      · by_cases hq : test q = true
        · simp only [hq, if_true, Option.some.injEq] at hcur
          refine Or.inl ⟨0, by omega, by omega, by rwa [familyPasses_zero], ?_⟩
          intro k hk1 hk2
          obtain ⟨k, rfl⟩ : ∃ k0, k = k0 + 1 := ⟨k - 1, by omega⟩
          rw [familyPasses_succ]
          exact hnone k (by omega)
        · simp only [hq] at hcur
          refine Or.inr ⟨by simpa using hcur, ?_⟩
          intro j hj
          cases j with
          | zero => rw [familyPasses_zero]; simpa using hq
          | succ j => rw [familyPasses_succ]; exact hnone j (by omega)
    · rintro (⟨j, hj, rfl, hp, hlast⟩ | ⟨hcur, hnone⟩)
      · cases j with
        | zero =>
          rw [familyPasses_zero] at hp
          refine Or.inr ⟨by simp [hp], ?_⟩
          intro j hj2
          have := hlast (j + 1) (by omega) (by omega)
          rwa [familyPasses_succ] at this
        | succ j =>
          rw [familyPasses_succ] at hp
          refine Or.inl ⟨j, by omega, by omega, hp, ?_⟩
          intro k hk1 hk2
          have := hlast (k + 1) (by omega) (by omega)
          rwa [familyPasses_succ] at this
      · have h0 := hnone 0 (by omega)
        rw [familyPasses_zero] at h0
        refine Or.inr ⟨by simp [h0, hcur], ?_⟩
        intro j hj
        have := hnone (j + 1) (by omega)
        rwa [familyPasses_succ] at this

/-- From no indices, the indices are complete after a list of families exactly
when each role has a family in the list. -/
theorem visitFamilies_isComplete (l : List QueueFamily) (i : Nat) :
    (visitFamilies ⟨none, none, none⟩ i l).isComplete
      = (l.any QueueFamily.graphics && l.any QueueFamily.present_support
          && l.any QueueFamily.transfer) := by
  simp [QueueFamilyIndices.isComplete, visitFamilies_graphics, visitFamilies_transfer,
    visitFamilies_present, lastFamily_isSome]

/-- The last family that passes a test among the first `n` of an enumeration. -/
theorem lastFamily_take (test : QueueFamily → Bool) (l : List QueueFamily) (n x : Nat)
    (hn : n ≤ l.length) :
    lastFamily test none 0 (l.take n) = some x
      ↔ x < n ∧ familyPasses test l x = true
          ∧ ∀ j, x < j → j < n → familyPasses test l j = false := by
  rw [lastFamily_eq_some]
  have hlen : (l.take n).length = n := by simp [hn]
  simp only [hlen, Nat.zero_add]
  constructor
  · rintro (⟨j, hj, rfl, hp, hlast⟩ | ⟨hcur, _⟩)
    · refine ⟨hj, by rwa [familyPasses_take _ _ _ _ hj] at hp, fun k hk1 hk2 => ?_⟩
      have := hlast k hk1 hk2
      rwa [familyPasses_take _ _ _ _ hk2] at this
    · exact absurd hcur (by simp)
  · rintro ⟨hx, hp, hlast⟩
    refine Or.inl ⟨x, hx, rfl, by rwa [familyPasses_take _ _ _ _ hx], fun k hk1 hk2 => ?_⟩
    rw [familyPasses_take _ _ _ _ hk2]
    exact hlast k hk1 hk2

/-- C22, as amended (queue-family tie-break).  For every list of queue
families, `findQueueFamilies` enumerates the first `n` families, where `n` is
the least number of families among which each of the three roles has a
supporting family (all families if there is no such number), and returns for
each role the last index below `n` whose family supports that role, and no
index when no family below `n` supports it. -/
theorem queue_family_tie_break (queue_families : List QueueFamily) :
    ∃ n, n ≤ queue_families.length
      ∧ (∀ m, m < n → rolesCovered queue_families m = false)
      ∧ (n < queue_families.length → rolesCovered queue_families n = true)
      ∧ (∀ i, (findQueueFamilies queue_families).graphics_family = some i
          ↔ i < n ∧ familyPasses QueueFamily.graphics queue_families i = true
              ∧ ∀ j, i < j → j < n →
                  familyPasses QueueFamily.graphics queue_families j = false)
      ∧ (∀ i, (findQueueFamilies queue_families).transfer_family = some i
          ↔ i < n ∧ familyPasses QueueFamily.transfer queue_families i = true
              ∧ ∀ j, i < j → j < n →
                  familyPasses QueueFamily.transfer queue_families j = false)
      ∧ (∀ i, (findQueueFamilies queue_families).present_family = some i
          ↔ i < n ∧ familyPasses QueueFamily.present_support queue_families i = true
              ∧ ∀ j, i < j → j < n →
                  familyPasses QueueFamily.present_support queue_families j = false) := by
  obtain ⟨n, hn, heq, hmin, hstop⟩ :=
    findQueueFamiliesLoop_visits queue_families ⟨none, none, none⟩ 0
  refine ⟨n, hn, ?_, ?_, ?_, ?_, ?_⟩
  · intro m hm
    by_cases h0 : m = 0
    · subst h0
      simp [rolesCovered]
    · have := hmin m (by omega) hm
      rwa [visitFamilies_isComplete] at this
  · intro h
    have := hstop h
    rwa [visitFamilies_isComplete] at this
  · intro i
    rw [findQueueFamilies, heq, visitFamilies_graphics]
    exact lastFamily_take _ _ _ _ hn
  · intro i
    rw [findQueueFamilies, heq, visitFamilies_transfer]
    exact lastFamily_take _ _ _ _ hn
  · intro i
    rw [findQueueFamilies, heq, visitFamilies_present]
    exact lastFamily_take _ _ _ _ hn

/-- C29 (device eligibility is a disjunction).  `isDeviceSuitable` returns
exactly when the two extension enumerations succeed, and then it returns true
if and only if the queue-family indices of the device are complete or every
required device extension is among the extensions of the device.  The formats
and present modes of the surface, which the swap-chain adequacy check reads,
never change what it does. -/
theorem device_eligibility (device : PhysicalDevice) :
    (∀ b, isDeviceSuitable device = .returned b
        ↔ device.extensions_result1 = VK_SUCCESS ∧ device.extensions_result2 = VK_SUCCESS
          ∧ (b = true ↔ (findQueueFamilies device.queue_families).isComplete = true
              ∨ ∀ name ∈ getRequiredDeviceExtensions, name ∈ device.extensions))
    ∧ (∀ (formats : List VkSurfaceFormatKHR) (present_modes : List Nat),
        isDeviceSuitable { device with formats := formats, present_modes := present_modes }
          = isDeviceSuitable device) := by
  constructor
  · intro b
    unfold isDeviceSuitable getDeviceExtensionSupported
    by_cases h1 : device.extensions_result1 = VK_SUCCESS
    · by_cases h2 : device.extensions_result2 = VK_SUCCESS
      · simp only [h1, h2, ne_eq, not_true_eq_false, if_false, Outcome.returned.injEq,
          true_and]
        have hall : checkNamesSupported device.extensions getRequiredDeviceExtensions = true
            ↔ ∀ name ∈ getRequiredDeviceExtensions, name ∈ device.extensions := by
          simp [checkNamesSupported]
        rw [← hall]
        cases hq : (findQueueFamilies device.queue_families).isComplete
          <;> cases he : checkNamesSupported device.extensions getRequiredDeviceExtensions
          <;> cases b <;> simp
      · simp [h1, h2]
    · simp [h1]
  · intro formats present_modes
    unfold isDeviceSuitable getDeviceExtensionSupported querySwapChainSupport
    by_cases h1 : device.extensions_result1 = VK_SUCCESS
    · by_cases h2 : device.extensions_result2 = VK_SUCCESS
      · simp only [h1, h2, ne_eq, not_true_eq_false, if_false, Outcome.returned.injEq]
        cases hq : (findQueueFamilies device.queue_families).isComplete
          <;> cases he : checkNamesSupported device.extensions getRequiredDeviceExtensions
          <;> simp
      · simp [h1, h2]
    · simp [h1]

/-- A device with both required extensions is accepted without complete queue
families, without a surface format and without a present mode; a device with
neither is rejected. -/
theorem device_eligibility_witness :
    (findQueueFamilies extensionsOnlyDevice.queue_families).isComplete = false
      ∧ extensionsOnlyDevice.formats = [] ∧ extensionsOnlyDevice.present_modes = []
      ∧ isDeviceSuitable extensionsOnlyDevice = .returned true
      ∧ isDeviceSuitable unsuitableDevice = .returned false :=
  ⟨by decide, rfl, rfl,
    ((device_eligibility extensionsOnlyDevice).1 true).2
      ⟨rfl, rfl, fun _ => Or.inr (by decide), fun _ => rfl⟩,
    by decide⟩

/-- A device that `isDeviceSuitable` accepts is rated 0. -/
theorem rateDeviceSuitability_suitable (device : PhysicalDevice)
    (h : isDeviceSuitable device = .returned true) :
    rateDeviceSuitability device = .returned 0 := by
  simp [rateDeviceSuitability, h]

/-- C25 (device rating), as the code behaves: of a suitable discrete GPU, rated
0, and an unsuitable integrated GPU, rated 4126, `pickPhysicalDevice` returns
the unsuitable one, in either order of enumeration: it takes the entry with the
highest rating. -/
theorem picks_highest_rating_not_zero :
    isDeviceSuitable suitableDevice = .returned true
      ∧ rateDeviceSuitability suitableDevice = .returned 0
      ∧ isDeviceSuitable unsuitableDevice = .returned false
      ∧ rateDeviceSuitability unsuitableDevice = .returned 4126
      ∧ pickPhysicalDevice VK_SUCCESS VK_SUCCESS [suitableDevice, unsuitableDevice]
          = .returned unsuitableDevice
      ∧ pickPhysicalDevice VK_SUCCESS VK_SUCCESS [unsuitableDevice, suitableDevice]
          = .returned unsuitableDevice := by
  decide

/-- What the loop of `findMemoryType` returns: the smallest index from `i` on,
among `remaining` indices, whose bit is set in the filter and whose memory type
has at least one of the requested property flags. -/
theorem findMemoryTypeLoop_returned (mem_prop : VkPhysicalDeviceMemoryProperties)
    (type_filter properties : Nat) (remaining : Nat) :
    ∀ (i x : Nat), findMemoryTypeLoop mem_prop type_filter properties i remaining = .returned x
      ↔ i ≤ x ∧ x < i + remaining
          ∧ type_filter &&& ((1 <<< x) % UINT32_SIZE) ≠ 0
          ∧ mem_prop.memoryTypes.getD x 0 &&& properties ≠ 0
          ∧ ∀ j, i ≤ j → j < x →
              ¬ (type_filter &&& ((1 <<< j) % UINT32_SIZE) ≠ 0
                  ∧ mem_prop.memoryTypes.getD j 0 &&& properties ≠ 0) := by
  induction remaining with
  | zero =>
    intro i x
    simp only [findMemoryTypeLoop, Nat.add_zero]
    constructor
    · intro h
      cases h
    · rintro ⟨h1, h2, -⟩
      omega
  | succ remaining ih =>
    intro i x
    simp only [findMemoryTypeLoop]
    by_cases hs : type_filter &&& ((1 <<< i) % UINT32_SIZE) ≠ 0
        ∧ mem_prop.memoryTypes.getD i 0 &&& properties ≠ 0
    · have hif : (decide (type_filter &&& ((1 <<< i) % UINT32_SIZE) ≠ 0)
          && decide (mem_prop.memoryTypes.getD i 0 &&& properties ≠ 0)) = true := by
        simp only [Bool.and_eq_true, decide_eq_true_eq]
        exact hs
      simp only [hif, if_true, Outcome.returned.injEq]
      constructor
      · rintro rfl
        exact ⟨Nat.le_refl _, by omega, hs.1, hs.2, fun j h1 h2 => absurd h2 (by omega)⟩
      · rintro ⟨h1, h2, h3, h4, h5⟩
        by_contra hne
        exact h5 i (Nat.le_refl _) (by omega) hs
    · have hif : (decide (type_filter &&& ((1 <<< i) % UINT32_SIZE) ≠ 0)
          && decide (mem_prop.memoryTypes.getD i 0 &&& properties ≠ 0)) = false := by
        rw [Bool.eq_false_iff]
        simp only [ne_eq, Bool.and_eq_true, decide_eq_true_eq]
        exact hs
      simp only [hif, Bool.false_eq_true, if_false, ih]
      constructor
      · rintro ⟨h1, h2, h3, h4, h5⟩
        refine ⟨by omega, by omega, h3, h4, fun j hj1 hj2 => ?_⟩
        by_cases hji : j = i
        · subst hji; exact hs
        · exact h5 j (by omega) hj2
      · rintro ⟨h1, h2, h3, h4, h5⟩
        have hxi : x ≠ i := by
          rintro rfl
          exact hs ⟨h3, h4⟩
        exact ⟨by omega, by omega, h3, h4, fun j hj1 hj2 => h5 j (by omega) hj2⟩

/-- The loop of `findMemoryType` either returns an index or throws. -/
theorem findMemoryTypeLoop_total (mem_prop : VkPhysicalDeviceMemoryProperties)
    (type_filter properties : Nat) (remaining : Nat) :
    ∀ i, (∃ x, findMemoryTypeLoop mem_prop type_filter properties i remaining = .returned x)
      ∨ findMemoryTypeLoop mem_prop type_filter properties i remaining
          = .raised "failed to find suitable memory type!" := by
  induction remaining with
  | zero => intro i; exact Or.inr rfl
  | succ remaining ih =>
    intro i
    simp only [findMemoryTypeLoop]
    split
    · exact Or.inl ⟨i, rfl⟩
    · exact ih (i + 1)

/-- C30 (memory type selection), as the code behaves: for the memory types
device local, host visible and cached, host visible and coherent, with all
three allowed by the filter and the properties host visible and host coherent
requested, `findMemoryType` returns index 1, whose type is not host coherent;
the smallest index whose type has all requested flags is 2.  With no property
requested it throws although every type has all (none) of the requested
flags. -/
theorem memory_type_with_one_flag_only :
    findMemoryType cachedFirstMemory 7
        (VK_MEMORY_PROPERTY_HOST_VISIBLE_BIT ||| VK_MEMORY_PROPERTY_HOST_COHERENT_BIT)
      = .returned 1
    ∧ cachedFirstMemory.memoryTypes.getD 1 0 &&& VK_MEMORY_PROPERTY_HOST_COHERENT_BIT = 0
    ∧ cachedFirstMemory.memoryTypes.getD 2 0
          &&& (VK_MEMORY_PROPERTY_HOST_VISIBLE_BIT ||| VK_MEMORY_PROPERTY_HOST_COHERENT_BIT)
        = (VK_MEMORY_PROPERTY_HOST_VISIBLE_BIT ||| VK_MEMORY_PROPERTY_HOST_COHERENT_BIT)
    ∧ findMemoryType cachedFirstMemory 7 0
        = .raised "failed to find suitable memory type!" := by
  decide

theorem resize_length (v : List Handle) (n : Nat) : (resize v n).length = n := by
  simp only [resize, List.length_append, List.length_take, List.length_replicate]
  omega

theorem rebuilt_refl (w : World) : Rebuilt w w :=
  ⟨Nat.le_refl _, rfl, Or.inl rfl, Or.inl rfl, Or.inl rfl⟩

theorem rebuilt_trans {w w1 w2 : World} (h1 : Rebuilt w w1) (h2 : Rebuilt w1 w2) :
    Rebuilt w w2 := by
  obtain ⟨a1, a2, a3, a4, a5⟩ := h1
  obtain ⟨b1, b2, b3, b4, b5⟩ := h2
  refine ⟨Nat.le_trans a1 b1, b2.trans a2, ?_, ?_, ?_⟩
  · rcases b3 with h | h
    · rw [h]; exact a3
    · exact Or.inr h
  · rcases b4 with h | h
    · rw [h]; exact a4
    · exact Or.inr h
  · rcases b5 with h | h
    · rw [h]; exact a5
    · exact Or.inr h

theorem rebuilds_andThen {α β : Type} {m : M α} {f : α → M β}
    (hm : Rebuilds m) (hf : ∀ a, Rebuilds (f a)) : Rebuilds (m.andThen f) := by
  intro w
  have hmw := hm w
  simp only [M.andThen]
  rcases h : m w with ⟨o, w1, cs⟩
  rw [h] at hmw
  cases o with
  | returned a => exact rebuilt_trans hmw (hf a w1)
  | raised e => exact hmw
  | blocked => exact hmw

theorem rebuilds_bind {α β : Type} {m : M α} {f : α → M β}
    (hm : Rebuilds m) (hf : ∀ a, Rebuilds (f a)) : Rebuilds (m >>= f) :=
  rebuilds_andThen hm hf

theorem rebuilds_still {α : Type} {m : M α} (h : ∀ w, (m w).world = w) : Rebuilds m := by
  intro w
  rw [h w]
  exact rebuilt_refl w

theorem rebuilds_emit (c : Call) : Rebuilds (emit c) := rebuilds_still (fun _ => rfl)

theorem rebuilds_pure {α : Type} (a : α) : Rebuilds (pure a : M α) :=
  rebuilds_still (fun _ => rfl)

theorem rebuilds_raise {α : Type} (e : String) : Rebuilds (raise e : M α) :=
  rebuilds_still (fun _ => rfl)

theorem rebuilds_getApp : Rebuilds getApp := rebuilds_still (fun _ => rfl)

theorem rebuilds_create (c : Call) (r : Nat → VkResult) : Rebuilds (create c r) := by
  intro w
  exact ⟨Nat.le_succ _, rfl, Or.inl rfl, Or.inl rfl, Or.inl rfl⟩

theorem rebuilds_swapchainImages (n : Nat) : Rebuilds (swapchainImages n) := by
  intro w
  exact ⟨Nat.le_add_right _ _, rfl, Or.inl rfl, Or.inl rfl, Or.inl rfl⟩

/-- A write to a member other than the loop members and the per-slot vectors of
synchronisation objects. -/
theorem rebuilds_modifyApp {f : App → App} (h1 : ∀ a, loopMembers (f a) = loopMembers a)
    (h2 : ∀ a, (f a).m_image_available = a.m_image_available)
    (h3 : ∀ a, (f a).m_render_finished = a.m_render_finished)
    (h4 : ∀ a, (f a).m_in_flight_frame = a.m_in_flight_frame) : Rebuilds (modifyApp f) := by
  intro w
  refine ⟨Nat.le_refl _, h1 w.app, Or.inl ?_, Or.inl ?_, Or.inl ?_⟩
  · exact congrArg List.length (h2 w.app)
  · exact congrArg List.length (h3 w.app)
  · exact congrArg List.length (h4 w.app)

theorem rebuilds_ite {α : Type} (c : Prop) [Decidable c] {m1 m2 : M α}
    (h1 : Rebuilds m1) (h2 : Rebuilds m2) : Rebuilds (if c then m1 else m2) := by
  split
  · exact h1
  · exact h2

theorem rebuilds_forEach {α : Type} {f : α → M Unit} (h : ∀ x, Rebuilds (f x))
    (xs : List α) : Rebuilds (forEach f xs) := by
  induction xs with
  | nil => exact rebuilds_pure ()
  | cons x rest ih => exact rebuilds_bind (h x) (fun _ => ih)

theorem rebuilds_getImageViews (env : RecreateEnv) (fmt : VkSurfaceFormatKHR)
    (images : List Handle) : Rebuilds (getImageViews env fmt images) := by
  induction images with
  | nil => exact rebuilds_pure []
  | cons image rest ih =>
    refine rebuilds_bind (rebuilds_create _ _) (fun r => ?_)
    exact rebuilds_ite _ (rebuilds_raise _) (rebuilds_bind ih (fun _ => rebuilds_pure _))

theorem rebuilds_createFramebuffers (env : RecreateEnv) (extent : VkExtent2D)
    (render_pass : Handle) (views : List Handle) :
    Rebuilds (createFramebuffers env extent render_pass views) := by
  induction views with
  | nil => exact rebuilds_pure []
  | cons view rest ih =>
    refine rebuilds_bind (rebuilds_create _ _) (fun r => ?_)
    exact rebuilds_ite _ (rebuilds_raise _) (rebuilds_bind ih (fun _ => rebuilds_pure _))

theorem rebuilds_createSwapchain (env : RecreateEnv) (n : Nat) :
    Rebuilds (createSwapchain env n) := by
  have hm : ∀ {f : App → App}, (∀ a, loopMembers (f a) = loopMembers a) →
      (∀ a, (f a).m_image_available = a.m_image_available) →
      (∀ a, (f a).m_render_finished = a.m_render_finished) →
      (∀ a, (f a).m_in_flight_frame = a.m_in_flight_frame) → Rebuilds (modifyApp f) :=
    fun h1 h2 h3 h4 => rebuilds_modifyApp h1 h2 h3 h4
  unfold createSwapchain
  refine rebuilds_bind (hm (fun _ => rfl) (fun _ => rfl) (fun _ => rfl) (fun _ => rfl))
    (fun _ => ?_)
  refine rebuilds_bind (hm (fun _ => rfl) (fun _ => rfl) (fun _ => rfl) (fun _ => rfl))
    (fun _ => ?_)
  refine rebuilds_bind (hm (fun _ => rfl) (fun _ => rfl) (fun _ => rfl) (fun _ => rfl))
    (fun _ => ?_)
  refine rebuilds_bind rebuilds_getApp (fun a => ?_)
  refine rebuilds_bind ?_ (fun _ => ?_)
  · unfold chooseSwapExtentM
    exact rebuilds_ite _ (rebuilds_pure _)
      (rebuilds_bind (rebuilds_emit _) (fun _ => rebuilds_pure _))
  refine rebuilds_bind (hm (fun _ => rfl) (fun _ => rfl) (fun _ => rfl) (fun _ => rfl))
    (fun _ => ?_)
  refine rebuilds_bind ?_ (fun _ => ?_)
  · unfold createSwapchainWithParams
    refine rebuilds_bind rebuilds_getApp (fun a => ?_)
    refine rebuilds_bind (rebuilds_create _ _) (fun r => ?_)
    exact rebuilds_ite _ (rebuilds_raise _) (rebuilds_pure _)
  refine rebuilds_bind (hm (fun _ => rfl) (fun _ => rfl) (fun _ => rfl) (fun _ => rfl))
    (fun _ => ?_)
  refine rebuilds_bind ?_ (fun _ => ?_)
  · unfold getSwapchainImages
    refine rebuilds_ite _ (rebuilds_raise _) ?_
    refine rebuilds_bind (rebuilds_swapchainImages _) (fun _ => ?_)
    exact rebuilds_ite _ (rebuilds_raise _) (rebuilds_pure _)
  refine rebuilds_bind (hm (fun _ => rfl) (fun _ => rfl) (fun _ => rfl) (fun _ => rfl))
    (fun _ => ?_)
  refine rebuilds_bind rebuilds_getApp (fun a => ?_)
  refine rebuilds_bind (rebuilds_getImageViews _ _ _) (fun _ => ?_)
  exact hm (fun _ => rfl) (fun _ => rfl) (fun _ => rfl) (fun _ => rfl)

theorem rebuilds_createRenderPass (env : RecreateEnv) : Rebuilds (createRenderPass env) := by
  unfold createRenderPass
  refine rebuilds_bind rebuilds_getApp (fun a => ?_)
  refine rebuilds_bind (rebuilds_create _ _) (fun r => ?_)
  exact rebuilds_ite _ (rebuilds_raise _)
    (rebuilds_modifyApp (fun _ => rfl) (fun _ => rfl) (fun _ => rfl) (fun _ => rfl))

theorem rebuilds_createPipeline (env : RecreateEnv) (render_pass : Handle) :
    Rebuilds (createPipeline env render_pass) := by
  unfold createPipeline
  refine rebuilds_bind (rebuilds_create _ _) (fun r => ?_)
  refine rebuilds_ite _ (rebuilds_raise _) ?_
  refine rebuilds_bind
    (rebuilds_modifyApp (fun _ => rfl) (fun _ => rfl) (fun _ => rfl) (fun _ => rfl))
    (fun _ => ?_)
  refine rebuilds_bind (rebuilds_create _ _) (fun r => ?_)
  exact rebuilds_ite _ (rebuilds_raise _)
    (rebuilds_modifyApp (fun _ => rfl) (fun _ => rfl) (fun _ => rfl) (fun _ => rfl))

/-- A write to one of the per-slot vectors of synchronisation objects that
keeps its length or gives it one entry per slot. -/
theorem rebuilds_modifySync {f : App → App} (h1 : ∀ a, loopMembers (f a) = loopMembers a)
    (h2 : ∀ a, (f a).m_image_available.length = a.m_image_available.length
      ∨ (f a).m_image_available.length = MAX_FRAMES_IN_FLIGHT)
    (h3 : ∀ a, (f a).m_render_finished.length = a.m_render_finished.length
      ∨ (f a).m_render_finished.length = MAX_FRAMES_IN_FLIGHT)
    (h4 : ∀ a, (f a).m_in_flight_frame.length = a.m_in_flight_frame.length
      ∨ (f a).m_in_flight_frame.length = MAX_FRAMES_IN_FLIGHT) : Rebuilds (modifyApp f) := by
  intro w
  exact ⟨Nat.le_refl _, h1 w.app, h2 w.app, h3 w.app, h4 w.app⟩

theorem rebuilds_createSyncObjects (env : RecreateEnv) :
    Rebuilds (createSyncObjects env) := by
  unfold createSyncObjects
  refine rebuilds_bind (rebuilds_modifySync (fun _ => rfl)
    (fun _ => Or.inr (resize_length _ _)) (fun _ => Or.inl rfl) (fun _ => Or.inl rfl))
    (fun _ => ?_)
  refine rebuilds_bind (rebuilds_modifySync (fun _ => rfl)
    (fun _ => Or.inl rfl) (fun _ => Or.inr (resize_length _ _)) (fun _ => Or.inl rfl))
    (fun _ => ?_)
  refine rebuilds_bind (rebuilds_modifySync (fun _ => rfl)
    (fun _ => Or.inl rfl) (fun _ => Or.inl rfl) (fun _ => Or.inr (resize_length _ _)))
    (fun _ => ?_)
  refine rebuilds_forEach (fun i => ?_) _
  unfold createSyncObjectsAt
  refine rebuilds_bind (rebuilds_create _ _) (fun r => ?_)
  refine rebuilds_ite _ (rebuilds_raise _) ?_
  refine rebuilds_bind (rebuilds_modifySync (fun _ => rfl)
    (fun _ => Or.inl (List.length_set _ _ _)) (fun _ => Or.inl rfl) (fun _ => Or.inl rfl))
    (fun _ => ?_)
  refine rebuilds_bind (rebuilds_create _ _) (fun r => ?_)
  refine rebuilds_ite _ (rebuilds_raise _) ?_
  refine rebuilds_bind (rebuilds_modifySync (fun _ => rfl)
    (fun _ => Or.inl rfl) (fun _ => Or.inl (List.length_set _ _ _)) (fun _ => Or.inl rfl))
    (fun _ => ?_)
  refine rebuilds_bind (rebuilds_create _ _) (fun r => ?_)
  exact rebuilds_ite _ (rebuilds_raise _) (rebuilds_modifySync (fun _ => rfl)
    (fun _ => Or.inl rfl) (fun _ => Or.inl rfl) (fun _ => Or.inl (List.length_set _ _ _)))

/-- The rebuild of a recreation gives out handles, may give the per-slot
vectors of synchronisation objects one entry per slot, and leaves the loop
members as they are. -/
theorem rebuilds_recreateRebuild (env : RecreateEnv) (n : Nat) :
    Rebuilds (recreateRebuild env n) := by
  unfold recreateRebuild
  refine rebuilds_bind (rebuilds_createSwapchain env n) (fun _ => ?_)
  refine rebuilds_bind rebuilds_getApp (fun a => ?_)
  refine rebuilds_bind (rebuilds_getImageViews _ _ _) (fun _ => ?_)
  refine rebuilds_bind
    (rebuilds_modifyApp (fun _ => rfl) (fun _ => rfl) (fun _ => rfl) (fun _ => rfl))
    (fun _ => ?_)
  refine rebuilds_bind (rebuilds_createRenderPass env) (fun _ => ?_)
  refine rebuilds_bind rebuilds_getApp (fun a => ?_)
  refine rebuilds_bind (rebuilds_createPipeline env _) (fun _ => ?_)
  refine rebuilds_bind rebuilds_getApp (fun a => ?_)
  refine rebuilds_bind (rebuilds_createFramebuffers _ _ _ _) (fun _ => ?_)
  exact rebuilds_createSyncObjects env

theorem triple_andThen {α β : Type} {P R Q : World → Prop} {m : M α} {f : α → M β}
    (hm : Triple P m R) (hf : ∀ a, Triple R (f a) Q) : Triple P (m.andThen f) Q := by
  intro w hP b h
  have hmw := hm w hP
  simp only [M.andThen] at h ⊢
  rcases hrun : m w with ⟨o, w1, cs⟩
  rw [hrun] at h hmw
  cases o with
  | returned a => exact hf a w1 (hmw a rfl) b h
  | raised e => simp at h
  | blocked => simp at h

theorem triple_bind {α β : Type} {P R Q : World → Prop} {m : M α} {f : α → M β}
    (hm : Triple P m R) (hf : ∀ a, Triple R (f a) Q) : Triple P (m >>= f) Q :=
  triple_andThen hm hf

/-- A statement of a rebuild keeps what every rebuild step keeps. -/
theorem triple_of_rebuilds {α : Type} {P Q : World → Prop} {m : M α} (hm : Rebuilds m)
    (h : ∀ w w1, P w → Rebuilt w w1 → Q w1) : Triple P m Q :=
  fun w hP _ _ => h w _ hP (hm w)

theorem triple_modifyApp {P Q : World → Prop} {f : App → App}
    (h : ∀ w, P w → Q { w with app := f w.app }) : Triple P (modifyApp f) Q :=
  fun w hP _ _ => h w hP

theorem triple_still {α : Type} {P : World → Prop} {m : M α} (h : ∀ w, (m w).world = w) :
    Triple P m P := by
  intro w hP _ _
  rw [h w]
  exact hP

theorem triple_ite {α : Type} {P Q : World → Prop} (c : Prop) [Decidable c] {m1 m2 : M α}
    (h1 : Triple P m1 Q) (h2 : Triple P m2 Q) : Triple P (if c then m1 else m2) Q := by
  split
  · exact h1
  · exact h2

theorem triple_raise {α : Type} {P Q : World → Prop} (e : String) :
    Triple P (raise e : M α) Q := by
  intro w _ a h
  simp [raise] at h

@[simp] theorem create_andThen {β : Type} (c : Call) (r : Nat → VkResult)
    (f : VkResult × Handle → M β) (w : World) :
    (create c r).andThen f w
      = ⟨(f (r w.next, w.next + 1) { w with next := w.next + 1 }).outcome,
          (f (r w.next, w.next + 1) { w with next := w.next + 1 }).world,
          c :: (f (r w.next, w.next + 1) { w with next := w.next + 1 }).calls⟩ := rfl

/-- The wait for a nonzero size changes at most the member
`m_framebuffer_resized`: the resize callback can set it during a wait for
events, and nothing clears it. -/
theorem waitWhileMinimized_world (env : RecreateEnv) (fuel : Nat) :
    ∀ (n : Nat) (size : Int × Int) (w : World), ∃ b : Bool,
      (waitWhileMinimized env fuel n size w).world
          = { w with app := { w.app with m_framebuffer_resized := b } }
        ∧ (w.app.m_framebuffer_resized = true → b = true)
        ∧ ((∀ i, env.wait_resized i = false) → b = w.app.m_framebuffer_resized)
        ∧ (¬ (size.1 = 0 ∨ size.2 = 0) → b = w.app.m_framebuffer_resized)
        ∧ (b = true → w.app.m_framebuffer_resized = true ∨ ∃ i, env.wait_resized i = true) := by
  induction fuel with
  | zero =>
    intro n size w
    refine ⟨w.app.m_framebuffer_resized, ?_, fun h => h, fun _ => rfl, fun _ => rfl,
      fun h => Or.inl h⟩
    simp only [waitWhileMinimized]
    split <;> rfl
  | succ fuel ih =>
    intro n size w
    by_cases hz : size.1 = 0 ∨ size.2 = 0
    · simp only [waitWhileMinimized, hz, if_true, bind_eq_andThen, emit_andThen]
      by_cases hr : env.wait_resized n = true
      · simp only [hr, if_true, framebuffer_resize_callback, modifyApp_andThen]
        obtain ⟨b, hw, h1, -, -, -⟩ := ih (n + 1) (env.sizes n)
          { w with app := { w.app with m_framebuffer_resized := true } }
        have hb : b = true := h1 rfl
        subst hb
        refine ⟨true, ?_, fun _ => rfl, ?_, fun h => absurd trivial h, fun _ => Or.inr ⟨n, hr⟩⟩
        · rw [hw]
        · intro hall
          rw [hall n] at hr
          exact absurd hr (by simp)
      · simp only [hr, Bool.false_eq_true, if_false, pure_eq_ret, ret_andThen]
        obtain ⟨b, hw, h1, h2, -, h4⟩ := ih (n + 1) (env.sizes n) w
        exact ⟨b, hw, h1, h2, fun h => absurd trivial h, h4⟩
    · refine ⟨w.app.m_framebuffer_resized, ?_, fun h => h, fun _ => rfl, fun _ => rfl,
        fun h => Or.inl h⟩
      simp only [waitWhileMinimized, hz, if_false]
      rfl

/-- The state after a recreation: the stall can set `m_framebuffer_resized`,
and from there the state changes as a rebuild can. -/
theorem recreateSwapchain_world (fuel : Nat) (env : RecreateEnv) (w : World) :
    ∃ b : Bool,
      (w.app.m_framebuffer_resized = true → b = true)
        ∧ ((∀ i, env.wait_resized i = false) → b = w.app.m_framebuffer_resized)
        ∧ (¬ ((env.sizes 0).1 = 0 ∨ (env.sizes 0).2 = 0) → b = w.app.m_framebuffer_resized)
        ∧ (b = true → w.app.m_framebuffer_resized = true ∨ ∃ i, env.wait_resized i = true)
        ∧ Rebuilt { w with app := { w.app with m_framebuffer_resized := b } }
            (recreateSwapchain fuel env w).world := by
  obtain ⟨b, hw, h1, h2, h3, h4⟩ := waitWhileMinimized_world env fuel 1 (env.sizes 0) w
  have hstall : (recreateStall fuel env w).world
      = { w with app := { w.app with m_framebuffer_resized := b } } := by
    simp only [recreateStall, bind_eq_andThen, emit_andThen]
    exact hw
  refine ⟨b, h1, h2, h3, h4, ?_⟩
  rcases (recreateStall_run fuel env w).1 with ⟨k, hk⟩ | hblocked
  · obtain ⟨-, hworld, -⟩ := recreateSwapchain_after_stall fuel env w k hk
    rw [hworld, ← hstall]
    exact rebuilds_recreateRebuild env k _
  · have hnot : ∀ a, (recreateStall fuel env w).outcome ≠ .returned a := by
      intro a h
      rw [hblocked] at h
      cases h
    have hworld : (recreateSwapchain fuel env w).world = (recreateStall fuel env w).world := by
      simp only [recreateSwapchain, bind_eq_andThen, emit_andThen, recreateSwapchainBody_stages]
      exact (andThen_of_not_returned _ _ w hnot).2.1
    rw [hworld, hstall]
    exact rebuilt_refl _

/-- The iteration of `drawFrame` from the sample state, with an out-of-date
acquire while the window is minimized: the window is restored during the wait
for events, the resize callback runs, and the iteration that started with
`m_framebuffer_resized` not set ends with it set. -/
theorem abandoned_iteration_sets_resized :
    restoredFrame.acquire_result = VK_ERROR_OUT_OF_DATE_KHR
      ∧ sampleWorld.app.m_framebuffer_resized = false
      ∧ (drawFrame 1 restoredFrame sampleWorld).outcome = .returned ()
      ∧ (drawFrame 1 restoredFrame sampleWorld).world.app.m_framebuffer_resized = true := by
  decide!

/-- C28, as amended (an abandoned iteration).  A `drawFrame` iteration whose
acquire returns out-of-date leaves `m_current_frame` unchanged, so the next
iteration uses the same slot index.  It never clears `m_framebuffer_resized`,
and it leaves that member unchanged when the window is not minimized at the
first size observation of the recreation, or when the resize callback does not
run during a wait for events of the recreation; the member changes only by such
a run of the callback, which sets it. -/
theorem abandoned_iteration (fuel : Nat) (env : FrameEnv) (w : World)
    (hood : env.acquire_result = VK_ERROR_OUT_OF_DATE_KHR) :
    (drawFrame fuel env w).world.app.m_current_frame = w.app.m_current_frame
      ∧ (w.app.m_framebuffer_resized = true →
          (drawFrame fuel env w).world.app.m_framebuffer_resized = true)
      ∧ (¬ ((env.recreate.sizes 0).1 = 0 ∨ (env.recreate.sizes 0).2 = 0) →
          (drawFrame fuel env w).world.app.m_framebuffer_resized
            = w.app.m_framebuffer_resized)
      ∧ ((∀ i, env.recreate.wait_resized i = false) →
          (drawFrame fuel env w).world.app.m_framebuffer_resized
            = w.app.m_framebuffer_resized)
      ∧ ((drawFrame fuel env w).world.app.m_framebuffer_resized
            ≠ w.app.m_framebuffer_resized →
          (drawFrame fuel env w).world.app.m_framebuffer_resized = true
            ∧ ∃ i, env.recreate.wait_resized i = true) := by
  rw [drawFrame_out_of_date fuel env w hood]
  obtain ⟨b, h1, h2, h3, h4, hre⟩ := recreateSwapchain_world fuel env.recreate w
  obtain ⟨-, hloop, -⟩ := hre
  simp only [loopMembers, Prod.mk.injEq] at hloop
  obtain ⟨-, -, -, -, hcur, hflag, -⟩ := hloop
  simp only at hcur hflag ⊢
  refine ⟨hcur, ?_, ?_, ?_, ?_⟩
  · intro h
    rw [hflag]
    exact h1 h
  · intro h
    rw [hflag]
    exact h3 h
  · intro h
    rw [hflag]
    exact h2 h
  · intro hne
    rw [hflag] at hne ⊢
    have hb : b = true := by
      cases hb : b
      · cases hf : w.app.m_framebuffer_resized
        · rw [hb, hf] at hne
          exact absurd rfl hne
        · exact absurd (h1 hf) (by simp [hb])
      · rfl
    refine ⟨hb, ?_⟩
    rcases h4 hb with hf | hex
    · rw [hb, hf] at hne
      exact absurd rfl hne
    · exact hex

/-- With an out-of-date acquire and a window that is not minimized, the
iteration from the sample state leaves slot index and resize flag as they
were. -/
theorem abandoned_iteration_witness :
    staleFrame.acquire_result = VK_ERROR_OUT_OF_DATE_KHR
      ∧ (drawFrame 0 staleFrame sampleWorld).world.app.m_current_frame = 0
      ∧ (drawFrame 0 staleFrame sampleWorld).world.app.m_framebuffer_resized = false :=
  ⟨rfl, (abandoned_iteration 0 staleFrame sampleWorld rfl).1,
    ((abandoned_iteration 0 staleFrame sampleWorld rfl).2.2.1 (by decide)).trans rfl⟩

theorem slotsInBounds_of_rebuilt {w w1 : World} (h : Rebuilt w w1)
    (hin : SlotsInBounds w.app) : SlotsInBounds w1.app := by
  obtain ⟨-, hloop, h1, h2, h3⟩ := h
  simp only [loopMembers, Prod.mk.injEq] at hloop
  obtain ⟨-, -, -, hcb, hcur, -, -⟩ := hloop
  obtain ⟨a1, a2, a3, a4, a5⟩ := hin
  refine ⟨by rw [hcur]; exact a1, by rw [hcb]; exact a2, ?_, ?_, ?_⟩
  · rcases h1 with h | h
    · rw [h]; exact a3
    · exact h
  · rcases h2 with h | h
    · rw [h]; exact a4
    · exact h
  · rcases h3 with h | h
    · rw [h]; exact a5
    · exact h

/-- A recreation keeps the slot index in range and the per-slot vectors at one
entry per slot, however it ends. -/
theorem slotsInBounds_recreateSwapchain (fuel : Nat) (env : RecreateEnv) (w : World)
    (hin : SlotsInBounds w.app) : SlotsInBounds (recreateSwapchain fuel env w).world.app := by
  obtain ⟨b, -, -, -, -, hre⟩ := recreateSwapchain_world fuel env w
  exact slotsInBounds_of_rebuilt hre hin

/-- An iteration of `drawFrame` keeps the slot index in range and the per-slot
vectors at one entry per slot, however it ends. -/
theorem slotsInBounds_drawFrame (fuel : Nat) (env : FrameEnv) (w : World)
    (hin : SlotsInBounds w.app) : SlotsInBounds (drawFrame fuel env w).world.app := by
  by_cases hood : env.acquire_result = VK_ERROR_OUT_OF_DATE_KHR
  · rw [drawFrame_out_of_date fuel env w hood]
    exact slotsInBounds_recreateSwapchain fuel env.recreate w hin
  · by_cases hacq : env.acquire_result = VK_SUCCESS ∨ env.acquire_result = VK_SUBOPTIMAL_KHR
    · rcases drawFrame_drawing fuel env w hacq with ⟨_, h⟩ | ⟨_, _, h⟩ | ⟨_, _, _, h⟩
        | ⟨_, _, _, _, h⟩ | ⟨_, _, _, _, h⟩
      · rw [h]; exact hin
      · rw [h]; exact hin
      · rw [h]; exact hin
      · rw [h]; exact hin
      · rw [h]
        obtain ⟨a1, a2, a3, a4, a5⟩ := hin
        refine ⟨?_, a2, a3, a4, a5⟩
        simp only [advanced, MAX_FRAMES_IN_FLIGHT]
        exact Nat.mod_lt _ (by decide)
    · rw [drawFrame_acquire_error fuel env w hood (fun h => hacq (Or.inl h))
        (fun h => hacq (Or.inr h))]
      exact hin

theorem slotsInBounds_runSteps (steps : List LoopStep) :
    ∀ w : World, SlotsInBounds w.app → SlotsInBounds (runSteps steps w).app := by
  induction steps with
  | nil => intro w h; exact h
  | cons step rest ih =>
    intro w h
    simp only [runSteps]
    apply ih
    cases step with
    | draw fuel env => exact slotsInBounds_drawFrame fuel env w h
    | recreate fuel env => exact slotsInBounds_recreateSwapchain fuel env w h

/-- Whatever its outcome, `createSyncObjects` leaves the three vectors of
synchronisation objects with one entry per slot. -/
theorem createSyncObjects_lengths (env : RecreateEnv) (w : World) :
    (createSyncObjects env w).world.app.m_image_available.length = MAX_FRAMES_IN_FLIGHT
      ∧ (createSyncObjects env w).world.app.m_render_finished.length = MAX_FRAMES_IN_FLIGHT
      ∧ (createSyncObjects env w).world.app.m_in_flight_frame.length
          = MAX_FRAMES_IN_FLIGHT := by
  have hloop : Rebuilds (forEach (createSyncObjectsAt env) (List.range MAX_FRAMES_IN_FLIGHT)) := by
    refine rebuilds_forEach (fun i => ?_) _
    unfold createSyncObjectsAt
    refine rebuilds_bind (rebuilds_create _ _) (fun r => ?_)
    refine rebuilds_ite _ (rebuilds_raise _) ?_
    refine rebuilds_bind (rebuilds_modifySync (fun _ => rfl)
      (fun _ => Or.inl (List.length_set _ _ _)) (fun _ => Or.inl rfl) (fun _ => Or.inl rfl))
      (fun _ => ?_)
    refine rebuilds_bind (rebuilds_create _ _) (fun r => ?_)
    refine rebuilds_ite _ (rebuilds_raise _) ?_
    refine rebuilds_bind (rebuilds_modifySync (fun _ => rfl)
      (fun _ => Or.inl rfl) (fun _ => Or.inl (List.length_set _ _ _)) (fun _ => Or.inl rfl))
      (fun _ => ?_)
    refine rebuilds_bind (rebuilds_create _ _) (fun r => ?_)
    exact rebuilds_ite _ (rebuilds_raise _) (rebuilds_modifySync (fun _ => rfl)
      (fun _ => Or.inl rfl) (fun _ => Or.inl rfl) (fun _ => Or.inl (List.length_set _ _ _)))
  simp only [createSyncObjects, bind_eq_andThen, modifyApp_andThen]
  obtain ⟨-, -, h1, h2, h3⟩ := hloop
    { w with app := { w.app with
        m_image_available := resize w.app.m_image_available MAX_FRAMES_IN_FLIGHT
        m_render_finished := resize w.app.m_render_finished MAX_FRAMES_IN_FLIGHT
        m_in_flight_frame := resize w.app.m_in_flight_frame MAX_FRAMES_IN_FLIGHT } }
  simp only [resize_length] at h1 h2 h3
  exact ⟨by rcases h1 with h | h <;> exact h, by rcases h2 with h | h <;> exact h,
    by rcases h3 with h | h <;> exact h⟩

/-- When `createCommandBuffers` returns there is one command buffer per slot;
the slot index is as it was. -/
theorem createCommandBuffers_returned (env : InitEnv) (w : World)
    (h : (createCommandBuffers env w).outcome = .returned ()) :
    (createCommandBuffers env w).world.app.m_command_buffers.length = MAX_FRAMES_IN_FLIGHT
      ∧ (createCommandBuffers env w).world.app.m_current_frame = w.app.m_current_frame := by
  simp only [createCommandBuffers, bind_eq_andThen, modifyApp_andThen, getApp_andThen,
    emit_andThen, ite_andThen] at h ⊢
  by_cases hr : env.allocate_result = VK_SUCCESS
  · simp [hr, swapchainImages, M.andThen, modifyApp, resize_length]
  · simp [hr, raise] at h

/-- When `initVulkan` returns from the constructed application, the slot index
is 0 and every per-slot vector has one entry per slot. -/
theorem slotsInBounds_initVulkan (env : InitEnv) (next : Nat)
    (h : (initVulkan env ⟨constructedApp, next⟩).outcome = .returned ()) :
    SlotsInBounds (initVulkan env ⟨constructedApp, next⟩).world.app := by
  have hkeep : ∀ {α : Type} {m : M α}, Rebuilds m →
      Triple (fun w => w.app.m_current_frame = 0) m (fun w => w.app.m_current_frame = 0) := by
    intro α m hm
    refine triple_of_rebuilds hm (fun w w1 h0 hre => ?_)
    obtain ⟨-, hloop, -⟩ := hre
    simp only [loopMembers, Prod.mk.injEq] at hloop
    rw [hloop.2.2.2.2.1]
    exact h0
  have hmod : ∀ {f : App → App}, (∀ a, (f a).m_current_frame = a.m_current_frame) →
      Triple (fun w => w.app.m_current_frame = 0) (modifyApp f)
        (fun w => w.app.m_current_frame = 0) := by
    intro f hf
    exact triple_modifyApp (fun w h0 => by simpa [hf] using h0)
  have htriple : Triple (fun w => w.app.m_current_frame = 0) (initVulkan env)
      (fun w => SlotsInBounds w.app) := by
    unfold initVulkan
    refine triple_bind (hmod (fun _ => rfl)) (fun _ => ?_)
    refine triple_bind (hmod (fun _ => rfl)) (fun _ => ?_)
    refine triple_bind (hkeep (rebuilds_createSwapchain _ _)) (fun _ => ?_)
    refine triple_bind (hkeep (rebuilds_createRenderPass _)) (fun _ => ?_)
    refine triple_bind (hkeep rebuilds_getApp) (fun a => ?_)
    refine triple_bind (hkeep (rebuilds_createPipeline _ _)) (fun _ => ?_)
    refine triple_bind (hkeep rebuilds_getApp) (fun a => ?_)
    refine triple_bind (hkeep (rebuilds_createFramebuffers _ _ _ _)) (fun _ => ?_)
    refine triple_bind (hmod (fun _ => rfl)) (fun _ => ?_)
    refine triple_bind (hmod (fun _ => rfl)) (fun _ => ?_)
    refine triple_bind (R := fun w => w.app.m_current_frame = 0
      ∧ w.app.m_command_buffers.length = MAX_FRAMES_IN_FLIGHT) ?_ (fun _ => ?_)
    · intro w h0 a ha
      obtain ⟨h1, h2⟩ := createCommandBuffers_returned env w ha
      exact ⟨by rw [h2]; exact h0, h1⟩
    · intro w hw a _
      obtain ⟨l1, l2, l3⟩ := createSyncObjects_lengths env.build w
      obtain ⟨-, hloop, -⟩ := rebuilds_createSyncObjects env.build w
      simp only [loopMembers, Prod.mk.injEq] at hloop
      refine ⟨?_, ?_, l1, l2, l3⟩
      · rw [hloop.2.2.2.2.1, hw.1]; decide
      · rw [hloop.2.2.2.1]; exact hw.2
  exact htriple _ rfl () h

/-- C26 (slot indexing is in bounds).  In every state reached from a returned
`initVulkan` by iterations of `drawFrame` and calls of `recreateSwapchain`,
however each of them ends, `m_current_frame < MAX_FRAMES_IN_FLIGHT` and the
vectors `m_command_buffers`, `m_image_available`, `m_render_finished` and
`m_in_flight_frame` have length exactly `MAX_FRAMES_IN_FLIGHT`; so the slot
index is a valid index of each of them. -/
theorem slot_indexing_in_bounds (env : InitEnv) (next : Nat) (steps : List LoopStep)
    (hinit : (initVulkan env ⟨constructedApp, next⟩).outcome = .returned ()) :
    SlotsInBounds (runSteps steps (initVulkan env ⟨constructedApp, next⟩).world).app
      ∧ (runSteps steps (initVulkan env ⟨constructedApp, next⟩).world).app.m_current_frame
          < (runSteps steps
              (initVulkan env ⟨constructedApp, next⟩).world).app.m_command_buffers.length
      ∧ (runSteps steps (initVulkan env ⟨constructedApp, next⟩).world).app.m_current_frame
          < (runSteps steps
              (initVulkan env ⟨constructedApp, next⟩).world).app.m_image_available.length
      ∧ (runSteps steps (initVulkan env ⟨constructedApp, next⟩).world).app.m_current_frame
          < (runSteps steps
              (initVulkan env ⟨constructedApp, next⟩).world).app.m_render_finished.length
      ∧ (runSteps steps (initVulkan env ⟨constructedApp, next⟩).world).app.m_current_frame
          < (runSteps steps
              (initVulkan env ⟨constructedApp, next⟩).world).app.m_in_flight_frame.length := by
  have h := slotsInBounds_runSteps steps _ (slotsInBounds_initVulkan env next hinit)
  obtain ⟨a1, a2, a3, a4, a5⟩ := h
  exact ⟨⟨a1, a2, a3, a4, a5⟩, by rw [a2]; exact a1, by rw [a3]; exact a1,
    by rw [a4]; exact a1, by rw [a5]; exact a1⟩

/-- After an initialisation in which every call succeeds, a frame, a frame with
an out-of-date acquire, a recreation through a minimized window and one more
frame, the slot index is 0 and the four per-slot vectors have two entries. -/
theorem slot_indexing_in_bounds_witness :
    (initVulkan calmInit ⟨constructedApp, 3⟩).outcome = .returned ()
      ∧ SlotsInBounds (runSteps
          [.draw 0 calmFrame, .draw 0 staleFrame, .recreate 2 minimizedRecreate,
            .draw 0 calmFrame]
          (initVulkan calmInit ⟨constructedApp, 3⟩).world).app
      ∧ (runSteps
          [.draw 0 calmFrame, .draw 0 staleFrame, .recreate 2 minimizedRecreate,
            .draw 0 calmFrame]
          (initVulkan calmInit ⟨constructedApp, 3⟩).world).app.m_current_frame = 0 :=
  ⟨by decide!,
    (slot_indexing_in_bounds calmInit 3
      [.draw 0 calmFrame, .draw 0 staleFrame, .recreate 2 minimizedRecreate,
        .draw 0 calmFrame] (by decide!)).1,
    by decide!⟩

theorem swapchainCreateInfo_request (a : App) (queue_families : List QueueFamily)
    (iteration_order : List Nat → List Nat) :
    (swapchainCreateInfo a queue_families iteration_order).swapchainRequest
      = some (imageCount a.m_swapchain_support_details.capabilities,
          a.m_swapchain_params.surface_format) := by
  by_cases h : (findQueueFamilies queue_families).graphics_family
      ≠ (findQueueFamilies queue_families).present_family
  · rw [(swapchainCreateInfo_sharing a queue_families iteration_order).1 h]
    rfl
  · rw [(swapchainCreateInfo_sharing a queue_families iteration_order).2 (not_not.mp h)]
    rfl

theorem emits_views_getImageViews (env : RecreateEnv) (fmt : VkSurfaceFormatKHR)
    (images : List Handle) :
    Emits Call.isImageViewCreation (getImageViews env fmt images) := by
  induction images with
  | nil => exact emits_pure []
  | cons image rest ih =>
    refine emits_bind (emits_create _ rfl) (fun r => ?_)
    exact emits_ite _ (emits_raise _) (emits_bind ih (fun _ => emits_pure _))

/-- A call of `createSwapchain()` makes exactly one request for a swapchain: the
image count computed from the capabilities that the surface reports, and the
format chosen from the formats that it reports. -/
theorem createSwapchain_requests (env : RecreateEnv) (n : Nat) (w : World) :
    (createSwapchain env n w).calls.filterMap Call.swapchainRequest
      = [(imageCount env.support.capabilities, chooseSwapSurfaceFormat env.support.formats)] := by
  have htail : ∀ swap_chain : Handle, Emits Call.isImageViewCreation
      ((modifyApp (fun a => { a with m_swapchain := swap_chain })).andThen fun _ =>
        (getSwapchainImages env).andThen fun swapchain_images =>
        (modifyApp (fun a => { a with m_swapchain_images := swapchain_images })).andThen fun _ =>
        getApp.andThen fun a =>
        (getImageViews env a.m_swapchain_params.surface_format a.m_swapchain_images).andThen
          fun image_views =>
        modifyApp (fun a => { a with m_swapchain_views := image_views })) := by
    intro swap_chain
    refine emits_andThen (emits_modifyApp _) (fun _ => ?_)
    refine emits_andThen (emits_getSwapchainImages env) (fun _ => ?_)
    refine emits_andThen (emits_modifyApp _) (fun _ => ?_)
    refine emits_andThen emits_getApp (fun a => ?_)
    refine emits_andThen (emits_views_getImageViews _ _ _) (fun _ => ?_)
    exact emits_modifyApp _
  have hobs : ∀ x y : Int, (Call.glfwGetFramebufferSize x y).swapchainRequest = none :=
    fun _ _ => rfl
  have hnone : ∀ cs : List Call, (∀ c ∈ cs, c.isImageViewCreation = true) →
      cs.filterMap Call.swapchainRequest = [] := by
    intro cs h
    rw [List.filterMap_eq_nil_iff]
    intro c hc
    have := h c hc
    cases c <;> simp_all [Call.isImageViewCreation, Call.swapchainRequest]
  simp only [createSwapchain, chooseSwapExtentM, createSwapchainWithParams, bind_eq_andThen,
    pure_eq_ret, andThen_assoc, modifyApp_andThen, getApp_andThen, ite_andThen, ret_andThen]
  by_cases hd : env.support.capabilities.currentExtent.width ≠ UINT32_MAX
  · simp only [hd, if_true, ne_eq, not_false_eq_true, ret_andThen, modifyApp_andThen,
      getApp_andThen, create_andThen, List.filterMap_cons, swapchainCreateInfo_request]
    by_cases hr : env.create_result w.next = VK_SUCCESS
    · simp only [hr, ne_eq, not_true_eq_false, if_false, ret_andThen]
      rw [hnone _ (htail _ _)]
    · simp [hr]
  · simp only [hd, if_false, emit_andThen, ret_andThen, modifyApp_andThen,
      getApp_andThen, create_andThen, List.filterMap_cons, swapchainCreateInfo_request,
      hobs]
    by_cases hr : env.create_result w.next = VK_SUCCESS
    · simp only [hr, ne_eq, not_true_eq_false, if_false, ret_andThen]
      rw [hnone _ (htail _ _)]
    · simp [hr]

theorem emits_dependent_getImageViews (env : RecreateEnv) (fmt : VkSurfaceFormatKHR)
    (images : List Handle) :
    Emits Call.isDependentCreation (getImageViews env fmt images) := by
  induction images with
  | nil => exact emits_pure []
  | cons image rest ih =>
    refine emits_bind (emits_create _ rfl) (fun r => ?_)
    exact emits_ite _ (emits_raise _) (emits_bind ih (fun _ => emits_pure _))

theorem emits_dependent_createFramebuffers (env : RecreateEnv) (extent : VkExtent2D)
    (render_pass : Handle) (views : List Handle) :
    Emits Call.isDependentCreation (createFramebuffers env extent render_pass views) := by
  induction views with
  | nil => exact emits_pure []
  | cons view rest ih =>
    refine emits_bind (emits_create _ rfl) (fun r => ?_)
    exact emits_ite _ (emits_raise _) (emits_bind ih (fun _ => emits_pure _))

theorem emits_dependent_createRenderPass (env : RecreateEnv) :
    Emits Call.isDependentCreation (createRenderPass env) := by
  unfold createRenderPass
  refine emits_bind emits_getApp (fun a => ?_)
  refine emits_bind (emits_create _ rfl) (fun r => ?_)
  exact emits_ite _ (emits_raise _) (emits_modifyApp _)

theorem emits_dependent_createPipeline (env : RecreateEnv) (render_pass : Handle) :
    Emits Call.isDependentCreation (createPipeline env render_pass) := by
  unfold createPipeline
  refine emits_bind (emits_create _ rfl) (fun r => ?_)
  refine emits_ite _ (emits_raise _) ?_
  refine emits_bind (emits_modifyApp _) (fun _ => ?_)
  refine emits_bind (emits_create _ rfl) (fun r => ?_)
  exact emits_ite _ (emits_raise _) (emits_modifyApp _)

/-- Every fence that `createSyncObjects` creates is created signaled, and its
other calls create semaphores. -/
theorem emits_dependent_createSyncObjects (env : RecreateEnv) :
    Emits Call.isDependentCreation (createSyncObjects env) := by
  unfold createSyncObjects
  refine emits_bind (emits_modifyApp _) (fun _ => ?_)
  refine emits_bind (emits_modifyApp _) (fun _ => ?_)
  refine emits_bind (emits_modifyApp _) (fun _ => ?_)
  refine emits_forEach (fun i => ?_) _
  unfold createSyncObjectsAt
  refine emits_bind (emits_create _ rfl) (fun r => ?_)
  refine emits_ite _ (emits_raise _) ?_
  refine emits_bind (emits_modifyApp _) (fun _ => ?_)
  refine emits_bind (emits_create _ rfl) (fun r => ?_)
  refine emits_ite _ (emits_raise _) ?_
  refine emits_bind (emits_modifyApp _) (fun _ => ?_)
  refine emits_bind (emits_create _ rfl) (fun r => ?_)
  exact emits_ite _ (emits_raise _) (emits_modifyApp _)

/-- The calls of a sequence: those of its first part, followed by those of its
second part when the first part returns. -/
theorem andThen_calls {α β : Type} (m : M α) (f : α → M β) (w : World) :
    (m.andThen f w).calls = (m w).calls
      ∨ ∃ a, (m.andThen f w).calls = (m w).calls ++ (f a (m w).world).calls := by
  simp only [M.andThen]
  rcases h : m w with ⟨o, w1, cs⟩
  cases o with
  | returned a => exact Or.inr ⟨a, rfl⟩
  | raised e => exact Or.inl rfl
  | blocked => exact Or.inl rfl

/-- The calls of a rebuild are those of `createSwapchain()`, followed by
creations of the objects that depend on the swapchain. -/
theorem recreateRebuild_dependent (env : RecreateEnv) (n : Nat) (w : World) :
    ∃ rest, (recreateRebuild env n w).calls = (createSwapchain env n w).calls ++ rest
      ∧ ∀ c ∈ rest, c.isDependentCreation = true := by
  have htail : Emits Call.isDependentCreation
      (getApp.andThen fun a =>
        (getImageViews env a.m_swapchain_params.surface_format a.m_swapchain_images).andThen
          fun image_views =>
        (modifyApp (fun a => { a with m_swapchain_views := image_views })).andThen fun _ =>
        (createRenderPass env).andThen fun _ =>
        getApp.andThen fun a =>
        (createPipeline env a.m_render_pass).andThen fun _ =>
        getApp.andThen fun a =>
        (createFramebuffers env a.m_swapchain_params.extent a.m_render_pass
          a.m_swapchain_views).andThen fun _ =>
        createSyncObjects env) := by
    refine emits_andThen emits_getApp (fun a => ?_)
    refine emits_andThen (emits_dependent_getImageViews _ _ _) (fun _ => ?_)
    refine emits_andThen (emits_modifyApp _) (fun _ => ?_)
    refine emits_andThen (emits_dependent_createRenderPass env) (fun _ => ?_)
    refine emits_andThen emits_getApp (fun a => ?_)
    refine emits_andThen (emits_dependent_createPipeline env _) (fun _ => ?_)
    refine emits_andThen emits_getApp (fun a => ?_)
    refine emits_andThen (emits_dependent_createFramebuffers _ _ _ _) (fun _ => ?_)
    exact emits_dependent_createSyncObjects env
  simp only [recreateRebuild, bind_eq_andThen]
  rcases andThen_calls (createSwapchain env n) _ w with h | ⟨a, h⟩
  · exact ⟨[], by rw [h, List.append_nil], fun c hc => absurd hc (List.not_mem_nil c)⟩
  · exact ⟨_, h, fun c hc => htail _ c hc⟩

/-- A recreation that is not left waiting for a nonzero size makes exactly one
request for a swapchain, with the image count computed from the capabilities
that the surface reports and the format chosen from the formats it reports. -/
theorem recreateSwapchain_requests (fuel : Nat) (env : RecreateEnv) (w : World)
    (h : (recreateSwapchain fuel env w).outcome ≠ .blocked) :
    (recreateSwapchain fuel env w).calls.filterMap Call.swapchainRequest
      = [(imageCount env.support.capabilities, chooseSwapSurfaceFormat env.support.formats)] := by
  have hnone : ∀ cs : List Call,
      (∀ c ∈ cs, c.kind = .window ∨ c.kind = .destroy ∨ c.isDependentCreation = true) →
      cs.filterMap Call.swapchainRequest = [] := by
    intro cs hcs
    rw [List.filterMap_eq_nil_iff]
    intro c hc
    rcases hcs c hc with hk | hk | hk
    · cases c <;> first | rfl | exact absurd hk (by simp [Call.kind])
    · cases c <;> first | rfl | exact absurd hk (by simp [Call.kind])
    · cases c <;> first | rfl | exact absurd hk (by simp [Call.isDependentCreation])
  rcases recreateSwapchain_stages fuel env w with ⟨hb, -⟩ | ⟨k, -, -, hcalls⟩
  · exact absurd hb h
  · obtain ⟨rest, hre, hrest⟩ := recreateRebuild_dependent env k (recreateStall fuel env w).world
    rw [hcalls, hre]
    simp only [List.filterMap_cons, List.filterMap_append, createSwapchain_requests]
    rw [hnone (recreateStall fuel env w).calls
        (fun c hc => Or.inl ((recreateStall_run fuel env w).2.1 c hc)),
      hnone (teardownCalls w.app) (fun c hc => Or.inr (Or.inl (teardownCalls_kind w.app c hc))),
      hnone rest (fun c hc => Or.inr (Or.inr (hrest c hc)))]
    rfl

theorem imageCount_congr (c1 c2 : VkSurfaceCapabilitiesKHR)
    (hmin : c1.minImageCount = c2.minImageCount) (hmax : c1.maxImageCount = c2.maxImageCount) :
    imageCount c1 = imageCount c2 := by
  simp only [imageCount, hmin, hmax]

/-- C24 (recreation idempotence).  For two builds of the swapchain on surfaces
that report the same minimum and maximum image count and the same list of
formats, whatever the window sizes, the other capabilities, the states in which
the builds start and the results of the platform calls: each call of
`createSwapchain()` requests one swapchain, and both request the same image
count and the same surface format; so do two calls of `recreateSwapchain` that
are not left waiting for a nonzero size. -/
theorem recreation_idempotence (env1 env2 : RecreateEnv)
    (hmin : env1.support.capabilities.minImageCount = env2.support.capabilities.minImageCount)
    (hmax : env1.support.capabilities.maxImageCount = env2.support.capabilities.maxImageCount)
    (hformats : env1.support.formats = env2.support.formats) :
    (∀ (n1 n2 : Nat) (w1 w2 : World),
        (createSwapchain env1 n1 w1).calls.filterMap Call.swapchainRequest
          = [(imageCount env1.support.capabilities,
                chooseSwapSurfaceFormat env1.support.formats)]
        ∧ (createSwapchain env2 n2 w2).calls.filterMap Call.swapchainRequest
          = (createSwapchain env1 n1 w1).calls.filterMap Call.swapchainRequest)
    ∧ (∀ (fuel1 fuel2 : Nat) (w1 w2 : World),
        (recreateSwapchain fuel1 env1 w1).outcome ≠ .blocked →
        (recreateSwapchain fuel2 env2 w2).outcome ≠ .blocked →
        (recreateSwapchain fuel1 env1 w1).calls.filterMap Call.swapchainRequest
          = [(imageCount env1.support.capabilities,
                chooseSwapSurfaceFormat env1.support.formats)]
        ∧ (recreateSwapchain fuel2 env2 w2).calls.filterMap Call.swapchainRequest
          = (recreateSwapchain fuel1 env1 w1).calls.filterMap Call.swapchainRequest) := by
  have hic := imageCount_congr _ _ hmin hmax
  constructor
  · intro n1 n2 w1 w2
    rw [createSwapchain_requests, createSwapchain_requests, hic, hformats]
    exact ⟨rfl, rfl⟩
  · intro fuel1 fuel2 w1 w2 h1 h2
    rw [recreateSwapchain_requests _ _ _ h1, recreateSwapchain_requests _ _ _ h2, hic, hformats]
    exact ⟨rfl, rfl⟩

/-- A recreation with a window of 800 by 600 on a surface with a defined extent
and one through a minimized window on a surface with the undefined extent both
request 3 images of format (50, 0). -/
theorem recreation_idempotence_witness :
    (recreateSwapchain 0 calmRecreate sampleWorld).calls.filterMap Call.swapchainRequest
        = [(3, ⟨50, 0⟩)]
      ∧ (recreateSwapchain 2 { undefinedExtentRecreate with sizes := minimizedRecreate.sizes }
            resizedWorld).calls.filterMap Call.swapchainRequest
          = (recreateSwapchain 0 calmRecreate sampleWorld).calls.filterMap
              Call.swapchainRequest :=
  ((recreation_idempotence calmRecreate
      { undefinedExtentRecreate with sizes := minimizedRecreate.sizes } rfl rfl rfl).2
    0 2 sampleWorld resizedWorld (by decide!) (by decide!))

/-- C23 (view/image correspondence), as the code behaves.  `initVulkan` creates
one view per swapchain image and stores them.  A recreation from the sample
state gets the images 26, 27, 28 and creates two views for each of them:
`createSwapchain()` creates and stores the views 29, 30, 31, and
`recreateSwapchain` then creates the views 32, 33, 34 and stores these in their
place.  The stored list has one view per image, but the views 29, 30, 31 are
created, stored nowhere and never destroyed: the recreation destroys only the
old views 7, 8, 9, and the next recreation destroys only 32, 33, 34. -/
theorem image_views_orphaned_by_recreation :
    ((initVulkan calmInit ⟨constructedApp, 3⟩).world.app.m_swapchain_images = [5, 6, 7]
        ∧ (initVulkan calmInit ⟨constructedApp, 3⟩).world.app.m_swapchain_views = [8, 9, 10]
        ∧ (initVulkan calmInit ⟨constructedApp, 3⟩).calls.filter Call.isImageViewCreation
            = [.vkCreateImageView 5 50, .vkCreateImageView 6 50, .vkCreateImageView 7 50])
      ∧ (recreateSwapchain 0 calmRecreate sampleWorld).outcome = .returned ()
      ∧ (recreateSwapchain 0 calmRecreate sampleWorld).world.app.m_swapchain_images
          = [26, 27, 28]
      ∧ (recreateSwapchain 0 calmRecreate sampleWorld).calls.filter Call.isImageViewCreation
          = [.vkCreateImageView 26 50, .vkCreateImageView 27 50, .vkCreateImageView 28 50,
              .vkCreateImageView 26 50, .vkCreateImageView 27 50, .vkCreateImageView 28 50]
      ∧ (createSwapchain calmRecreate 1 sampleWorld).world.app.m_swapchain_views = [29, 30, 31]
      ∧ (recreateSwapchain 0 calmRecreate sampleWorld).world.app.m_swapchain_views
          = [32, 33, 34]
      ∧ (recreateSwapchain 0 calmRecreate sampleWorld).calls.filter
            Call.isImageViewDestruction
          = [.vkDestroyImageView 7, .vkDestroyImageView 8, .vkDestroyImageView 9]
      ∧ (recreateSwapchain 0 calmRecreate
            (recreateSwapchain 0 calmRecreate sampleWorld).world).calls.filter
            Call.isImageViewDestruction
          = [.vkDestroyImageView 32, .vkDestroyImageView 33, .vkDestroyImageView 34] := by
  decide!

/-- C13 (teardown order), as the code behaves.  A first recreation from the
sample state, to a swapchain of four images, destroys the framebuffers 10, 11,
12, stores the four new views 34 to 37 and creates a framebuffer for each of
them, but leaves `m_swapchain_framebuffers` at 10, 11, 12.  The next recreation
issues its destroy calls after the device-idle wait and in the order
framebuffers, image views, swapchain, render pass, pipeline, pipeline layout,
per-slot objects; but the framebuffers it destroys are again 10, 11, 12 and not
the four live ones, and of the four image views it destroys the first three:
view 37 is never destroyed. -/
theorem teardown_misses_live_objects :
    (recreateSwapchain 0 fourImageRecreate sampleWorld).outcome = .returned ()
      ∧ (∀ fb ∈ [10, 11, 12], Call.vkDestroyFramebuffer fb
          ∈ (recreateSwapchain 0 fourImageRecreate sampleWorld).calls)
      ∧ (∀ view ∈ [34, 35, 36, 37], Call.vkCreateFramebuffer 38 view ⟨800, 600⟩
          ∈ (recreateSwapchain 0 fourImageRecreate sampleWorld).calls)
      ∧ (recreateSwapchain 0 fourImageRecreate sampleWorld).world.app.m_swapchain_views
          = [34, 35, 36, 37]
      ∧ (recreateSwapchain 0 fourImageRecreate sampleWorld).world.app.m_swapchain_framebuffers
          = [10, 11, 12]
      ∧ (recreateSwapchain 0 calmRecreate
            (recreateSwapchain 0 fourImageRecreate sampleWorld).world).outcome = .returned ()
      ∧ (recreateSwapchain 0 calmRecreate
            (recreateSwapchain 0 fourImageRecreate sampleWorld).world).calls.take 19
          = [.recreateSwapchain, .glfwGetFramebufferSize 800 600, .vkDeviceWaitIdle,
              .vkDestroyFramebuffer 10, .vkDestroyFramebuffer 11, .vkDestroyFramebuffer 12,
              .vkDestroyImageView 34, .vkDestroyImageView 35, .vkDestroyImageView 36,
              .vkDestroySwapchainKHR 25, .vkDestroyRenderPass 38, .vkDestroyPipeline 40,
              .vkDestroyPipelineLayout 39, .vkDestroySemaphore 45, .vkDestroySemaphore 46,
              .vkDestroyFence 47, .vkDestroySemaphore 48, .vkDestroySemaphore 49,
              .vkDestroyFence 50]
      ∧ (recreateSwapchain 0 calmRecreate
            (recreateSwapchain 0 fourImageRecreate sampleWorld).world).calls.filter
            (fun c => decide (c.kind = .destroy))
          = [.vkDestroyFramebuffer 10, .vkDestroyFramebuffer 11, .vkDestroyFramebuffer 12,
              .vkDestroyImageView 34, .vkDestroyImageView 35, .vkDestroyImageView 36,
              .vkDestroySwapchainKHR 25, .vkDestroyRenderPass 38, .vkDestroyPipeline 40,
              .vkDestroyPipelineLayout 39, .vkDestroySemaphore 45, .vkDestroySemaphore 46,
              .vkDestroyFence 47, .vkDestroySemaphore 48, .vkDestroySemaphore 49,
              .vkDestroyFence 50]
      ∧ Call.vkDestroyImageView 37
          ∉ (recreateSwapchain 0 calmRecreate
              (recreateSwapchain 0 fourImageRecreate sampleWorld).world).calls := by
  decide!

end VkSample
